import Mathlib

/-! Probes of the concolic tracking core (`VSharp.ClrInteraction/probes.h`).

A shallow embedding of the command encoder, the response reconciler and the
instruction probes of `probes.h`, together with theorems about them.

Conventions of the embedding.

* A `char` buffer is a `List Nat` of bytes (each below 256).  Writing through a
  moving cursor is appending; reading through a moving cursor is splitting off
  a head segment.  Multi-byte scalars are little-endian, as on every target of
  the CLR profiler.
* `unsigned` values are natural numbers; where the source's 32-bit arithmetic
  can wrap, the wrap is written out (`u32`, `sub32`).
* A `FAIL_LOUD` or a failed `assert` is `Err.fatal`; an access outside an
  allocated array, to an array already deleted, or outside the received
  message is `Err.outOfBounds`.
* The classes `Stack` and `StackFrame` (header `memory/stack.h`) are not part of
  the sources at hand; their operations are modelled from the specification and
  are marked as such.
-/

namespace icsharp

/-! ## Platform parameters -/

/-- Sizes and signedness that the C++ source leaves to the compiler:
`sizeof(EvalStackArgType)` (an unscoped enumeration without a fixed underlying
type), `sizeof(VirtualAddress)` (declared in `memory/memory.h`, pointer wide)
and whether plain `char` is signed. -/
structure Abi where
  enumSize : Nat
  ptrSize : Nat
  charSigned : Bool
  deriving DecidableEq, Repr

/-- The 64-bit targets of the profiler (MSVC, Clang and GCC on x86-64): an
enumeration whose values fit an `int` has the size of `int`, pointers have
eight bytes and `char` is signed. -/
def abiX64 : Abi := ⟨4, 8, true⟩

/-- Outcome of an operation that does not complete. -/
inductive Err where
  | fatal
  | outOfBounds
  deriving DecidableEq, Repr

deriving instance DecidableEq for Except

/-! ## Bytes -/

/-- Truncation to an `unsigned` (32 bits). -/
def u32 (n : Nat) : Nat := n % 2 ^ 32

/-- The unsigned 32-bit difference `a - b`. -/
def sub32 (a b : Nat) : Nat := (u32 a + 2 ^ 32 - u32 b) % 2 ^ 32

/-- The `w` bytes stored by `*(T *)buffer = v` for a `w`-byte scalar. -/
def leBytes : Nat → Nat → List Nat
  | 0, _ => []
  | w + 1, v => (v % 256) :: leBytes w (v / 256)

/-- The scalar read back by `*(T *)buffer` from its bytes. -/
def leValue : List Nat → Nat
  | [] => 0
  | b :: bs => b + 256 * leValue bs

/-- Reading `n` bytes at the cursor of a received message: the bytes read and
the advanced cursor.  Fewer than `n` remaining bytes is a read past the end. -/
def readBytes (n : Nat) (bytes : List Nat) : Except Err (List Nat × List Nat) :=
  if n ≤ bytes.length then .ok (bytes.take n, bytes.drop n) else .error .outOfBounds

/-! ## Commands -/

def OpSymbolic : Nat := 1
def OpI4 : Nat := 2
def OpI8 : Nat := 3
def OpR4 : Nat := 4
def OpR8 : Nat := 5
def OpRef : Nat := 6

/-- The struct `EvalStackOperand`: the tag and the eight bytes of the union
`content`, kept as the unsigned value of `content.number`; `content.address`
is its low `ptrSize` bytes. -/
structure EvalStackOperand where
  typ : Nat
  content : Nat
  deriving DecidableEq, Repr

/-- The method `EvalStackOperand::size`. -/
def EvalStackOperand.size (abi : Abi) (op : EvalStackOperand) : Nat :=
  if op.typ = OpRef then abi.enumSize + abi.ptrSize else abi.enumSize + 8

/-- The method `EvalStackOperand::serialize`: the bytes written at the cursor. -/
def EvalStackOperand.serialize (abi : Abi) (op : EvalStackOperand) : List Nat :=
  leBytes abi.enumSize op.typ ++
    (if op.typ = OpRef then leBytes abi.ptrSize op.content else leBytes 8 op.content)

/-- The method `EvalStackOperand::deserialize` applied to the operand `old`:
the operand read and the advanced cursor.  For a reference only the address
bytes of the union are overwritten. -/
def EvalStackOperand.deserialize (abi : Abi) (old : EvalStackOperand) (bytes : List Nat) :
    Except Err (EvalStackOperand × List Nat) := do
  let (tag, rest) ← readBytes abi.enumSize bytes
  let typ := leValue tag
  if typ = OpRef then
    let (payload, rest) ← readBytes abi.ptrSize rest
    let high := old.content / 2 ^ (8 * abi.ptrSize) * 2 ^ (8 * abi.ptrSize)
    pure (⟨typ, (high + leValue payload) % 2 ^ 64⟩, rest)
  else
    let (payload, rest) ← readBytes 8 rest
    pure (⟨typ, leValue payload⟩, rest)

/-- The struct `ExecCommand`; the two arrays are lists, their element counts
are the separate fields of the source. -/
structure ExecCommand where
  offset : Nat
  isBranch : Nat
  newCallStackFramesCount : Nat
  callStackFramesPops : Nat
  evaluationStackPushesCount : Nat
  evaluationStackPops : Nat
  newCallStackFrames : List Nat
  evaluationStackPushes : List EvalStackOperand
  deriving DecidableEq, Repr

/-- The byte count computed at the head of `ExecCommand::serialize`. -/
def ExecCommand.serializedCount (abi : Abi) (c : ExecCommand) : Nat :=
  u32 (6 * 4 + 4 * c.newCallStackFramesCount +
    ((c.evaluationStackPushes.take c.evaluationStackPushesCount).map
      (EvalStackOperand.size abi)).sum)

/-- The bytes that `ExecCommand::serialize` writes, in the order of writing,
from the start of the buffer it allocates. -/
def ExecCommand.serializedBytes (abi : Abi) (c : ExecCommand) : List Nat :=
  leBytes 4 c.offset ++ leBytes 4 c.isBranch ++ leBytes 4 c.newCallStackFramesCount ++
    leBytes 4 c.callStackFramesPops ++ leBytes 4 c.evaluationStackPushesCount ++
    leBytes 4 c.evaluationStackPops ++
    (c.newCallStackFrames.flatMap (leBytes 4)).take (u32 (c.newCallStackFramesCount * 4)) ++
    (c.evaluationStackPushes.take c.evaluationStackPushesCount).flatMap
      (EvalStackOperand.serialize abi)

/-- The method `ExecCommand::serialize`: the written bytes and `count`. -/
def ExecCommand.serialize (abi : Abi) (c : ExecCommand) : List Nat × Nat :=
  (c.serializedBytes abi, c.serializedCount abi)

/-- The record layout as the specification words it: offset, branch flag,
count and list of new frame tokens, pop count, count and list of operand
descriptors, stack-pop count. -/
def specLayout (abi : Abi) (c : ExecCommand) : List Nat :=
  leBytes 4 c.offset ++ leBytes 4 c.isBranch ++
    leBytes 4 c.newCallStackFramesCount ++ c.newCallStackFrames.flatMap (leBytes 4) ++
    leBytes 4 c.callStackFramesPops ++
    leBytes 4 c.evaluationStackPushesCount ++
      c.evaluationStackPushes.flatMap (EvalStackOperand.serialize abi) ++
    leBytes 4 c.evaluationStackPops

/-! ## Shadow stack

The header `memory/stack.h` is not among the sources; the two classes below
follow sections 3 and 4.1 of the specification. -/

/-- Modelled from the spec: the class `StackFrame` of `memory/stack.h` (the
ShadowFrame of section 3).  Flags are `true` for concrete; the last element of
`evalStack` is the top.  A pair of `poppedSymbolics` is (generation, position):
the ordinal of the popped slot among the symbolic slots of the operand stack,
counted from the bottom starting at 1, and its position within the pop that
removed it, 0 for the slot popped first.  With this generation the payload
`currentSymbs - pair.first` of `initCommand` is the distance of the slot from
the symbolic-stack top of section 4.3, 0 for the topmost symbolic slot. -/
structure StackFrame where
  resolvedToken : Nat
  unresolvedToken : Nat
  args : List Bool
  locals : List Bool
  evalStack : List Bool
  poppedSymbolics : List (Nat × Nat)
  maxStackSize : Nat
  spontaneous : Bool
  entered : Bool
  deriving DecidableEq, Repr

/-- Modelled from the spec: the class `Stack` of `memory/stack.h` (the
ShadowStack of section 3) with its two batching counters.  The last element of
`frames` is the top frame; `frames[i]` is the frame at depth `i`. -/
structure Stack where
  frames : List StackFrame
  unsentPops : Nat
  minTopSinceLastSent : Nat
  deriving DecidableEq, Repr

namespace StackFrame

/-- Modelled from the spec: the frame built by `pushFrame`, "a not-yet-entered
frame" with the given tokens and argument flags; nothing else is set. -/
def fresh (resolvedToken unresolvedToken : Nat) (args : List Bool) : StackFrame :=
  ⟨resolvedToken, unresolvedToken, args, [], [], [], 0, false, false⟩

/-- Modelled from the spec: `StackFrame::count`, the number of live operand
slots. -/
def count (f : StackFrame) : Nat := f.evalStack.length

/-- Modelled from the spec: `StackFrame::symbolicsCount`, the number of
symbolic slots on the operand stack. -/
def symbolicsCount (f : StackFrame) : Nat := f.evalStack.count false

/-- Modelled from the spec: `StackFrame::push1`; section 7 makes a stack
overflow fatal, the capacity being the `maxStackSize` set by the prologue. -/
def push1 (c : Bool) (f : StackFrame) : Except Err StackFrame :=
  if f.evalStack.length < f.maxStackSize then
    .ok { f with evalStack := f.evalStack ++ [c] }
  else .error .fatal

/-- Modelled from the spec: `StackFrame::push1Concrete`. -/
def push1Concrete (f : StackFrame) : Except Err StackFrame := f.push1 true

/-- Modelled from the spec: removal of the top slot by a pop in which it has
position `pos`.  Popping an empty operand stack is fatal; a symbolic slot is
appended to `poppedSymbolics` with its generation and `pos`. -/
def popSlot (pos : Nat) (f : StackFrame) : Except Err (Bool × StackFrame) :=
  match f.evalStack.getLast? with
  | none => .error .fatal
  | some c =>
    .ok (c, { f with
      evalStack := f.evalStack.dropLast
      poppedSymbolics :=
        if c then f.poppedSymbolics else f.poppedSymbolics ++ [(f.symbolicsCount, pos)] })

/-- Modelled from the spec: `StackFrame::pop1`, which "returns the popped
slot's concreteness and, if symbolic, appends to `poppedSymbolics`". -/
def pop1 (f : StackFrame) : Except Err (Bool × StackFrame) := f.popSlot 0

/-- Modelled from the spec: the slots of positions `pos`, `pos + 1`, ... of a
pop of several slots, the top slot first; the flag is true when all of them
were concrete. -/
def popFrom : Nat → Nat → StackFrame → Except Err (Bool × StackFrame)
  | _, 0, f => .ok (true, f)
  | pos, n + 1, f => do
    let (c, f1) ← f.popSlot pos
    let (cs, f2) ← popFrom (pos + 1) n f1
    pure (c && cs, f2)

/-- Modelled from the spec: `StackFrame::pop(n)`, which pops `n` slots,
"recording symbolic ones with their pop position", and tells whether all the
popped slots were concrete. -/
def pop (n : Nat) (f : StackFrame) : Except Err (Bool × StackFrame) := popFrom 0 n f

/-- Modelled from the spec: `StackFrame::pop0`, a pop of no slot. -/
def pop0 (f : StackFrame) : StackFrame := f

/-- Modelled from the spec: `StackFrame::arg`, bounds-checked; an index out of
range is fatal. -/
def arg (i : Nat) (f : StackFrame) : Except Err Bool :=
  match f.args[i]? with
  | some c => .ok c
  | none => .error .fatal

/-- Modelled from the spec: `StackFrame::loc`, bounds-checked. -/
def loc (i : Nat) (f : StackFrame) : Except Err Bool :=
  match f.locals[i]? with
  | some c => .ok c
  | none => .error .fatal

/-- Modelled from the spec: `StackFrame::setArg`, bounds-checked. -/
def setArg (i : Nat) (c : Bool) (f : StackFrame) : Except Err StackFrame :=
  if i < f.args.length then .ok { f with args := f.args.set i c } else .error .fatal

/-- Modelled from the spec: `StackFrame::setLoc`, bounds-checked. -/
def setLoc (i : Nat) (c : Bool) (f : StackFrame) : Except Err StackFrame :=
  if i < f.locals.length then .ok { f with locals := f.locals.set i c } else .error .fatal

/-- Modelled from the spec: `StackFrame::configure`, by which the prologue
sets the stack size and sizes the locals; fresh locals are concrete. -/
def configure (maxStackSize localsCount : Nat) (f : StackFrame) : StackFrame :=
  { f with maxStackSize := maxStackSize, locals := List.replicate localsCount true }

/-- Modelled from the spec: the frame part of `resetPopsTracking`, which
clears `poppedSymbolics`. -/
def resetPopsTracking (f : StackFrame) : StackFrame := { f with poppedSymbolics := [] }

end StackFrame

namespace Stack

/-- Modelled from the spec: `Stack::isEmpty`. -/
def isEmpty (s : Stack) : Bool := s.frames.isEmpty

/-- Modelled from the spec: `Stack::framesCount`, the current depth. -/
def framesCount (s : Stack) : Nat := s.frames.length

/-- Modelled from the spec: `Stack::topFrame`, "fatal if empty". -/
def topFrame (s : Stack) : Except Err StackFrame :=
  match s.frames.getLast? with
  | some f => .ok f
  | none => .error .fatal

/-- Writing through the reference returned by `topFrame()`: the top frame is
replaced by `f`. -/
def setTop (f : StackFrame) (s : Stack) : Stack :=
  { s with frames := s.frames.dropLast ++ [f] }

/-- Modelled from the spec: `Stack::pushFrame`, which "creates a
not-yet-entered frame" on top. -/
def pushFrame (resolvedToken unresolvedToken : Nat) (args : List Bool) (s : Stack) : Stack :=
  { s with frames := s.frames ++ [StackFrame.fresh resolvedToken unresolvedToken args] }

/-- Modelled from the spec: `Stack::popFrame`, "fatal if empty".  The return
is accumulated in `unsentPops` and `minTopSinceLastSent` keeps the shallowest
depth reached since the last flush. -/
def popFrame (s : Stack) : Except Err Stack :=
  if s.frames.isEmpty then .error .fatal
  else .ok
    { frames := s.frames.dropLast
      unsentPops := s.unsentPops + 1
      minTopSinceLastSent := min s.minTopSinceLastSent (s.frames.length - 1) }

/-- Modelled from the spec: `Stack::resetPopsTracking`, which "clears
`poppedSymbolics`, `unsentPops`, and sets `minTopSinceLastSent` to the current
depth"; the list cleared is that of the top frame. -/
def resetPopsTracking (s : Stack) : Stack :=
  match s.frames.getLast? with
  | some f =>
    { frames := s.frames.dropLast ++ [f.resetPopsTracking]
      unsentPops := 0
      minTopSinceLastSent := s.frames.length }
  | none => { s with unsentPops := 0, minTopSinceLastSent := 0 }

end Stack

/-! ## What lies outside `probes.h` -/

/-- The parts of the build and of `memory/stack.h` that the code of `probes.h`
calls and on which the specification is silent: the platform, whether `_DEBUG`
is defined, the token that `Stack::tokenAt(i)` reports for the frame at depth
`i`, as a function of the identity pair (resolved token, unresolved token) of
that frame, and `StackFrame::evaluationStackPops`. -/
structure Env where
  abi : Abi
  debug : Bool
  frameToken : Nat → Nat → Nat
  evaluationStackPops : StackFrame → Nat

/-- The call `stack.tokenAt(i)` for the frame `f` at depth `i`. -/
def Env.tokenAt (env : Env) (f : StackFrame) : Nat :=
  env.frameToken f.resolvedToken f.unresolvedToken

/-- A call of one of the materialization functions `update_i4`, `update_i8`,
`update_f4`, `update_f8`, `update_p` (external), with its two arguments; a
floating-point argument is kept as the integer that is converted. -/
inductive Update where
  | i4 (value idx : Int)
  | i8 (value idx : Int)
  | f4 (value idx : Int)
  | f8 (value idx : Int)
  | p (addr idx : Int)
  deriving DecidableEq, Repr

/-- The state an instrumentation call works on: the shadow stack of the
thread, the commands handed to the protocol so far and the materialization
calls made so far. -/
structure World where
  stack : Stack
  sent : List ExecCommand
  updates : List Update
  deriving DecidableEq, Repr

/-! ## Building, sending and reconciling a command -/

/-- The value of a `w`-bit two's complement integer holding the bits of `n`:
the casts `(INT32)`, `(INT64)` and `(INT8)` of the source. -/
def signed (w n : Nat) : Int :=
  if n % 2 ^ w < 2 ^ (w - 1) then (n % 2 ^ w : Nat) else (n % 2 ^ w : Nat) - (2 ^ w : Nat)

/-- The bits of a `long long` holding the integer `x`. -/
def raw64 (x : Int) : Nat := (x % 2 ^ 64).toNat

/-- The function `mkop_4`, for an `INT32` argument. -/
def mkop_4 (op : Int) : EvalStackOperand := ⟨OpI4, raw64 op⟩

/-- The function `mkop_8`, for an `INT64` argument. -/
def mkop_8 (op : Int) : EvalStackOperand := ⟨OpI8, raw64 op⟩

/-- A finite value of the types `FLOAT` and `DOUBLE`: the number
`mantissa * 2 ^ exponent`. -/
structure FloatValue where
  mantissa : Int
  exponent : Int
  deriving DecidableEq, Repr

/-- The number a floating-point value stands for. -/
def FloatValue.value (v : FloatValue) : ℚ := v.mantissa * (2 : ℚ) ^ v.exponent

/-- The integer part of a floating-point value, the fraction discarded
(truncation toward zero). -/
def FloatValue.trunc (v : FloatValue) : Int :=
  if 0 ≤ v.exponent then v.mantissa * 2 ^ v.exponent.toNat
  else Int.tdiv v.mantissa (2 ^ (-v.exponent).toNat)

/-- The conversion `(long long)op` of a floating-point value: its integer part
when that is a `long long`.  For the other values the C++ conversion is
undefined; the instruction of the 64-bit targets then yields `INT64_MIN`. -/
def FloatValue.toInt (v : FloatValue) : Int :=
  if -(2 ^ 63) ≤ v.trunc ∧ v.trunc < 2 ^ 63 then v.trunc else -(2 ^ 63)

/-- The function `mkop_f4`, for a `FLOAT` argument. -/
def mkop_f4 (op : FloatValue) : EvalStackOperand := ⟨OpR4, raw64 op.toInt⟩

/-- The function `mkop_f8`, for a `DOUBLE` argument. -/
def mkop_f8 (op : FloatValue) : EvalStackOperand := ⟨OpR8, raw64 op.toInt⟩

/-- The function `mkop_p`, for an `INT_PTR` argument. -/
def mkop_p (op : Int) : EvalStackOperand := ⟨OpRef, raw64 op⟩

/-- The function `mkop_struct`, which fails loudly. -/
def mkop_struct (_op : Int) : Except Err EvalStackOperand := .error .fatal

/-- The loop of `initCommand` over the popped symbolic slots: the operand at
the recorded position becomes a symbolic descriptor whose payload is the
32-bit difference `currentSymbs - pair.first`. -/
def markSymbolics (currentSymbs : Nat) :
    List (Nat × Nat) → List EvalStackOperand → Except Err (List EvalStackOperand)
  | [], ops => .ok ops
  | pair :: pairs, ops =>
    if pair.2 < ops.length then
      markSymbolics currentSymbs pairs (ops.set pair.2 ⟨OpSymbolic, sub32 currentSymbs pair.1⟩)
    else .error .fatal

/-- The function `initCommand`; `opsCount` is the length of `ops`.  The result
is the command and the stack after `resetPopsTracking`. -/
def initCommand (env : Env) (offset : Nat) (isBranch : Bool) (ops : List EvalStackOperand)
    (stack : Stack) : Except Err (ExecCommand × Stack) := do
  let top ← stack.topFrame
  let minCallFrames := stack.minTopSinceLastSent
  let currCallFrames := stack.framesCount
  if minCallFrames ≤ currCallFrames then
    let newCallStackFrames := (stack.frames.drop minCallFrames).map env.tokenAt
    let afterPop := top.symbolicsCount
    let currentSymbs := u32 (afterPop + top.poppedSymbolics.length)
    let marked ← markSymbolics currentSymbs top.poppedSymbolics ops
    pure
      ({ offset := offset
         isBranch := if isBranch then 1 else 0
         newCallStackFramesCount := currCallFrames - minCallFrames
         callStackFramesPops := stack.unsentPops
         evaluationStackPushesCount := ops.length
         evaluationStackPops := env.evaluationStackPops top
         newCallStackFrames := newCallStackFrames
         evaluationStackPushes := marked }, stack.resetPopsTracking)
  else .error .fatal

/-- The test `bytes[i] > 0` on a `char` holding the byte `b`. -/
def charPositive (abi : Abi) (b : Nat) : Bool :=
  if abi.charSigned then decide (0 < b ∧ b < 128) else decide (0 < b)

/-- The loop of `readConcretizedSymbolics`: `n` further descriptors are read
into `ops[i]`, `ops[i + 1]`, ... -/
def readOps (abi : Abi) :
    Nat → Nat → List EvalStackOperand → List Nat → Except Err (List EvalStackOperand)
  | 0, _, ops, _ => .ok ops
  | n + 1, i, ops, bytes =>
    match ops[i]? with
    | none => .error .outOfBounds
    | some old => do
      let (op, rest) ← EvalStackOperand.deserialize abi old bytes
      readOps abi n (i + 1) (ops.set i op) rest

/-- The function `readConcretizedSymbolics`.  The answer of
`protocol->waitExecResult` is `none` when the wait fails and the received
message otherwise, `messageLength` being its length.  The result is the
returned flag, the top frame and the operand array after the call. -/
def readConcretizedSymbolics (env : Env) (resp : Option (List Nat)) (top : StackFrame)
    (ops : List EvalStackOperand) : Except Err (Bool × StackFrame × List EvalStackOperand) :=
  match resp with
  | none => .ok (false, top, ops)
  | some msg =>
    match msg with
    | [] => .error .fatal
    | b0 :: tail => do
      let (top1, cursor) ←
        (if charPositive env.abi b0 then
          match tail with
          | [] => .error .fatal
          | b1 :: tail1 => do
            let t ← top.push1 (charPositive env.abi b1)
            pure (t, tail1)
        else pure (top, tail) : Except Err (StackFrame × List Nat))
      if 2 < msg.length then
        if 5 ≤ msg.length then do
          let (countBytes, cursor1) ← readBytes 4 cursor
          let ops1 ← readOps env.abi (leValue countBytes) 0 ops cursor1
          pure (true, top1, ops1)
        else .error .fatal
      else pure (true, top1, ops)

/-- The `switch` of `sendCommand` on the tag of a concretized operand, whose
arms are not separated: the materialization calls made for `op` at `idx`. -/
def updateCalls (op : EvalStackOperand) (idx : Nat) : List Update :=
  let i := signed 8 idx
  let fromF8 := [Update.f8 (signed 64 op.content) i, Update.p 0 i]
  let fromF4 := Update.f4 (signed 32 op.content) i :: fromF8
  let fromI8 := Update.i8 (signed 64 op.content) i :: fromF4
  if op.typ = OpI4 then Update.i4 (signed 32 op.content) i :: fromI8
  else if op.typ = OpI8 then fromI8
  else if op.typ = OpR4 then fromF4
  else if op.typ = OpR8 then fromF8
  else if op.typ = OpRef then [Update.p 0 i]
  else []

/-- The function `freeCommand`, as it bears on the operand array of the
command: after `delete[] command.evaluationStackPushes` none of its elements
may be accessed, so the array has no element left. -/
def freeCommand (_command : ExecCommand) : List EvalStackOperand := []

/-- The loop of `sendCommand` over the popped symbolic slots of the top frame,
for the count `opsCount` and the elements of `ops` that may be accessed: the
materialization calls it makes, in order.  The index is asserted to be below
`opsCount`; reading an element that is not there is out of bounds. -/
def reconcileAt (opsCount : Nat) (ops : List EvalStackOperand) :
    List (Nat × Nat) → Except Err (List Update)
  | [] => .ok []
  | pair :: pairs =>
    let idx := sub32 (sub32 opsCount pair.2) 1
    if idx < opsCount then
      match ops[idx]? with
      | none => .error .outOfBounds
      | some op => do
        let later ← reconcileAt opsCount ops pairs
        pure (updateCalls op idx ++ later)
    else .error .fatal

/-- The loop of `sendCommand` run on an operand array whose `opsCount`
elements are all there. -/
def reconcile (ops : List EvalStackOperand) : List (Nat × Nat) → Except Err (List Update) :=
  reconcileAt ops.length ops

/-- The function `sendCommand`; `resp` is what `waitExecResult` delivers for
this command.  The operand array `ops` is the one `freeCommand` deletes before
the response is decoded into it. -/
def sendCommand (env : Env) (resp : Option (List Nat)) (offset : Nat)
    (ops : List EvalStackOperand) (w : World) : Except Err (Bool × World) := do
  let (command, stack1) ← initCommand env offset false ops w.stack
  let sent := w.sent ++ [command]
  let ops0 := freeCommand command
  let top ← stack1.topFrame
  let (allConcrete, top1, ops1) ← readConcretizedSymbolics env resp top ops0
  let calls ← (if allConcrete then reconcileAt ops.length ops1 top1.poppedSymbolics else pure [])
  pure (allConcrete, ⟨stack1.setTop top1, sent, w.updates ++ calls⟩)

/-- The function `sendCommand0`. -/
def sendCommand0 (env : Env) (resp : Option (List Nat)) (offset : Nat) (w : World) :
    Except Err (Bool × World) :=
  sendCommand env resp offset [] w

/-- The function `sendCommand1`; `junk` is the content of the operand it
allocates and does not initialise. -/
def sendCommand1 (env : Env) (resp : Option (List Nat)) (junk : EvalStackOperand)
    (offset : Nat) (w : World) : Except Err (Bool × World) :=
  sendCommand env resp offset [junk] w

/-! ## Probes -/

/-- The function `branch`; the result is the returned flag. -/
def branch (env : Env) (resp : Option (List Nat)) (junk : EvalStackOperand)
    (offset : Nat) (w : World) : Except Err (Bool × World) := do
  let top ← w.stack.topFrame
  let (concreteness, top1) ← top.pop1
  if ¬ concreteness then
    sendCommand1 env resp junk offset { w with stack := w.stack.setTop top1 }
  else pure (true, { w with stack := w.stack.setTop top1 })

/-- The probe `BrTrue`. -/
def BrTrue (env : Env) (resp : Option (List Nat)) (junk : EvalStackOperand)
    (offset : Nat) (w : World) : Except Err World := do
  let (_, w1) ← branch env resp junk offset w
  pure w1

/-- The probe `BrFalse`. -/
def BrFalse (env : Env) (resp : Option (List Nat)) (junk : EvalStackOperand)
    (offset : Nat) (w : World) : Except Err World := do
  let (_, w1) ← branch env resp junk offset w
  pure w1

/-- The body shared by `Track_UnOp`, `conv` and `Track_Ldlen`: pop one flag;
push a concrete flag if it was concrete, else `sendCommand1(offset)`. -/
def popPushOrSend (env : Env) (resp : Option (List Nat)) (junk : EvalStackOperand)
    (offset : Nat) (w : World) : Except Err World := do
  let top ← w.stack.topFrame
  let (concreteness, top1) ← top.pop1
  if concreteness then
    let top2 ← top1.push1Concrete
    pure { w with stack := w.stack.setTop top2 }
  else
    let (_, w1) ← sendCommand1 env resp junk offset { w with stack := w.stack.setTop top1 }
    pure w1

/-- The probe `Track_UnOp`. -/
def Track_UnOp (env : Env) (resp : Option (List Nat)) (junk : EvalStackOperand)
    (_op offset : Nat) (w : World) : Except Err World :=
  popPushOrSend env resp junk offset w

/-- The function `conv`. -/
def conv (env : Env) (resp : Option (List Nat)) (junk : EvalStackOperand)
    (offset : Nat) (w : World) : Except Err World :=
  popPushOrSend env resp junk offset w

/-- The probe `Track_Conv`. -/
def Track_Conv (env : Env) (resp : Option (List Nat)) (junk : EvalStackOperand)
    (offset : Nat) (w : World) : Except Err World :=
  conv env resp junk offset w

/-- The probe `Track_Conv_Ovf`. -/
def Track_Conv_Ovf (env : Env) (resp : Option (List Nat)) (junk : EvalStackOperand)
    (offset : Nat) (w : World) : Except Err World :=
  conv env resp junk offset w

/-- The probe `Track_Ldlen`. -/
def Track_Ldlen (env : Env) (resp : Option (List Nat)) (junk : EvalStackOperand)
    (_ptr : Int) (offset : Nat) (w : World) : Except Err World :=
  popPushOrSend env resp junk offset w

/-- The probe `Track_BinOp`; the result is the returned condition. -/
def Track_BinOp (w : World) : Except Err (Bool × World) := do
  let top ← w.stack.topFrame
  let (concreteness, top1) ← top.pop 2
  if concreteness then
    let top2 ← top1.push1Concrete
    pure (concreteness, { w with stack := w.stack.setTop top2 })
  else
    pure (concreteness, { w with stack := w.stack.setTop top1 })

/-- The probe `Exec_BinOp_8`. -/
def Exec_BinOp_8 (env : Env) (resp : Option (List Nat)) (_op : Nat) (arg1 arg2 : Int)
    (offset : Nat) (w : World) : Except Err World := do
  let (_, w1) ← sendCommand env resp offset [mkop_8 arg1, mkop_8 arg2] w
  pure w1

/-- The probe `Exec_BinOp_f4`. -/
def Exec_BinOp_f4 (env : Env) (resp : Option (List Nat)) (_op : Nat) (arg1 arg2 : FloatValue)
    (offset : Nat) (w : World) : Except Err World := do
  let (_, w1) ← sendCommand env resp offset [mkop_f4 arg1, mkop_f4 arg2] w
  pure w1

/-- The probe `Exec_BinOp_f8`. -/
def Exec_BinOp_f8 (env : Env) (resp : Option (List Nat)) (_op : Nat) (arg1 arg2 : FloatValue)
    (offset : Nat) (w : World) : Except Err World := do
  let (_, w1) ← sendCommand env resp offset [mkop_f8 arg1, mkop_f8 arg2] w
  pure w1

/-- The probe `Exec_BinOp_p`. -/
def Exec_BinOp_p (env : Env) (resp : Option (List Nat)) (_op : Nat) (arg1 arg2 : Int)
    (offset : Nat) (w : World) : Except Err World := do
  let (_, w1) ← sendCommand env resp offset [mkop_p arg1, mkop_p arg2] w
  pure w1

/-- Writes `array[i] = v` into an allocated array, in order; a write at an
index outside the array is out of bounds. -/
def writeAll : List (Nat × Bool) → List Bool → Except Err (List Bool)
  | [], arr => .ok arr
  | (i, v) :: ws, arr =>
    if i < arr.length then writeAll ws (arr.set i v) else .error .outOfBounds

/-- The writes by which `Track_Call` initialises `argsConcreteness`: the store
to element 0 for `newobj`, then the `memset` of `argsCount` bytes from element
1 for `newobj` and from element 0 otherwise. -/
def Track_Call_initWrites (newobj : Bool) (argsCount : Nat) : List (Nat × Bool) :=
  (if newobj then [(0, true)] else []) ++
    (List.range argsCount).map (fun i => ((if newobj then 1 else 0) + i, true))

/-- The writes of the loop of `Track_Call` over the popped symbolic slots. -/
def Track_Call_markWrites (symbolicsCount : Nat) (poppedSymbs : List (Nat × Nat)) :
    List (Nat × Bool) :=
  poppedSymbs.map (fun pair => (sub32 symbolicsCount pair.1, false))

/-- The probe `Track_Call`; `argsCount` is a `UINT16`. -/
def Track_Call (unresolvedToken resolvedToken : Nat) (newobj : Bool) (argsCount _offset : Nat)
    (w : World) : Except Err World := do
  let top ← w.stack.topFrame
  let poppedArgsCount := argsCount
  let argsCount := if newobj then (argsCount + 1) % 2 ^ 16 else argsCount
  let allocated := List.replicate argsCount false
  let initialised ← writeAll (Track_Call_initWrites newobj argsCount) allocated
  let (_, top1) ← top.pop poppedArgsCount
  let symbolicsCount := u32 (top1.symbolicsCount + top1.poppedSymbolics.length)
  let argsConcreteness ←
    writeAll (Track_Call_markWrites symbolicsCount top1.poppedSymbolics) initialised
  let stack1 := w.stack.setTop top1
  pure { w with stack := stack1.pushFrame resolvedToken unresolvedToken argsConcreteness }

/-- The probe `Track_CallVirt`. -/
def Track_CallVirt (count offset : Nat) (w : World) : Except Err World :=
  Track_Call 0 0 false count offset w

/-- The probe `Track_Calli`. -/
def Track_Calli (_signature _offset : Nat) (_w : World) : Except Err World := .error .fatal

/-- The probe `Track_Enter`. -/
def Track_Enter (token maxStackSize argsCount localsCount : Nat) (w : World) :
    Except Err World :=
  if w.stack.isEmpty then .error .fatal
  else do
    let top ← w.stack.topFrame
    let expected := top.resolvedToken
    if expected = 0 ∨ expected = token then
      let top1 := { top with spontaneous := false }
      let top2 := { top1 with entered := true }
      pure { w with stack := w.stack.setTop (top2.configure maxStackSize localsCount) }
    else
      let args := List.replicate argsCount true
      let stack1 := w.stack.pushFrame token token args
      let top ← stack1.topFrame
      let top1 := { top with spontaneous := true }
      let top2 := { top1 with entered := true }
      pure { w with stack := stack1.setTop (top2.configure maxStackSize localsCount) }

/-- The probe `Track_Leave`; `returnValues` is a `UINT8`.  The flag
`isSpontaneous` is read from the frame that has just been popped. -/
def Track_Leave (env : Env) (returnValues _offset : Nat) (w : World) : Except Err World := do
  let top ← w.stack.topFrame
  if env.debug ∧ ¬ (returnValues = 0 ∨ returnValues = 1) then .error .fatal
  else if env.debug ∧ top.count ≠ returnValues then .error .fatal
  else if returnValues ≠ 0 then
    let (returnValue, top1) ← top.pop1
    let stack1 ← (w.stack.setTop top1).popFrame
    if ¬ stack1.isEmpty then
      if ¬ top1.spontaneous then
        let caller ← stack1.topFrame
        let caller1 ← caller.push1 returnValue
        pure { w with stack := stack1.setTop caller1 }
      else pure { w with stack := stack1 }
    else .error .fatal
  else
    let stack1 ← w.stack.popFrame
    pure { w with stack := stack1 }

/-- The probe `Finalize_Call`; `returnValues` is a `UINT8`. -/
def Finalize_Call (env : Env) (returnValues : Nat) (w : World) : Except Err World := do
  let top ← w.stack.topFrame
  if ¬ top.entered then
    let stack1 ← w.stack.popFrame
    if env.debug ∧ ¬ (returnValues = 0 ∨ returnValues = 1) then .error .fatal
    else if env.debug ∧ stack1.isEmpty then .error .fatal
    else if returnValues ≠ 0 then
      let caller ← stack1.topFrame
      let caller1 ← caller.push1Concrete
      pure { w with stack := stack1.setTop caller1 }
    else pure { w with stack := stack1 }
  else pure w

/-- An `INT16` index handed to a bounds-checked accessor of the frame: a
negative index is out of range. -/
def slotIndex (idx : Int) : Except Err Nat :=
  if 0 ≤ idx then .ok idx.toNat else .error .fatal

/-- The function `ldarg`; `idx` is an `INT16`. -/
def ldarg (idx : Int) (w : World) : Except Err (Bool × World) := do
  let top ← w.stack.topFrame
  let top0 := top.pop0
  let i ← slotIndex idx
  let concreteness ← top0.arg i
  if concreteness then
    let top1 ← top0.push1Concrete
    pure (concreteness, { w with stack := w.stack.setTop top1 })
  else pure (concreteness, { w with stack := w.stack.setTop top0 })

/-- The function `ldloc`; `idx` is an `INT16`. -/
def ldloc (idx : Int) (w : World) : Except Err (Bool × World) := do
  let top ← w.stack.topFrame
  let top0 := top.pop0
  let i ← slotIndex idx
  let concreteness ← top0.loc i
  if concreteness then
    let top1 ← top0.push1Concrete
    pure (concreteness, { w with stack := w.stack.setTop top1 })
  else pure (concreteness, { w with stack := w.stack.setTop top0 })

/-- The body `if (!helper(...)) sendCommand0(offset);` of the load probes,
applied to the outcome of the helper. -/
def unlessSend0 (env : Env) (resp : Option (List Nat)) (offset : Nat)
    (helper : Except Err (Bool × World)) : Except Err World := do
  let (concreteness, w1) ← helper
  if concreteness then pure w1
  else
    let (_, w2) ← sendCommand0 env resp offset w1
    pure w2

/-- The probe `Track_Ldarg_0`. -/
def Track_Ldarg_0 (env : Env) (resp : Option (List Nat)) (offset : Nat) (w : World) :
    Except Err World :=
  unlessSend0 env resp offset (ldarg 0 w)

/-- The probe `Track_Ldarg_1`. -/
def Track_Ldarg_1 (env : Env) (resp : Option (List Nat)) (offset : Nat) (w : World) :
    Except Err World :=
  unlessSend0 env resp offset (ldarg 1 w)

/-- The probe `Track_Ldarg_2`. -/
def Track_Ldarg_2 (env : Env) (resp : Option (List Nat)) (offset : Nat) (w : World) :
    Except Err World :=
  unlessSend0 env resp offset (ldarg 2 w)

/-- The probe `Track_Ldarg_3`. -/
def Track_Ldarg_3 (env : Env) (resp : Option (List Nat)) (offset : Nat) (w : World) :
    Except Err World :=
  unlessSend0 env resp offset (ldarg 3 w)

/-- The probe `Track_Ldarg_S`; `idx` is a `UINT8`. -/
def Track_Ldarg_S (env : Env) (resp : Option (List Nat)) (idx offset : Nat) (w : World) :
    Except Err World :=
  unlessSend0 env resp offset (ldarg (idx % 2 ^ 8 : Nat) w)

/-- The probe `Track_Ldarg`; `idx` is a `UINT16`, converted to the `INT16`
parameter of `ldarg`. -/
def Track_Ldarg (env : Env) (resp : Option (List Nat)) (idx offset : Nat) (w : World) :
    Except Err World :=
  unlessSend0 env resp offset (ldarg (signed 16 idx) w)

/-- The probe `Track_Ldloc_0`. -/
def Track_Ldloc_0 (env : Env) (resp : Option (List Nat)) (offset : Nat) (w : World) :
    Except Err World :=
  unlessSend0 env resp offset (ldloc 0 w)

/-- The probe `Track_Ldloc_1`. -/
def Track_Ldloc_1 (env : Env) (resp : Option (List Nat)) (offset : Nat) (w : World) :
    Except Err World :=
  unlessSend0 env resp offset (ldloc 1 w)

/-- The probe `Track_Ldloc_2`. -/
def Track_Ldloc_2 (env : Env) (resp : Option (List Nat)) (offset : Nat) (w : World) :
    Except Err World :=
  unlessSend0 env resp offset (ldloc 2 w)

/-- The probe `Track_Ldloc_3`. -/
def Track_Ldloc_3 (env : Env) (resp : Option (List Nat)) (offset : Nat) (w : World) :
    Except Err World :=
  unlessSend0 env resp offset (ldloc 3 w)

/-- The probe `Track_Ldloc_S`; `idx` is a `UINT8`. -/
def Track_Ldloc_S (env : Env) (resp : Option (List Nat)) (idx offset : Nat) (w : World) :
    Except Err World :=
  unlessSend0 env resp offset (ldloc (idx % 2 ^ 8 : Nat) w)

/-- The probe `Track_Ldloc`; `idx` is a `UINT16`, converted to the `INT16`
parameter of `ldloc`. -/
def Track_Ldloc (env : Env) (resp : Option (List Nat)) (idx offset : Nat) (w : World) :
    Except Err World :=
  unlessSend0 env resp offset (ldloc (signed 16 idx) w)

/-- The function `starg`; `idx` is an `INT16`. -/
def starg (idx : Int) (w : World) : Except Err (Bool × World) := do
  let top ← w.stack.topFrame
  let (concreteness, top1) ← top.pop1
  let i ← slotIndex idx
  let top2 ← top1.setArg i concreteness
  pure (concreteness, { w with stack := w.stack.setTop top2 })

/-- The function `stloc`; `idx` is an `INT16`. -/
def stloc (idx : Int) (w : World) : Except Err (Bool × World) := do
  let top ← w.stack.topFrame
  let (concreteness, top1) ← top.pop1
  let i ← slotIndex idx
  let top2 ← top1.setLoc i concreteness
  pure (concreteness, { w with stack := w.stack.setTop top2 })

/-- The function `stfld`. -/
def stfld (_fieldToken : Nat) (_ptr : Int) (w : World) : Except Err (Bool × World) := do
  let top ← w.stack.topFrame
  let (concreteness, top1) ← top.pop 2
  pure (concreteness, { w with stack := w.stack.setTop top1 })

/-- The probe `Track_Stfld_struct`: the operand array is built, `mkop_struct`
included, before `sendCommand` is entered. -/
def Track_Stfld_struct (env : Env) (resp : Option (List Nat)) (fieldToken : Nat)
    (ptr value : Int) (offset : Nat) (w : World) : Except Err World := do
  let (concreteness, w1) ← stfld fieldToken ptr w
  if concreteness then pure w1
  else
    let structOperand ← mkop_struct value
    let (_, w2) ← sendCommand env resp offset [mkop_p ptr, structOperand] w1
    pure w2

/-! ## Notions used to state the theorems -/

/-- The arguments of one invocation of `Track_Call`. -/
structure CallSite where
  unresolvedToken : Nat
  resolvedToken : Nat
  newobj : Bool
  argsCount : Nat
  offset : Nat
  deriving DecidableEq, Repr

/-- Successive invocations of `Track_Call`, with nothing in between. -/
def trackCalls : List CallSite → World → Except Err World
  | [], w => .ok w
  | c :: cs, w => do
    let w1 ← Track_Call c.unresolvedToken c.resolvedToken c.newobj c.argsCount c.offset w
    trackCalls cs w1

/-- The response layout as the specification words it (section 4.4): a 1-byte
"has return value" flag, the 1-byte concreteness of the return value when the
flag is set, and optionally a trailing block of a 4-byte count followed by
that many operand descriptors. -/
def encodeResponse (abi : Abi) (returned : Option Bool)
    (concretized : Option (List EvalStackOperand)) : List Nat :=
  (match returned with
    | none => [0]
    | some c => [1, if c then 1 else 0]) ++
  (match concretized with
    | none => []
    | some ds => leBytes 4 ds.length ++ ds.flatMap (EvalStackOperand.serialize abi))

/-- The frame after the flag announced by a response, if any, is pushed. -/
def StackFrame.withReturned (returned : Option Bool) (f : StackFrame) : StackFrame :=
  match returned with
  | none => f
  | some c => { f with evalStack := f.evalStack ++ [c] }

/-- The trailing block of a response as the specification words it: the
4-byte count followed by that many operand descriptors, or nothing. -/
def encodeBlock (abi : Abi) (concretized : Option (List EvalStackOperand)) : List Nat :=
  match concretized with
  | none => []
  | some ds => leBytes 4 ds.length ++ ds.flatMap (EvalStackOperand.serialize abi)

/-- The operand that `deserialize` leaves in the place of `old` when it reads
the bytes written by `serialize` for the descriptor `d`: the tag of `d` and its
payload in the width written, the upper bytes of the union being kept for a
reference. -/
def EvalStackOperand.received (abi : Abi) (old d : EvalStackOperand) : EvalStackOperand :=
  if d.typ = OpRef then
    ⟨d.typ, (old.content / 2 ^ (8 * abi.ptrSize) * 2 ^ (8 * abi.ptrSize) +
      d.content % 256 ^ abi.ptrSize) % 2 ^ 64⟩
  else ⟨d.typ, d.content % 256 ^ 8⟩

/-- The operand array after the descriptors `ds` are received into its first
elements, in order. -/
def receivedOps (abi : Abi) (ops ds : List EvalStackOperand) : List EvalStackOperand :=
  List.zipWith (EvalStackOperand.received abi) ops ds ++ ops.drop ds.length

/-- The operand array after a response with the trailing block `concretized`,
if any, is decoded. -/
def receivedBlock (abi : Abi) (ops : List EvalStackOperand) :
    Option (List EvalStackOperand) → List EvalStackOperand
  | none => ops
  | some ds => receivedOps abi ops ds

/-- The member `content.address` of an operand: the low
`sizeof(VirtualAddress)` bytes of the union. -/
def EvalStackOperand.address (abi : Abi) (op : EvalStackOperand) : Nat :=
  op.content % 256 ^ abi.ptrSize

/-- The member `content.number` of an operand: the eight bytes of the union. -/
def EvalStackOperand.number (op : EvalStackOperand) : Nat := op.content % 2 ^ 64

/-- One push of the flag `r` in the method that is executing: the call
`topFrame().push1(r)`. -/
def pushFlag (r : Bool) (w : World) : Except Err World := do
  let top ← w.stack.topFrame
  let top1 ← top.push1 r
  pure { w with stack := w.stack.setTop top1 }

/-- A managed call that returns one value, seen from the caller: `Track_Call`
for `n` arguments without `newobj`, the prologue `Track_Enter` of the callee,
one push of the flag `r` in the callee, its epilogue `Track_Leave(1)` and
`Finalize_Call(1)` of the call site. -/
def managedCall (env : Env) (t n maxStackSize argsCount localsCount : Nat) (r : Bool)
    (offset : Nat) (w : World) : Except Err World := do
  let w1 ← Track_Call t t false n offset w
  let w2 ← Track_Enter t maxStackSize argsCount localsCount w1
  let w3 ← pushFlag r w2
  let w4 ← Track_Leave env 1 offset w3
  Finalize_Call env 1 w4

/-! ## Sample states -/

/-- A command with one new frame token and one operand descriptor. -/
def sampleCommand : ExecCommand := ⟨1, 0, 1, 2, 1, 3, [7], [⟨OpI4, 9⟩]⟩

/-- The flags of the top `n` slots of an operand stack in pop order, the top
slot first. -/
def poppedFlags (n : Nat) (evalStack : List Bool) : List Bool :=
  (evalStack.reverse.take n)

/-- A world of one entered frame whose operand stack holds a concrete, a
symbolic and a concrete slot, right after a flush. -/
def sampleCallWorld : World :=
  ⟨⟨[⟨1, 1, [], [], [true, false, true], [], 3, false, true⟩], 0, 1⟩, [], []⟩

/-- An environment of the 64-bit targets with `_DEBUG` defined, in which
`tokenAt` reports the resolved token. -/
def sampleEnv : Env := ⟨abiX64, true, fun r _ => r, fun _ => 0⟩

/-- A world of one entered frame with the argument flags `[true, false]` and
an empty operand stack, right after a flush. -/
def sampleArgsWorld : World :=
  ⟨⟨[⟨5, 5, [true, false], [true, false], [], [], 4, false, true⟩], 0, 1⟩, [], []⟩

/-- The frame of `sampleArgsWorld`. -/
def sampleArgsFrame : StackFrame :=
  ⟨5, 5, [true, false], [true, false], [], [], 4, false, true⟩

/-- A frame with two argument and two local slots whose operand stack holds a
concrete slot below a symbolic one. -/
def sampleStoreFrame : StackFrame :=
  ⟨5, 5, [true, true], [true, true], [true, false], [], 4, false, true⟩

/-- The world of the one frame `sampleStoreFrame`, right after a flush. -/
def sampleStoreWorld : World := ⟨⟨[sampleStoreFrame], 0, 1⟩, [], []⟩

/-- A frame whose operand stack holds a concrete slot below a symbolic one,
with no symbolic pop pending. -/
def sampleBinOpFrame : StackFrame := ⟨1, 1, [], [], [true, false], [], 4, false, true⟩

/-- The world of the one frame `sampleBinOpFrame`, right after a flush. -/
def sampleBinOpWorld : World := ⟨⟨[sampleBinOpFrame], 0, 1⟩, [], []⟩

/-- The frame `sampleBinOpFrame` after `Track_BinOp`: both slots popped, the
symbolic one recorded. -/
def samplePoppedFrame : StackFrame :=
  { sampleBinOpFrame with evalStack := [], poppedSymbolics := [(1, 0)] }

/-- The world of the one frame `samplePoppedFrame`. -/
def samplePoppedWorld : World := ⟨⟨[samplePoppedFrame], 0, 1⟩, [], []⟩

/-- The value 1.5 of type `FLOAT` or `DOUBLE`. -/
def sampleOneAndHalf : FloatValue := ⟨3, -1⟩

/-- The value 1.0 of type `FLOAT` or `DOUBLE`. -/
def sampleOne : FloatValue := ⟨1, 0⟩

/-- An entered frame with one argument and one local slot whose operand stack
holds a concrete slot below a symbolic and a concrete one. -/
def sampleCallerFrame : StackFrame :=
  ⟨1, 1, [true], [false], [true, false, true], [], 3, false, true⟩

/-- A world of two frames with `sampleCallerFrame` on top, right after a
flush. -/
def sampleCallerWorld : World := ⟨⟨[sampleArgsFrame, sampleCallerFrame], 0, 2⟩, [], []⟩

/-- A world of one frame with one call return and one symbolic pop pending
since the last flush. -/
def samplePendingWorld : World :=
  ⟨⟨[⟨1, 1, [], [], [true], [(1, 0)], 4, false, true⟩], 1, 0⟩, [], []⟩

theorem length_leBytes (w v : Nat) : (leBytes w v).length = w := by
  induction w generalizing v with
  | zero => rfl
  | succ n ih => simp [leBytes, ih]

theorem length_flatMap_leBytes (w : Nat) (l : List Nat) :
    (l.flatMap (leBytes w)).length = w * l.length := by
  induction l with
  | nil => simp
  | cons a t ih => simp [List.flatMap_cons, length_leBytes, ih, Nat.mul_succ, Nat.add_comm]

theorem take_append_leBytes (w v : Nat) (l : List Nat) : (leBytes w v ++ l).take w = leBytes w v := by
  have h := length_leBytes w v
  rw [List.take_append_of_le_length (by omega), List.take_of_length_le (by omega)]

theorem drop_append_leBytes (w v : Nat) (l : List Nat) : (leBytes w v ++ l).drop w = l := by
  have h := length_leBytes w v
  rw [List.drop_append_of_le_length (by omega), List.drop_of_length_le (by omega)]
  rfl

theorem leValue_leBytes (w v : Nat) : leValue (leBytes w v) = v % 256 ^ w := by
  induction w generalizing v with
  | zero => simp [leBytes, leValue, Nat.mod_one]
  | succ n ih =>
    simp only [leBytes, leValue, ih]
    rw [pow_succ', Nat.mod_mul]

theorem readBytes_leBytes_append (w v : Nat) (rest : List Nat) :
    readBytes w (leBytes w v ++ rest) = .ok (leBytes w v, rest) := by
  have h := length_leBytes w v
  simp [readBytes, h, take_append_leBytes, drop_append_leBytes]

theorem sub32_u32_add (n k : Nat) (hk : k < 2 ^ 32) : sub32 (u32 (n + k)) n = k := by
  unfold sub32 u32
  omega

/-! ## Lemmas: the shadow stack -/

theorem Stack.topFrame_concat (rest : List StackFrame) (top : StackFrame) (u m : Nat) :
    Stack.topFrame ⟨rest ++ [top], u, m⟩ = .ok top := by
  simp [Stack.topFrame]

theorem Stack.setTop_concat (rest : List StackFrame) (top f : StackFrame) (u m : Nat) :
    Stack.setTop f ⟨rest ++ [top], u, m⟩ = ⟨rest ++ [f], u, m⟩ := by
  simp [Stack.setTop]

theorem Stack.popFrame_concat (rest : List StackFrame) (top : StackFrame) (u m : Nat) :
    Stack.popFrame ⟨rest ++ [top], u, m⟩ = .ok ⟨rest, u + 1, min m rest.length⟩ := by
  simp [Stack.popFrame]

theorem StackFrame.popSlot_concat (pos : Nat) (f : StackFrame) (es : List Bool) (c : Bool)
    (h : f.evalStack = es ++ [c]) :
    f.popSlot pos = .ok (c, { f with
      evalStack := es
      poppedSymbolics :=
        if c then f.poppedSymbolics else f.poppedSymbolics ++ [(f.symbolicsCount, pos)] }) := by
  simp [StackFrame.popSlot, h]

theorem StackFrame.pop_two (top : StackFrame) (es : List Bool) (a b : Bool)
    (hes : top.evalStack = es ++ [a, b]) :
    top.pop 2 = .ok (a && b, { top with
      evalStack := es
      poppedSymbolics := (top.poppedSymbolics ++
        (if b then [] else [(top.symbolicsCount, 0)])) ++
        (if a then [] else [((es ++ [a]).count false, 1)]) }) := by
  have hes1 : top.evalStack = (es ++ [a]) ++ [b] := by simp [hes]
  have hpop0 := StackFrame.popSlot_concat 0 top (es ++ [a]) b hes1
  simp only [StackFrame.pop, StackFrame.popFrom, hpop0]
  simp only [bind, Except.bind]
  rw [StackFrame.popSlot_concat 1 _ es a rfl]
  cases a <;> cases b <;> simp [pure, Except.pure, StackFrame.symbolicsCount]

theorem StackFrame.popSlot_tokens (pos : Nat) (f f1 : StackFrame) (c : Bool)
    (h : f.popSlot pos = .ok (c, f1)) :
    f1.resolvedToken = f.resolvedToken ∧ f1.unresolvedToken = f.unresolvedToken := by
  unfold StackFrame.popSlot at h
  split at h
  · cases h
  · simp only [Except.ok.injEq, Prod.mk.injEq] at h
    obtain ⟨-, rfl⟩ := h
    exact ⟨rfl, rfl⟩

theorem StackFrame.popFrom_tokens (n : Nat) : ∀ (pos : Nat) (f f1 : StackFrame) (c : Bool),
    StackFrame.popFrom pos n f = .ok (c, f1) →
    f1.resolvedToken = f.resolvedToken ∧ f1.unresolvedToken = f.unresolvedToken := by
  induction n with
  | zero =>
    intro pos f f1 c h
    simp only [StackFrame.popFrom, Except.ok.injEq, Prod.mk.injEq] at h
    obtain ⟨-, rfl⟩ := h
    exact ⟨rfl, rfl⟩
  | succ k ih =>
    intro pos f f1 c h
    simp only [StackFrame.popFrom, bind, Except.bind] at h
    split at h
    · cases h
    · rename_i v hv
      obtain ⟨c0, g⟩ := v
      have h0 := StackFrame.popSlot_tokens pos f g c0 hv
      simp only at h
      split at h
      · cases h
      · rename_i v2 hv2
        obtain ⟨c1, g1⟩ := v2
        simp only [pure, Except.pure, Except.ok.injEq, Prod.mk.injEq] at h
        obtain ⟨-, rfl⟩ := h
        have h1 := ih (pos + 1) g g1 c1 hv2
        exact ⟨h1.1.trans h0.1, h1.2.trans h0.2⟩

/-! ## Lemmas: building a command and decoding a response -/

theorem markSymbolics_ok (currentSymbs : Nat) : ∀ (pairs : List (Nat × Nat))
    (ops : List EvalStackOperand), (∀ p ∈ pairs, p.2 < ops.length) →
    ∃ marked, markSymbolics currentSymbs pairs ops = .ok marked ∧ marked.length = ops.length := by
  intro pairs
  induction pairs with
  | nil =>
    intro ops _
    exact ⟨ops, rfl, rfl⟩
  | cons p ps ih =>
    intro ops h
    have hp : p.2 < ops.length := h p (by simp)
    obtain ⟨marked, hm, hl⟩ := ih (ops.set p.2 ⟨OpSymbolic, sub32 currentSymbs p.1⟩) (by
      intro q hq
      simpa using h q (by simp [hq]))
    refine ⟨marked, ?_, by simpa using hl⟩
    simp [markSymbolics, hp, hm]

theorem initCommand_concat (env : Env) (offset : Nat) (isBranch : Bool)
    (ops marked : List EvalStackOperand) (rest : List StackFrame) (top : StackFrame) (u m : Nat)
    (hmin : m ≤ rest.length + 1)
    (hmark : markSymbolics (u32 (top.symbolicsCount + top.poppedSymbolics.length))
      top.poppedSymbolics ops = .ok marked) :
    initCommand env offset isBranch ops ⟨rest ++ [top], u, m⟩ =
      .ok ({ offset := offset
             isBranch := if isBranch then 1 else 0
             newCallStackFramesCount := rest.length + 1 - m
             callStackFramesPops := u
             evaluationStackPushesCount := ops.length
             evaluationStackPops := env.evaluationStackPops top
             newCallStackFrames := ((rest ++ [top]).drop m).map env.tokenAt
             evaluationStackPushes := marked },
           ⟨rest ++ [top.resetPopsTracking], 0, rest.length + 1⟩) := by
  simp only [initCommand, Stack.topFrame_concat, Stack.framesCount]
  simp [bind, Except.bind, pure, Except.pure, hmin, hmark, Stack.resetPopsTracking]

theorem Track_Call_tokens (env : Env) (u r : Nat) (newobj : Bool) (n offset : Nat) (w w1 : World)
    (h : Track_Call u r newobj n offset w = .ok w1) :
    w1.stack.frames.map env.tokenAt = w.stack.frames.map env.tokenAt ++ [env.frameToken r u] ∧
    w1.stack.minTopSinceLastSent = w.stack.minTopSinceLastSent ∧
    w1.stack.unsentPops = w.stack.unsentPops ∧
    (∃ f, w1.stack.frames.getLast? = some f ∧ f.poppedSymbolics = []) := by
  obtain ⟨⟨frames, up, m⟩, sent, upd⟩ := w
  rcases List.eq_nil_or_concat frames with hnil | ⟨rest, top, hcat⟩
  · subst hnil
    simp [Track_Call, Stack.topFrame, bind, Except.bind] at h
  · subst hcat
    simp only [List.concat_eq_append] at h ⊢
    simp only [Track_Call, Stack.topFrame_concat, bind, Except.bind] at h
    split at h
    · cases h
    · split at h
      · cases h
      · rename_i v hv
        obtain ⟨c, top1⟩ := v
        simp only at h
        split at h
        · cases h
        · simp only [pure, Except.pure, Except.ok.injEq] at h
          subst h
          have ht := StackFrame.popFrom_tokens n 0 top top1 c hv
          simp [Stack.setTop, Stack.pushFrame, Env.tokenAt, StackFrame.fresh, ht.1, ht.2]

theorem trackCalls_tokens (env : Env) : ∀ (calls : List CallSite) (w w1 : World),
    trackCalls calls w = .ok w1 →
    w1.stack.frames.map env.tokenAt = w.stack.frames.map env.tokenAt ++
      calls.map (fun c => env.frameToken c.resolvedToken c.unresolvedToken) ∧
    w1.stack.minTopSinceLastSent = w.stack.minTopSinceLastSent ∧
    w1.stack.unsentPops = w.stack.unsentPops ∧
    (calls ≠ [] → ∃ f, w1.stack.frames.getLast? = some f ∧ f.poppedSymbolics = []) ∧
    (calls = [] → w1 = w) := by
  intro calls
  induction calls with
  | nil =>
    intro w w1 h
    simp only [trackCalls, Except.ok.injEq] at h
    subst h
    simp
  | cons c cs ih =>
    intro w w1 h
    simp only [trackCalls, bind, Except.bind] at h
    split at h
    · cases h
    · rename_i w0 hw0
      have h0 := Track_Call_tokens env _ _ _ _ _ w w0 hw0
      have h1 := ih w0 w1 h
      refine ⟨?_, h1.2.1.trans h0.2.1, h1.2.2.1.trans h0.2.2.1, ?_, ?_⟩
      · rw [h1.1, h0.1]
        simp
      · intro _
        rcases List.eq_nil_or_concat cs with hnil | ⟨cs1, c1, hcat⟩
        · have := h1.2.2.2.2 hnil
          subst this
          exact h0.2.2.2
        · exact h1.2.2.2.1 (by simp [hcat])
      · intro hc
        cases hc

theorem deserialize_serialize_append (abi : Abi) (old d : EvalStackOperand) (rest : List Nat)
    (htag : d.typ < 256 ^ abi.enumSize) :
    ∃ d1, EvalStackOperand.deserialize abi old (EvalStackOperand.serialize abi d ++ rest) =
      .ok (d1, rest) ∧ d1.typ = d.typ := by
  have hv : leValue (leBytes abi.enumSize d.typ) = d.typ := by
    rw [leValue_leBytes, Nat.mod_eq_of_lt htag]
  by_cases href : d.typ = OpRef
  · refine ⟨⟨d.typ, (old.content / 2 ^ (8 * abi.ptrSize) * 2 ^ (8 * abi.ptrSize) +
      leValue (leBytes abi.ptrSize d.content)) % 2 ^ 64⟩, ?_, rfl⟩
    simp only [EvalStackOperand.deserialize, EvalStackOperand.serialize, href, if_true,
      List.append_assoc, readBytes_leBytes_append, bind, Except.bind]
    rw [← href, hv]
    simp only [href, if_true, readBytes_leBytes_append, pure, Except.pure]
  · refine ⟨⟨d.typ, leValue (leBytes 8 d.content)⟩, ?_, rfl⟩
    simp only [EvalStackOperand.deserialize, EvalStackOperand.serialize, href, if_false,
      List.append_assoc, readBytes_leBytes_append, bind, Except.bind]
    rw [hv]
    simp only [href, if_false, readBytes_leBytes_append, pure, Except.pure]

theorem readOps_encoded (abi : Abi) : ∀ (ds : List EvalStackOperand) (i : Nat)
    (ops : List EvalStackOperand) (rest : List Nat),
    i + ds.length ≤ ops.length → (∀ d ∈ ds, d.typ < 256 ^ abi.enumSize) →
    ∃ ops1, readOps abi ds.length i ops (ds.flatMap (EvalStackOperand.serialize abi) ++ rest) =
      .ok ops1 ∧ ops1.length = ops.length := by
  intro ds
  induction ds with
  | nil =>
    intro i ops rest _ _
    exact ⟨ops, rfl, rfl⟩
  | cons d ds ih =>
    intro i ops rest hlen htag
    have hi : i < ops.length := by
      simp at hlen
      omega
    obtain ⟨d1, hd1, -⟩ := deserialize_serialize_append abi ops[i] d
      (ds.flatMap (EvalStackOperand.serialize abi) ++ rest) (htag d (by simp))
    obtain ⟨ops1, h1, hl1⟩ := ih (i + 1) (ops.set i d1) rest (by simp at hlen ⊢; omega)
      (fun q hq => htag q (by simp [hq]))
    refine ⟨ops1, ?_, by simpa using hl1⟩
    simp only [List.length_cons, readOps, List.flatMap_cons, List.append_assoc]
    rw [List.getElem?_eq_getElem hi]
    simp only [bind, Except.bind, hd1, h1]

theorem charPositive_flag (abi : Abi) (c : Bool) :
    charPositive abi (if c then 1 else 0) = c := by
  cases c <;> cases h : abi.charSigned <;> simp [charPositive, h]

theorem readConcretizedSymbolics_encoded (env : Env) (top : StackFrame)
    (ops : List EvalStackOperand) (returned : Option Bool)
    (concretized : Option (List EvalStackOperand))
    (hroom : returned.isSome → top.evalStack.length < top.maxStackSize)
    (hfit : ∀ ds ∈ concretized, ds.length ≤ ops.length ∧ ds.length < 2 ^ 32 ∧
      ∀ d ∈ ds, d.typ < 256 ^ env.abi.enumSize) :
    ∃ ops1, readConcretizedSymbolics env (some (encodeResponse env.abi returned concretized))
        top ops =
      .ok (true, top.withReturned returned, ops1) ∧
      ops1.length = ops.length := by
  have h0 : charPositive env.abi 0 = false := charPositive_flag env.abi false
  have h1 : charPositive env.abi 1 = true := charPositive_flag env.abi true
  cases concretized with
  | none =>
    cases returned with
    | none =>
      refine ⟨ops, ?_, rfl⟩
      simp [readConcretizedSymbolics, encodeResponse, h0, pure, Except.pure, bind, Except.bind,
        StackFrame.withReturned]
    | some c =>
      have hr := hroom rfl
      refine ⟨ops, ?_, rfl⟩
      simp [readConcretizedSymbolics, encodeResponse, h1, pure, Except.pure, bind, Except.bind,
        StackFrame.push1, hr, charPositive_flag, StackFrame.withReturned]
  | some ds =>
    obtain ⟨hle, hlt, htag⟩ := hfit ds rfl
    obtain ⟨ops1, hread, hl1⟩ := readOps_encoded env.abi ds 0 ops [] (by omega) htag
    have hcount : leValue (leBytes 4 ds.length) = ds.length := by
      rw [leValue_leBytes]
      exact Nat.mod_eq_of_lt (by simpa using hlt)
    rw [List.append_nil] at hread
    cases returned with
    | none =>
      refine ⟨ops1, ?_, hl1⟩
      simp only [readConcretizedSymbolics, encodeResponse, List.singleton_append, h0,
        Bool.false_eq_true, if_false, pure, Except.pure, bind, Except.bind,
        readBytes_leBytes_append, hcount, List.length_cons, List.length_append,
        length_leBytes, StackFrame.withReturned]
      rw [if_pos (by omega), if_pos (by omega), hread]
    | some c =>
      have hr := hroom rfl
      refine ⟨ops1, ?_, hl1⟩
      simp only [readConcretizedSymbolics, encodeResponse, List.cons_append, List.nil_append,
        h1, if_true, pure, Except.pure, bind, Except.bind, StackFrame.push1, hr,
        charPositive_flag, readBytes_leBytes_append, hcount, List.length_cons,
        List.length_append, length_leBytes, StackFrame.withReturned]
      rw [if_pos (by omega), if_pos (by omega), hread]

theorem sendCommand_sent (env : Env) (resp : Option (List Nat)) (offset : Nat)
    (ops : List EvalStackOperand) (w w1 : World) (r : Bool) (cmd : ExecCommand) (s : Stack)
    (hinit : initCommand env offset false ops w.stack = .ok (cmd, s))
    (h : sendCommand env resp offset ops w = .ok (r, w1)) :
    w1.sent = w.sent ++ [cmd] := by
  simp only [sendCommand, hinit, bind, Except.bind] at h
  split at h
  · cases h
  · split at h
    · cases h
    · split at h
      · cases h
      · simp only [pure, Except.pure, Except.ok.injEq, Prod.mk.injEq] at h
        rw [← h.2]

theorem deserialize_serialize_received (abi : Abi) (old d : EvalStackOperand)
    (rest : List Nat) (htag : d.typ < 256 ^ abi.enumSize) :
    EvalStackOperand.deserialize abi old (EvalStackOperand.serialize abi d ++ rest) =
      .ok (EvalStackOperand.received abi old d, rest) := by
  have hv : leValue (leBytes abi.enumSize d.typ) = d.typ := by
    rw [leValue_leBytes, Nat.mod_eq_of_lt htag]
  by_cases href : d.typ = OpRef
  · simp only [EvalStackOperand.deserialize, EvalStackOperand.serialize, href, if_true,
      List.append_assoc, readBytes_leBytes_append, bind, Except.bind,
      EvalStackOperand.received]
    rw [← href, hv]
    simp only [href, if_true, readBytes_leBytes_append, pure, Except.pure, leValue_leBytes]
  · simp only [EvalStackOperand.deserialize, EvalStackOperand.serialize, href, if_false,
      List.append_assoc, readBytes_leBytes_append, bind, Except.bind,
      EvalStackOperand.received]
    rw [hv]
    simp only [href, if_false, readBytes_leBytes_append, pure, Except.pure, leValue_leBytes]

theorem readOps_received (abi : Abi) : ∀ (ds pre ops : List EvalStackOperand)
    (rest : List Nat), ds.length ≤ ops.length → (∀ d ∈ ds, d.typ < 256 ^ abi.enumSize) →
    readOps abi ds.length pre.length (pre ++ ops)
        (ds.flatMap (EvalStackOperand.serialize abi) ++ rest) =
      .ok (pre ++ receivedOps abi ops ds) := by
  intro ds
  induction ds with
  | nil =>
    intro pre ops rest _ _
    simp [readOps, receivedOps]
  | cons d ds ih =>
    intro pre ops rest hlen htag
    cases ops with
    | nil => simp at hlen
    | cons o ops1 =>
      have hd := deserialize_serialize_received abi o d
        (ds.flatMap (EvalStackOperand.serialize abi) ++ rest) (htag d (by simp))
      have hrec := ih (pre ++ [EvalStackOperand.received abi o d]) ops1 rest
        (by simpa using hlen) (fun q hq => htag q (by simp [hq]))
      simp only [List.length_append, List.length_singleton, List.append_assoc,
        List.singleton_append] at hrec
      simp only [List.length_cons, readOps, List.flatMap_cons, List.append_assoc]
      have hget : (pre ++ o :: ops1)[pre.length]? = some o := by
        rw [List.getElem?_append_right (Nat.le_refl _)]
        simp
      have hset : (pre ++ o :: ops1).set pre.length (EvalStackOperand.received abi o d) =
          pre ++ EvalStackOperand.received abi o d :: ops1 := by simp
      rw [hget]
      simp only [bind, Except.bind, hd, hset, hrec]
      simp [receivedOps]

theorem readConcretizedSymbolics_unflagged (env : Env) (top : StackFrame)
    (ops : List EvalStackOperand) (b0 : Nat) (concretized : Option (List EvalStackOperand))
    (hflag : charPositive env.abi b0 = false)
    (hfit : ∀ ds ∈ concretized, ds.length ≤ ops.length ∧ ds.length < 2 ^ 32 ∧
      ∀ d ∈ ds, d.typ < 256 ^ env.abi.enumSize) :
    readConcretizedSymbolics env (some ([b0] ++ encodeBlock env.abi concretized)) top ops =
      .ok (true, top, receivedBlock env.abi ops concretized) := by
  cases concretized with
  | none =>
    simp [readConcretizedSymbolics, encodeBlock, hflag, pure, Except.pure, bind, Except.bind,
      receivedBlock]
  | some ds =>
    obtain ⟨hle, hlt, htag⟩ := hfit ds rfl
    have hread := readOps_received env.abi ds [] ops [] hle htag
    have hcount : leValue (leBytes 4 ds.length) = ds.length := by
      rw [leValue_leBytes]
      exact Nat.mod_eq_of_lt (by simpa using hlt)
    simp only [List.append_nil, List.nil_append, List.length_nil] at hread
    simp only [readConcretizedSymbolics, encodeBlock, List.singleton_append, hflag,
      Bool.false_eq_true, if_false, pure, Except.pure, bind, Except.bind,
      readBytes_leBytes_append, hcount, List.length_cons, List.length_append,
      length_leBytes, receivedBlock]
    rw [if_pos (by omega), if_pos (by omega), hread]

theorem readConcretizedSymbolics_flagged (env : Env) (top : StackFrame)
    (ops : List EvalStackOperand) (b0 b1 : Nat) (concretized : Option (List EvalStackOperand))
    (hflag : charPositive env.abi b0 = true)
    (hroom : top.evalStack.length < top.maxStackSize)
    (hfit : ∀ ds ∈ concretized, ds.length ≤ ops.length ∧ ds.length < 2 ^ 32 ∧
      ∀ d ∈ ds, d.typ < 256 ^ env.abi.enumSize) :
    readConcretizedSymbolics env (some ([b0, b1] ++ encodeBlock env.abi concretized)) top ops =
      .ok (true, { top with evalStack := top.evalStack ++ [charPositive env.abi b1] },
        receivedBlock env.abi ops concretized) := by
  cases concretized with
  | none =>
    simp [readConcretizedSymbolics, encodeBlock, hflag, pure, Except.pure, bind, Except.bind,
      receivedBlock, StackFrame.push1, hroom]
  | some ds =>
    obtain ⟨hle, hlt, htag⟩ := hfit ds rfl
    have hread := readOps_received env.abi ds [] ops [] hle htag
    have hcount : leValue (leBytes 4 ds.length) = ds.length := by
      rw [leValue_leBytes]
      exact Nat.mod_eq_of_lt (by simpa using hlt)
    simp only [List.append_nil, List.nil_append, List.length_nil] at hread
    simp only [readConcretizedSymbolics, encodeBlock, List.cons_append, List.nil_append, hflag,
      if_true, pure, Except.pure, bind, Except.bind, StackFrame.push1, hroom,
      readBytes_leBytes_append, hcount, List.length_cons, List.length_append,
      length_leBytes, receivedBlock]
    rw [if_pos (by omega), if_pos (by omega), hread]

theorem encodeResponse_layout (abi : Abi) (returned : Option Bool)
    (concretized : Option (List EvalStackOperand)) :
    encodeResponse abi returned concretized =
      (match returned with
        | none => [0]
        | some c => [1, if c then 1 else 0]) ++ encodeBlock abi concretized := by
  cases concretized <;> rfl

theorem initCommand_marked (env : Env) (offset : Nat) (ops : List EvalStackOperand)
    (rest : List StackFrame) (top : StackFrame) (u m : Nat)
    (hmin : m ≤ rest.length + 1) (hpos : ∀ p ∈ top.poppedSymbolics, p.2 < ops.length) :
    ∃ cmd marked,
      markSymbolics (u32 (top.symbolicsCount + top.poppedSymbolics.length))
        top.poppedSymbolics ops = .ok marked ∧ marked.length = ops.length ∧
      initCommand env offset false ops ⟨rest ++ [top], u, m⟩ =
        .ok (cmd, ⟨rest ++ [top.resetPopsTracking], 0, rest.length + 1⟩) ∧
      cmd.evaluationStackPushes = marked ∧ cmd.evaluationStackPushesCount = ops.length ∧
      cmd.offset = offset ∧ cmd.isBranch = 0 := by
  obtain ⟨marked, hmark, hml⟩ := markSymbolics_ok
    (u32 (top.symbolicsCount + top.poppedSymbolics.length)) top.poppedSymbolics ops hpos
  exact ⟨_, marked, hmark, hml,
    initCommand_concat env offset false ops marked rest top u m hmin hmark, rfl, rfl, rfl, rfl⟩

theorem sendCommand_of_read (env : Env) (resp : Option (List Nat)) (offset : Nat)
    (ops ops1 : List EvalStackOperand) (rest : List StackFrame)
    (top top1 : StackFrame) (u m : Nat) (sent : List ExecCommand) (upd : List Update)
    (cmd : ExecCommand) (r : Bool)
    (hinit : initCommand env offset false ops ⟨rest ++ [top], u, m⟩ =
      .ok (cmd, ⟨rest ++ [top.resetPopsTracking], 0, rest.length + 1⟩))
    (hread : readConcretizedSymbolics env resp top.resetPopsTracking (freeCommand cmd) =
      .ok (r, top1, ops1))
    (hempty : top1.poppedSymbolics = []) :
    sendCommand env resp offset ops ⟨⟨rest ++ [top], u, m⟩, sent, upd⟩ =
      .ok (r, ⟨⟨rest ++ [top1], 0, rest.length + 1⟩, sent ++ [cmd], upd⟩) := by
  simp only [sendCommand, hinit, bind, Except.bind, Stack.topFrame_concat, hread,
    hempty, reconcileAt, pure, Except.pure, Stack.setTop_concat]
  cases r <;> simp

theorem slotIndex_natCast (i : Nat) : slotIndex (i : Int) = .ok i := by
  simp [slotIndex]

theorem signed_sixteen_small (i : Nat) (h : i < 2 ^ 15) : signed 16 i = (i : Int) := by
  have h1 : i % 2 ^ 16 = i := Nat.mod_eq_of_lt (by omega)
  unfold signed
  rw [h1, if_pos (by simpa using h)]

theorem ldarg_flag (rest : List StackFrame) (top : StackFrame) (u m : Nat)
    (sent : List ExecCommand) (upd : List Update) (i : Nat) (c : Bool)
    (hslot : top.args[i]? = some c)
    (hroom : c = true → top.evalStack.length < top.maxStackSize) :
    ldarg (i : Int) ⟨⟨rest ++ [top], u, m⟩, sent, upd⟩ =
      .ok (c, ⟨⟨rest ++ [if c then { top with evalStack := top.evalStack ++ [true] } else top],
        u, m⟩, sent, upd⟩) := by
  simp only [ldarg, Stack.topFrame_concat, StackFrame.pop0, slotIndex_natCast, StackFrame.arg,
    hslot, bind, Except.bind, Stack.setTop_concat]
  cases c with
  | true => simp [StackFrame.push1Concrete, StackFrame.push1, hroom rfl, pure, Except.pure]
  | false => simp [pure, Except.pure]

theorem ldloc_flag (rest : List StackFrame) (top : StackFrame) (u m : Nat)
    (sent : List ExecCommand) (upd : List Update) (i : Nat) (c : Bool)
    (hslot : top.locals[i]? = some c)
    (hroom : c = true → top.evalStack.length < top.maxStackSize) :
    ldloc (i : Int) ⟨⟨rest ++ [top], u, m⟩, sent, upd⟩ =
      .ok (c, ⟨⟨rest ++ [if c then { top with evalStack := top.evalStack ++ [true] } else top],
        u, m⟩, sent, upd⟩) := by
  simp only [ldloc, Stack.topFrame_concat, StackFrame.pop0, slotIndex_natCast, StackFrame.loc,
    hslot, bind, Except.bind, Stack.setTop_concat]
  cases c with
  | true => simp [StackFrame.push1Concrete, StackFrame.push1, hroom rfl, pure, Except.pure]
  | false => simp [pure, Except.pure]

theorem sendCommand_answered (env : Env) (offset : Nat) (ops : List EvalStackOperand)
    (rest : List StackFrame) (top : StackFrame) (u m : Nat) (sent : List ExecCommand)
    (upd : List Update) (returned : Option Bool)
    (concretized : Option (List EvalStackOperand)) (resp : Option (List Nat))
    (hmin : m ≤ rest.length + 1)
    (hpos : ∀ p ∈ top.poppedSymbolics, p.2 < ops.length)
    (hresp : resp = none ∨ resp = some (encodeResponse env.abi returned concretized))
    (hroom : returned.isSome → top.evalStack.length < top.maxStackSize)
    (hfit : ∀ ds ∈ concretized, ds = []) :
    ∃ cmd marked,
      markSymbolics (u32 (top.symbolicsCount + top.poppedSymbolics.length))
        top.poppedSymbolics ops = .ok marked ∧
      initCommand env offset false ops ⟨rest ++ [top], u, m⟩ =
        .ok (cmd, ⟨rest ++ [top.resetPopsTracking], 0, rest.length + 1⟩) ∧
      cmd.evaluationStackPushes = marked ∧ cmd.evaluationStackPushesCount = ops.length ∧
      sendCommand env resp offset ops ⟨⟨rest ++ [top], u, m⟩, sent, upd⟩ =
        .ok (resp.isSome, ⟨⟨rest ++ [top.resetPopsTracking.withReturned
          (if resp.isSome then returned else none)], 0, rest.length + 1⟩, sent ++ [cmd], upd⟩) := by
  obtain ⟨cmd, marked, hmark, -, hinit, hpushes, hcount, -, -⟩ :=
    initCommand_marked env offset ops rest top u m hmin hpos
  refine ⟨cmd, marked, hmark, hinit, hpushes, hcount, ?_⟩
  rcases hresp with hnone | hsome
  · subst hnone
    exact sendCommand_of_read env none offset ops (freeCommand cmd) rest top _ u m sent upd cmd
      false hinit rfl rfl
  · subst hsome
    obtain ⟨ops1, hread, -⟩ := readConcretizedSymbolics_encoded env top.resetPopsTracking
      (freeCommand cmd) returned concretized hroom (by
        intro ds hds
        rw [hfit ds hds]
        exact ⟨Nat.le_refl _, by decide, by simp⟩)
    have hempty : (top.resetPopsTracking.withReturned returned).poppedSymbolics = [] := by
      cases returned <;> rfl
    exact sendCommand_of_read env _ offset ops ops1 rest top _ u m sent upd cmd
      true hinit hread hempty

theorem readConcretizedSymbolics_flag (env : Env) (resp : Option (List Nat))
    (top top1 : StackFrame) (ops ops1 : List EvalStackOperand) (r : Bool)
    (h : readConcretizedSymbolics env resp top ops = .ok (r, top1, ops1)) :
    r = resp.isSome := by
  cases resp with
  | none =>
    simp only [readConcretizedSymbolics, Except.ok.injEq, Prod.mk.injEq] at h
    simp [← h.1]
  | some msg =>
    cases msg with
    | nil => simp [readConcretizedSymbolics] at h
    | cons b0 tail =>
      simp only [readConcretizedSymbolics, bind, Except.bind] at h
      split at h
      · cases h
      · split at h
        · split at h
          · split at h
            · cases h
            · split at h
              · cases h
              · simp only [pure, Except.pure, Except.ok.injEq, Prod.mk.injEq] at h
                simp [← h.1]
          · cases h
        · simp only [pure, Except.pure, Except.ok.injEq, Prod.mk.injEq] at h
          simp [← h.1]

theorem sendCommand_flag (env : Env) (resp : Option (List Nat)) (offset : Nat)
    (ops : List EvalStackOperand) (w w1 : World) (r : Bool)
    (h : sendCommand env resp offset ops w = .ok (r, w1)) : r = resp.isSome := by
  simp only [sendCommand, bind, Except.bind] at h
  split at h
  · cases h
  · split at h
    · cases h
    · split at h
      · cases h
      · rename_i v hv
        obtain ⟨r0, t, o⟩ := v
        have hr := readConcretizedSymbolics_flag env resp _ t _ o r0 hv
        split at h
        · cases h
        · simp only [pure, Except.pure, Except.ok.injEq, Prod.mk.injEq] at h
          rw [← h.1]
          exact hr

/-! ## Lemmas: calls -/

theorem writeAll_ok : ∀ (ws : List (Nat × Bool)) (arr : List Bool),
    (∀ x ∈ ws, x.1 < arr.length) →
    ∃ arr1, writeAll ws arr = .ok arr1 ∧ arr1.length = arr.length := by
  intro ws
  induction ws with
  | nil => intro arr _; exact ⟨arr, rfl, rfl⟩
  | cons x t ih =>
    intro arr h
    obtain ⟨i, v⟩ := x
    have hi : i < arr.length := h (i, v) (by simp)
    obtain ⟨arr1, h1, h2⟩ := ih (arr.set i v) (by
      intro y hy
      have := h y (by simp [hy])
      simpa using this)
    exact ⟨arr1, by simp [writeAll, hi, h1], by simpa using h2⟩

theorem StackFrame.popFrom_slots (popped : List Bool) :
    ∀ (pos : Nat) (f : StackFrame) (base : List Bool),
    f.evalStack = base ++ popped →
    ∃ (c : Bool) (entries : List (Nat × Nat)),
      StackFrame.popFrom pos popped.length f =
        .ok (c, { f with evalStack := base, poppedSymbolics := f.poppedSymbolics ++ entries }) ∧
      entries.length = popped.count false ∧
      ∀ e ∈ entries, base.count false < e.1 ∧ e.1 ≤ base.count false + popped.count false := by
  induction popped using List.reverseRecOn with
  | nil =>
    intro pos f base h
    refine ⟨true, [], ?_, rfl, by simp⟩
    simp only [List.append_nil] at h
    simp [StackFrame.popFrom, ← h]
  | append_singleton init c ih =>
    intro pos f base h
    have h1 : f.evalStack = (base ++ init) ++ [c] := by simp [h]
    have hpop := StackFrame.popSlot_concat pos f (base ++ init) c h1
    obtain ⟨c1, entries1, hrec, hlen, hgen⟩ := ih (pos + 1)
      { f with
        evalStack := base ++ init
        poppedSymbolics :=
          if c then f.poppedSymbolics else f.poppedSymbolics ++ [(f.symbolicsCount, pos)] }
      base rfl
    refine ⟨c && c1, (if c then [] else [(f.symbolicsCount, pos)]) ++ entries1, ?_, ?_, ?_⟩
    · simp only [List.length_append, List.length_singleton, StackFrame.popFrom, hpop, bind,
        Except.bind, hrec, pure, Except.pure]
      cases c <;> simp
    · cases c <;> simp [hlen, List.count_append]
    · intro e he
      have hsc : f.symbolicsCount = base.count false + init.count false + [c].count false := by
        simp [StackFrame.symbolicsCount, h1, List.count_append, Nat.add_assoc]
      rw [List.mem_append] at he
      rcases he with he | he
      · cases c
        · simp only [Bool.false_eq_true, if_false, List.mem_singleton] at he
          subst he
          simp [hsc, List.count_append]
          omega
        · simp at he
      · have := hgen e he
        simp only [List.count_append]
        omega

theorem sub32_u32_le (a g : Nat) (h : g ≤ a) : sub32 (u32 a) g ≤ a - g := by
  unfold sub32 u32
  omega

theorem Track_Call_plain (u r n offset : Nat) (rest : List StackFrame) (top : StackFrame)
    (um m : Nat) (sent : List ExecCommand) (upd : List Update) (base popped : List Bool)
    (hes : top.evalStack = base ++ popped) (hn : popped.length = n)
    (hfresh : top.poppedSymbolics = []) :
    ∃ (args : List Bool) (entries : List (Nat × Nat)),
      Track_Call u r false n offset ⟨⟨rest ++ [top], um, m⟩, sent, upd⟩ =
        .ok ⟨⟨rest ++ [{ top with evalStack := base, poppedSymbolics := entries },
          StackFrame.fresh r u args], um, m⟩, sent, upd⟩ ∧
      args.length = n := by
  obtain ⟨c, entries, hpop, hlen, hgen⟩ := StackFrame.popFrom_slots popped 0 top base hes
  rw [hn, hfresh, List.nil_append] at hpop
  obtain ⟨init, hinit, hinitlen⟩ := writeAll_ok (Track_Call_initWrites false n)
    (List.replicate n false) (by
      intro x hx
      simp only [Track_Call_initWrites, Bool.false_eq_true, if_false, List.nil_append,
        Nat.zero_add, List.mem_map, List.mem_range] at hx
      obtain ⟨i, hi, rfl⟩ := hx
      simpa using hi)
  have hcount : popped.count false ≤ n := hn ▸ List.count_le_length false popped
  obtain ⟨args, hargs, hargslen⟩ := writeAll_ok
    (Track_Call_markWrites (u32 (base.count false + entries.length)) entries) init (by
      intro x hx
      simp only [Track_Call_markWrites, List.mem_map] at hx
      obtain ⟨e, he, rfl⟩ := hx
      have hb := hgen e he
      have hle := sub32_u32_le (base.count false + entries.length) e.1 (by omega)
      simp only [hinitlen, List.length_replicate]
      omega)
  refine ⟨args, entries, ?_, by simpa [hinitlen] using hargslen⟩
  simp only [Track_Call, Stack.topFrame_concat, Bool.false_eq_true, if_false, StackFrame.pop]
  simp [bind, Except.bind, pure, Except.pure, hinit, hpop, hargs, StackFrame.symbolicsCount,
    Stack.setTop, Stack.pushFrame]

theorem writeAll_outOfBounds : ∀ (ws : List (Nat × Bool)) (arr : List Bool),
    (∃ x ∈ ws, arr.length ≤ x.1) → writeAll ws arr = .error .outOfBounds := by
  intro ws
  induction ws with
  | nil => intro arr h; simp at h
  | cons y t ih =>
    intro arr h
    obtain ⟨i, v⟩ := y
    by_cases hi : i < arr.length
    · simp only [writeAll, hi, if_true]
      apply ih
      obtain ⟨x, hx, hle⟩ := h
      rw [List.mem_cons] at hx
      rcases hx with rfl | hx
      · simp only at hle
        omega
      · exact ⟨x, hx, by simpa using hle⟩
    · simp [writeAll, hi]

theorem Track_Call_initWrites_newobj (k : Nat) :
    ∃ x ∈ Track_Call_initWrites true k, (List.replicate k false).length ≤ x.1 := by
  rcases Nat.eq_zero_or_pos k with rfl | hk
  · exact ⟨(0, true), by simp [Track_Call_initWrites], by simp⟩
  · refine ⟨(1 + (k - 1), true), ?_, by simp; omega⟩
    simp only [Track_Call_initWrites, if_true, List.mem_append, List.mem_map, List.mem_range]
    exact Or.inr ⟨k - 1, by omega, rfl⟩

theorem Track_Call_pushed (u r : Nat) (newobj : Bool) (n offset : Nat) (w w1 : World)
    (h : Track_Call u r newobj n offset w = .ok w1) :
    ∃ below args, w1 = { w with stack := { w.stack with
      frames := below ++ [StackFrame.fresh r u args] } } ∧
      below.length = w.stack.frames.length := by
  obtain ⟨⟨frames, up, m⟩, sent, upd⟩ := w
  rcases List.eq_nil_or_concat frames with hnil | ⟨rest, top, hcat⟩
  · subst hnil
    simp [Track_Call, Stack.topFrame, bind, Except.bind] at h
  · subst hcat
    simp only [List.concat_eq_append] at h ⊢
    simp only [Track_Call, Stack.topFrame_concat, bind, Except.bind] at h
    split at h
    · cases h
    · split at h
      · cases h
      · rename_i v hv
        obtain ⟨c, top1⟩ := v
        simp only at h
        split at h
        · cases h
        · rename_i args hargs
          simp only [pure, Except.pure, Except.ok.injEq] at h
          subst h
          exact ⟨rest ++ [top1], args, by simp [Stack.setTop, Stack.pushFrame], by simp⟩

/-! ## Lemmas: sizes and the branch flag -/

theorem length_serialize (abi : Abi) (op : EvalStackOperand) :
    (op.serialize abi).length = op.size abi := by
  unfold EvalStackOperand.serialize EvalStackOperand.size
  split <;> simp [length_leBytes]

theorem length_flatMap_serialize (abi : Abi) (ops : List EvalStackOperand) :
    (ops.flatMap (EvalStackOperand.serialize abi)).length =
      (ops.map (EvalStackOperand.size abi)).sum := by
  induction ops with
  | nil => rfl
  | cons a t ih => simp [List.flatMap_cons, length_serialize, ih]

theorem address_received (abi : Abi) (old d : EvalStackOperand) (hptr : abi.ptrSize ≤ 8)
    (href : d.typ = OpRef) :
    (EvalStackOperand.received abi old d).address abi = d.address abi := by
  have hK : (256 : Nat) ^ abi.ptrSize = 2 ^ (8 * abi.ptrSize) := by
    rw [show (256 : Nat) = 2 ^ 8 by norm_num, ← pow_mul]
  have hdvd : 2 ^ (8 * abi.ptrSize) ∣ 2 ^ 64 := pow_dvd_pow 2 (by omega)
  simp only [EvalStackOperand.received, href, if_true, EvalStackOperand.address, hK]
  rw [Nat.mod_mod_of_dvd _ hdvd, Nat.add_mod, Nat.mul_mod_left, Nat.zero_add, Nat.mod_mod,
    Nat.mod_mod]

theorem initCommand_isBranch (env : Env) (offset : Nat) (ops : List EvalStackOperand)
    (s s1 : Stack) (cmd : ExecCommand)
    (h : initCommand env offset false ops s = .ok (cmd, s1)) : cmd.isBranch = 0 := by
  simp only [initCommand, bind, Except.bind] at h
  split at h
  · cases h
  · split at h
    · split at h
      · cases h
      · simp only [pure, Except.pure, Except.ok.injEq, Prod.mk.injEq] at h
        rw [← h.1]
        rfl
    · cases h

theorem sendCommand_branch_flag (env : Env) (resp : Option (List Nat)) (offset : Nat)
    (ops : List EvalStackOperand) (w w1 : World) (r : Bool)
    (h : sendCommand env resp offset ops w = .ok (r, w1)) :
    ∃ cmd, w1.sent = w.sent ++ [cmd] ∧ cmd.isBranch = 0 := by
  cases hinit : initCommand env offset false ops w.stack with
  | error e => simp [sendCommand, hinit, bind, Except.bind] at h
  | ok v =>
    obtain ⟨cmd, s⟩ := v
    exact ⟨cmd, sendCommand_sent env resp offset ops w w1 r cmd s hinit h,
      initCommand_isBranch env offset ops w.stack s cmd hinit⟩

theorem serializedBytes_branch (abi : Abi) (c : ExecCommand) :
    ((c.serialize abi).1.drop 4).take 4 = leBytes 4 c.isBranch := by
  simp only [ExecCommand.serialize, ExecCommand.serializedBytes, List.append_assoc]
  rw [drop_append_leBytes, take_append_leBytes]

theorem branch_sent (env : Env) (resp : Option (List Nat)) (junk : EvalStackOperand)
    (offset : Nat) (w w1 : World) (r : Bool)
    (h : branch env resp junk offset w = .ok (r, w1)) :
    w1.sent = w.sent ∨ ∃ cmd, w1.sent = w.sent ++ [cmd] ∧ cmd.isBranch = 0 := by
  simp only [branch, bind, Except.bind] at h
  split at h
  · cases h
  · split at h
    · cases h
    · split at h
      · have hsent := sendCommand_branch_flag env resp offset [junk] _ w1 r h
        exact Or.inr hsent
      · simp only [pure, Except.pure, Except.ok.injEq, Prod.mk.injEq] at h
        rw [← h.2]
        exact Or.inl rfl

/-! ## Lemmas: what a completed send leaves -/

theorem StackFrame.push1_popped (c : Bool) (f f1 : StackFrame) (h : f.push1 c = .ok f1) :
    f1.poppedSymbolics = f.poppedSymbolics := by
  unfold StackFrame.push1 at h
  split at h
  · simp only [Except.ok.injEq] at h
    rw [← h]
  · cases h

theorem readConcretizedSymbolics_popped (env : Env) (resp : Option (List Nat))
    (top top1 : StackFrame) (ops ops1 : List EvalStackOperand) (r : Bool)
    (h : readConcretizedSymbolics env resp top ops = .ok (r, top1, ops1)) :
    top1.poppedSymbolics = top.poppedSymbolics := by
  cases resp with
  | none =>
    simp only [readConcretizedSymbolics, Except.ok.injEq, Prod.mk.injEq] at h
    rw [← h.2.1]
  | some msg =>
    cases msg with
    | nil => simp [readConcretizedSymbolics] at h
    | cons b0 tail =>
      simp only [readConcretizedSymbolics, bind, Except.bind] at h
      split at h
      · cases h
      · rename_i v hv
        have hv1 : v.1.poppedSymbolics = top.poppedSymbolics := by
          split at hv
          · split at hv
            · cases hv
            · split at hv
              · cases hv
              · rename_i t ht
                simp only [pure, Except.pure, Except.ok.injEq] at hv
                rw [← hv]
                exact StackFrame.push1_popped _ top t ht
          · simp only [pure, Except.pure, Except.ok.injEq] at hv
            rw [← hv]
        split at h
        · split at h
          · split at h
            · cases h
            · split at h
              · cases h
              · simp only [pure, Except.pure, Except.ok.injEq, Prod.mk.injEq] at h
                rw [← h.2.1]
                exact hv1
          · cases h
        · simp only [pure, Except.pure, Except.ok.injEq, Prod.mk.injEq] at h
          rw [← h.2.1]
          exact hv1

theorem initCommand_reset (env : Env) (offset : Nat) (isBranch : Bool)
    (ops : List EvalStackOperand) (s s1 : Stack) (cmd : ExecCommand)
    (h : initCommand env offset isBranch ops s = .ok (cmd, s1)) :
    s1 = s.resetPopsTracking := by
  simp only [initCommand, bind, Except.bind] at h
  split at h
  · cases h
  · split at h
    · split at h
      · cases h
      · simp only [pure, Except.pure, Except.ok.injEq, Prod.mk.injEq] at h
        rw [← h.2]
    · cases h

theorem Stack.resetPopsTracking_concat (rest : List StackFrame) (top : StackFrame) (u m : Nat) :
    Stack.resetPopsTracking ⟨rest ++ [top], u, m⟩ =
      ⟨rest ++ [top.resetPopsTracking], 0, rest.length + 1⟩ := by
  simp [Stack.resetPopsTracking]

theorem sendCommand_returned (env : Env) (resp : Option (List Nat)) (offset : Nat)
    (ops : List EvalStackOperand) (rest : List StackFrame) (top : StackFrame) (u m : Nat)
    (sent : List ExecCommand) (upd : List Update) (w1 : World) (r : Bool)
    (h : sendCommand env resp offset ops ⟨⟨rest ++ [top], u, m⟩, sent, upd⟩ = .ok (r, w1)) :
    ∃ cmd top1, w1 = ⟨⟨rest ++ [top1], 0, rest.length + 1⟩, sent ++ [cmd], upd⟩ ∧
      top1.poppedSymbolics = [] ∧ cmd.isBranch = 0 ∧ r = resp.isSome := by
  have hflag := sendCommand_flag env resp offset ops _ w1 r h
  cases hinit : initCommand env offset false ops ⟨rest ++ [top], u, m⟩ with
  | error e => simp [sendCommand, hinit, bind, Except.bind] at h
  | ok v =>
    obtain ⟨cmd, s1⟩ := v
    have hs1 := initCommand_reset env offset false ops _ s1 cmd hinit
    rw [Stack.resetPopsTracking_concat] at hs1
    subst hs1
    have h0 := initCommand_isBranch env offset ops _ _ cmd hinit
    simp only [sendCommand, hinit, bind, Except.bind, Stack.topFrame_concat] at h
    split at h
    · cases h
    · rename_i v hv
      obtain ⟨r0, t, o⟩ := v
      have hpop := readConcretizedSymbolics_popped env resp _ t _ o r0 hv
      have hempty : t.poppedSymbolics = [] := by rw [hpop]; rfl
      simp only [hempty, reconcileAt, Stack.setTop_concat] at h
      refine ⟨cmd, t, ?_, hempty, h0, hflag⟩
      cases r0 <;>
        simp only [pure, Except.pure, if_true, Bool.false_eq_true, if_false, Except.ok.injEq,
          Prod.mk.injEq, List.append_nil] at h <;>
        exact h.2.symm

theorem sendCommand_updates (env : Env) (resp : Option (List Nat)) (offset : Nat)
    (ops : List EvalStackOperand) (w w1 : World) (r : Bool)
    (h : sendCommand env resp offset ops w = .ok (r, w1)) : w1.updates = w.updates := by
  obtain ⟨⟨frames, u, m⟩, sent, upd⟩ := w
  rcases List.eq_nil_or_concat frames with hnil | ⟨rest, top, hcat⟩
  · subst hnil
    simp [sendCommand, initCommand, Stack.topFrame, bind, Except.bind] at h
  · subst hcat
    simp only [List.concat_eq_append] at h
    obtain ⟨cmd, top1, hw1, -, -, -⟩ :=
      sendCommand_returned env resp offset ops rest top u m sent upd w1 r h
    rw [hw1]

theorem readConcretizedSymbolics_freed (env : Env) (top : StackFrame) (returned : Option Bool)
    (d : EvalStackOperand) (ds : List EvalStackOperand)
    (hroom : returned.isSome → top.evalStack.length < top.maxStackSize)
    (hlt : (d :: ds).length < 2 ^ 32) :
    readConcretizedSymbolics env (some (encodeResponse env.abi returned (some (d :: ds))))
      top [] = .error .outOfBounds := by
  have h0 : charPositive env.abi 0 = false := charPositive_flag env.abi false
  have h1 : charPositive env.abi 1 = true := charPositive_flag env.abi true
  have hcount : leValue (leBytes 4 (ds.length + 1)) = ds.length + 1 := by
    rw [leValue_leBytes]
    exact Nat.mod_eq_of_lt (by simpa using hlt)
  cases returned with
  | none =>
    simp only [readConcretizedSymbolics, encodeResponse, List.singleton_append, h0,
      Bool.false_eq_true, if_false, pure, Except.pure, bind, Except.bind,
      readBytes_leBytes_append, hcount, List.length_cons, List.length_append,
      length_leBytes]
    rw [if_pos (by omega), if_pos (by omega)]
    simp [readOps, hcount]
  | some c =>
    have hr := hroom rfl
    simp only [readConcretizedSymbolics, encodeResponse, List.cons_append, List.nil_append,
      h1, if_true, pure, Except.pure, bind, Except.bind, StackFrame.push1, hr,
      charPositive_flag, readBytes_leBytes_append, hcount, List.length_cons,
      List.length_append, length_leBytes]
    rw [if_pos (by omega), if_pos (by omega)]
    simp [readOps, hcount]

theorem sendCommand_freed (env : Env) (offset : Nat) (ops : List EvalStackOperand)
    (rest : List StackFrame) (top : StackFrame) (u m : Nat) (sent : List ExecCommand)
    (upd : List Update) (returned : Option Bool) (d : EvalStackOperand)
    (ds : List EvalStackOperand)
    (hmin : m ≤ rest.length + 1)
    (hpos : ∀ p ∈ top.poppedSymbolics, p.2 < ops.length)
    (hroom : returned.isSome → top.evalStack.length < top.maxStackSize)
    (hlt : (d :: ds).length < 2 ^ 32) :
    sendCommand env (some (encodeResponse env.abi returned (some (d :: ds)))) offset ops
      ⟨⟨rest ++ [top], u, m⟩, sent, upd⟩ = .error .outOfBounds := by
  obtain ⟨cmd, marked, -, -, hinit, -, -, -, -⟩ :=
    initCommand_marked env offset ops rest top u m hmin hpos
  have hread := readConcretizedSymbolics_freed env top.resetPopsTracking returned d ds hroom hlt
  simp only [sendCommand, hinit, bind, Except.bind, Stack.topFrame_concat, freeCommand, hread]

/-! ## The command encoder (claims C1 and C2) -/

/-- Claim C1 as stated fails: for the sample command the bytes written by
`ExecCommand::serialize` are not in the order offset, branch flag, frame count
and frame tokens, call-stack pop count, operand count and descriptors,
evaluation-stack pop count; bytes 12 to 15 hold the call-stack pop count (2),
not the frame token (7). -/
theorem C1_counterexample :
    (ExecCommand.serialize abiX64 sampleCommand).1 ≠ specLayout abiX64 sampleCommand ∧
    (((ExecCommand.serialize abiX64 sampleCommand).1.drop 12).take 4 = leBytes 4 2) ∧
    (((specLayout abiX64 sampleCommand).drop 12).take 4 = leBytes 4 7) := by
  decide

/-- Claim C1, amended: for every command whose two count fields are the
lengths of its two arrays (fewer than 2^30 frame tokens),
`ExecCommand::serialize` writes first the six 4-byte fields offset, branch
flag, count of new frames, call-stack pop count, operand count and
evaluation-stack pop count, in this order, then the 4-byte frame tokens, and
last the operand descriptors. -/
theorem C1_serialize_layout (abi : Abi) (c : ExecCommand)
    (hframes : c.newCallStackFramesCount = c.newCallStackFrames.length)
    (hops : c.evaluationStackPushesCount = c.evaluationStackPushes.length)
    (hsmall : c.newCallStackFrames.length < 2 ^ 30) :
    (ExecCommand.serialize abi c).1 =
      leBytes 4 c.offset ++ (leBytes 4 c.isBranch ++ (leBytes 4 c.newCallStackFrames.length ++
        (leBytes 4 c.callStackFramesPops ++ (leBytes 4 c.evaluationStackPushes.length ++
          (leBytes 4 c.evaluationStackPops ++ (c.newCallStackFrames.flatMap (leBytes 4) ++
            c.evaluationStackPushes.flatMap (EvalStackOperand.serialize abi))))))) ∧
    (ExecCommand.serialize abi c).1.take 4 = leBytes 4 c.offset ∧
    ((ExecCommand.serialize abi c).1.drop 4).take 4 = leBytes 4 c.isBranch ∧
    ((ExecCommand.serialize abi c).1.drop 8).take 4 = leBytes 4 c.newCallStackFrames.length ∧
    ((ExecCommand.serialize abi c).1.drop 12).take 4 = leBytes 4 c.callStackFramesPops ∧
    ((ExecCommand.serialize abi c).1.drop 16).take 4 = leBytes 4 c.evaluationStackPushes.length ∧
    ((ExecCommand.serialize abi c).1.drop 20).take 4 = leBytes 4 c.evaluationStackPops ∧
    ((ExecCommand.serialize abi c).1.drop 24).take (4 * c.newCallStackFrames.length) =
      c.newCallStackFrames.flatMap (leBytes 4) ∧
    (ExecCommand.serialize abi c).1.drop (24 + 4 * c.newCallStackFrames.length) =
      c.evaluationStackPushes.flatMap (EvalStackOperand.serialize abi) := by
  have hb : (ExecCommand.serialize abi c).1 =
      leBytes 4 c.offset ++ (leBytes 4 c.isBranch ++ (leBytes 4 c.newCallStackFrames.length ++
        (leBytes 4 c.callStackFramesPops ++ (leBytes 4 c.evaluationStackPushes.length ++
          (leBytes 4 c.evaluationStackPops ++ (c.newCallStackFrames.flatMap (leBytes 4) ++
            c.evaluationStackPushes.flatMap (EvalStackOperand.serialize abi))))))) := by
    have hu : u32 (c.newCallStackFrames.length * 4) = 4 * c.newCallStackFrames.length := by
      unfold u32
      rw [Nat.mod_eq_of_lt (by omega)]
      omega
    have hl := length_flatMap_leBytes 4 c.newCallStackFrames
    simp only [ExecCommand.serialize, ExecCommand.serializedBytes, hframes, hops, hu,
      List.take_length, List.append_assoc]
    rw [List.take_of_length_le (by omega)]
  have d4 : ∀ (v : Nat) (l : List Nat), (leBytes 4 v ++ l).drop 4 = l := drop_append_leBytes 4
  have d8 : ∀ (v1 v2 : Nat) (l : List Nat), (leBytes 4 v1 ++ (leBytes 4 v2 ++ l)).drop 8 = l := by
    intro v1 v2 l
    rw [show 8 = 4 + 4 from rfl, ← List.drop_drop, d4, d4]
  have d12 : ∀ (v1 v2 v3 : Nat) (l : List Nat),
      (leBytes 4 v1 ++ (leBytes 4 v2 ++ (leBytes 4 v3 ++ l))).drop 12 = l := by
    intro v1 v2 v3 l
    rw [show 12 = 4 + 8 from rfl, ← List.drop_drop, d4, d8]
  have d24 : ∀ (v1 v2 v3 v4 v5 v6 : Nat) (l : List Nat),
      (leBytes 4 v1 ++ (leBytes 4 v2 ++ (leBytes 4 v3 ++ (leBytes 4 v4 ++ (leBytes 4 v5 ++
        (leBytes 4 v6 ++ l)))))).drop 24 = l := by
    intro v1 v2 v3 v4 v5 v6 l
    rw [show 24 = 12 + 12 from rfl, ← List.drop_drop, d12, d12]
  have hl := length_flatMap_leBytes 4 c.newCallStackFrames
  refine ⟨hb, ?_, ?_, ?_, ?_, ?_, ?_, ?_, ?_⟩
  · rw [hb, take_append_leBytes]
  · rw [hb, d4, take_append_leBytes]
  · rw [hb, d8, take_append_leBytes]
  · rw [hb, d12, take_append_leBytes]
  · rw [hb, show 16 = 12 + 4 from rfl, ← List.drop_drop, d12, d4, take_append_leBytes]
  · rw [hb, show 20 = 12 + 8 from rfl, ← List.drop_drop, d12, d8, take_append_leBytes]
  · rw [hb, d24, List.take_append_of_le_length (by omega), List.take_of_length_le (by omega)]
  · rw [hb, ← List.drop_drop, d24, List.drop_append_of_le_length (by omega),
      List.drop_of_length_le (by omega)]
    rfl

/-- Witness of `C1_serialize_layout` at the sample command. -/
theorem C1_serialize_layout_witness :
    (ExecCommand.serialize abiX64 sampleCommand).1.drop (24 + 4 * 1) =
      EvalStackOperand.serialize abiX64 ⟨OpI4, 9⟩ ++ [] :=
  (C1_serialize_layout abiX64 sampleCommand rfl rfl (by decide)).2.2.2.2.2.2.2.2

/-- Claim C2 as stated fails on the 64-bit targets: the descriptor of an
`int32` operand takes 12 bytes, not 1 + 8 = 9, both by `size()` and by the
bytes written, because the tag is written with `sizeof(EvalStackArgType)` = 4
bytes. -/
theorem C2_counterexample :
    EvalStackOperand.size abiX64 ⟨OpI4, 7⟩ ≠ 1 + 8 ∧
    (EvalStackOperand.serialize abiX64 ⟨OpI4, 7⟩).length ≠ 1 + 8 ∧
    EvalStackOperand.serialize abiX64 ⟨OpI4, 7⟩ = [2, 0, 0, 0, 7, 0, 0, 0, 0, 0, 0, 0] := by
  decide

/-- Claim C2, amended: for every operand descriptor,
`EvalStackOperand::serialize` writes the type tag in `sizeof(EvalStackArgType)`
bytes (4 on the 64-bit targets, not 1) followed by a fixed-width payload, so
that `size()` and the number of bytes written are the tag width plus the
pointer width for an object reference (`OpRef`) and the tag width plus 8 for
every other tag; on the 64-bit targets that is 12 bytes for every tag. -/
theorem C2_operand_size (abi : Abi) (op : EvalStackOperand) :
    (EvalStackOperand.serialize abi op).length = EvalStackOperand.size abi op ∧
    EvalStackOperand.size abi op = abi.enumSize + (if op.typ = OpRef then abi.ptrSize else 8) ∧
    (EvalStackOperand.serialize abi op).take abi.enumSize = leBytes abi.enumSize op.typ ∧
    (EvalStackOperand.serialize abi op).drop abi.enumSize =
      leBytes (if op.typ = OpRef then abi.ptrSize else 8) op.content ∧
    EvalStackOperand.size abiX64 op = 12 := by
  refine ⟨?_, ?_, ?_, ?_, ?_⟩
  · unfold EvalStackOperand.serialize EvalStackOperand.size
    split <;> simp [length_leBytes]
  · unfold EvalStackOperand.size
    split <;> rfl
  · unfold EvalStackOperand.serialize
    exact take_append_leBytes _ _ _
  · unfold EvalStackOperand.serialize
    rw [drop_append_leBytes]
    split <;> rfl
  · unfold EvalStackOperand.size
    split <;> rfl

/-! ## Commands built from the batching state (claims C3, C4 and C5) -/

/-- Claim C4: for every k ≥ 0, if k invocations of `Track_Call` happen, one
after the other, starting right after a flush (`minTopSinceLastSent` equal to
the frame count) with no flush in between, and one command is then built by
`initCommand`, the command's `newCallStackFramesCount` is k and
`newCallStackFrames` lists the tokens of the k pushed frames in call order,
oldest first.  (For k = 0 the operands must cover the positions of the
symbolic pops pending in the top frame, as `initCommand` asserts.) -/
theorem C4_new_frames_in_call_order (env : Env) (calls : List CallSite) (w w1 : World)
    (offset : Nat) (isBranch : Bool) (ops : List EvalStackOperand)
    (hne : w.stack.frames ≠ [])
    (hflushed : w.stack.minTopSinceLastSent = w.stack.frames.length)
    (hrun : trackCalls calls w = .ok w1)
    (hpos : calls = [] → ∀ top ∈ w.stack.frames.getLast?, ∀ p ∈ top.poppedSymbolics,
      p.2 < ops.length) :
    ∃ cmd s2, initCommand env offset isBranch ops w1.stack = .ok (cmd, s2) ∧
      cmd.newCallStackFramesCount = calls.length ∧
      cmd.newCallStackFrames =
        calls.map (fun c => env.frameToken c.resolvedToken c.unresolvedToken) := by
  obtain ⟨htok, hmin, -, hlast, hsame⟩ := trackCalls_tokens env calls w w1 hrun
  have hlen : w1.stack.frames.length = w.stack.frames.length + calls.length := by
    have := congrArg List.length htok
    simpa using this
  obtain ⟨⟨frames1, u1, m1⟩, sent1, upd1⟩ := w1
  simp only at htok hmin hlast hlen
  have hne1 : frames1 ≠ [] := by
    intro h0
    rw [h0] at hlen
    have : w.stack.frames.length = 0 := by simp at hlen; omega
    exact hne (List.length_eq_zero.mp this)
  rcases List.eq_nil_or_concat frames1 with hnil | ⟨rest1, top1, hcat⟩
  · exact absurd hnil hne1
  · simp only [List.concat_eq_append] at hcat
    subst hcat
    have hm1 : m1 = w.stack.frames.length := hmin.trans hflushed
    have hposs : ∀ p ∈ top1.poppedSymbolics, p.2 < ops.length := by
      by_cases hc : calls = []
      · have hw := hsame hc
        have htop : w.stack.frames.getLast? = some top1 := by
          rw [← hw]
          simp
        exact hpos hc top1 (by simp [htop])
      · obtain ⟨f, hf, hempty⟩ := hlast hc
        simp only [List.getLast?_concat, Option.some.injEq] at hf
        subst hf
        intro p hp
        rw [hempty] at hp
        cases hp
    obtain ⟨marked, hmark, -⟩ := markSymbolics_ok
      (u32 (top1.symbolicsCount + top1.poppedSymbolics.length)) top1.poppedSymbolics ops hposs
    have hle : m1 ≤ rest1.length + 1 := by
      simp at hlen
      omega
    refine ⟨_, _, initCommand_concat env offset isBranch ops marked rest1 top1 u1 m1 hle hmark,
      ?_, ?_⟩
    · simp at hlen
      simp only
      omega
    · simp only
      rw [List.map_drop, htok, hm1]
      have : w.stack.frames.length = (w.stack.frames.map env.tokenAt).length := by simp
      rw [this, List.drop_left]

/-- Witness of `C4_new_frames_in_call_order`: two calls, the first popping
one argument, after a flush at depth one. -/
theorem C4_new_frames_in_call_order_witness :
    ∃ cmd s2, initCommand ⟨abiX64, true, fun r _ => r, fun _ => 0⟩ 0 false []
        (⟨⟨[⟨1, 1, [], [], [], [(1, 0)], 4, false, true⟩,
            StackFrame.fresh 7 70 [false], StackFrame.fresh 8 80 []], 0, 1⟩, [], []⟩ :
          World).stack = .ok (cmd, s2) ∧
      cmd.newCallStackFramesCount = [(⟨70, 7, false, 1, 0⟩ : CallSite), ⟨80, 8, false, 0,
          0⟩].length ∧
      cmd.newCallStackFrames =
        [(⟨70, 7, false, 1, 0⟩ : CallSite), ⟨80, 8, false, 0, 0⟩].map
          (fun c => (fun r _ => r) c.resolvedToken c.unresolvedToken) :=
  C4_new_frames_in_call_order ⟨abiX64, true, fun r _ => r, fun _ => 0⟩
    [⟨70, 7, false, 1, 0⟩, ⟨80, 8, false, 0, 0⟩]
    ⟨⟨[⟨1, 1, [], [], [false], [], 4, false, true⟩], 0, 1⟩, [], []⟩ _ 0 false []
    (by decide) rfl (by decide) (by intro h; cases h)

/-- Claim C5: after every `sendCommand` that returns (any offset, any operand
list, any response) the batching counters are reset: `unsentPops` is 0,
`minTopSinceLastSent` is the current frame count and the top frame's
`poppedSymbolics` is empty; so a second command built immediately afterwards
reports zero new frames and zero frame pops.  And `sendCommand` does return
when the operands cover the pending pop positions and the wait fails or the
response is well formed, leaves room for the returned flag and carries no
operand descriptor (a descriptor would be decoded into the operand array that
`freeCommand` has deleted). -/
theorem C5_send_resets_batching (env : Env) (offset : Nat) (ops : List EvalStackOperand)
    (w : World) (rest : List StackFrame) (top : StackFrame) (returned : Option Bool)
    (concretized : Option (List EvalStackOperand)) (resp : Option (List Nat))
    (hframes : w.stack.frames = rest ++ [top])
    (hmin : w.stack.minTopSinceLastSent ≤ w.stack.frames.length)
    (hpos : ∀ p ∈ top.poppedSymbolics, p.2 < ops.length)
    (hresp : resp = none ∨ resp = some (encodeResponse env.abi returned concretized))
    (hroom : returned.isSome → top.evalStack.length < top.maxStackSize)
    (hfit : ∀ ds ∈ concretized, ds = []) :
    (∃ r w1, sendCommand env resp offset ops w = .ok (r, w1)) ∧
    (∀ (resp0 : Option (List Nat)) (r : Bool) (w1 : World),
      sendCommand env resp0 offset ops w = .ok (r, w1) →
      ∃ top1, w1.stack.unsentPops = 0 ∧
        w1.stack.minTopSinceLastSent = w1.stack.frames.length ∧
        w1.stack.frames = rest ++ [top1] ∧
        top1.poppedSymbolics = [] ∧
        (∀ offset2 isBranch2 ops2, ∃ cmd2 s2,
          initCommand env offset2 isBranch2 ops2 w1.stack = .ok (cmd2, s2) ∧
          cmd2.newCallStackFramesCount = 0 ∧ cmd2.newCallStackFrames = [] ∧
          cmd2.callStackFramesPops = 0)) := by
  obtain ⟨⟨frames, u, m⟩, sent, upd⟩ := w
  simp only at hframes hmin
  subst hframes
  have hle : m ≤ rest.length + 1 := by simpa using hmin
  have hsecond : ∀ (top1 : StackFrame), top1.poppedSymbolics = [] →
      ∀ offset2 isBranch2 ops2, ∃ cmd2 s2,
        initCommand env offset2 isBranch2 ops2 ⟨rest ++ [top1], 0, rest.length + 1⟩ =
          .ok (cmd2, s2) ∧
        cmd2.newCallStackFramesCount = 0 ∧ cmd2.newCallStackFrames = [] ∧
        cmd2.callStackFramesPops = 0 := by
    intro top1 hempty offset2 isBranch2 ops2
    have hm2 : markSymbolics (u32 (top1.symbolicsCount + top1.poppedSymbolics.length))
        top1.poppedSymbolics ops2 = .ok ops2 := by
      rw [hempty]
      rfl
    refine ⟨_, _, initCommand_concat env offset2 isBranch2 ops2 ops2 rest top1 0
      (rest.length + 1) (Nat.le_refl _) hm2, ?_, ?_, rfl⟩
    · simp
    · have : (rest ++ [top1]).length = rest.length + 1 := by simp
      simp only
      rw [← this, List.drop_length]
      rfl
  refine ⟨?_, ?_⟩
  · obtain ⟨cmd, marked, -, -, -, -, hsend⟩ := sendCommand_answered env offset ops rest top u m
      sent upd returned concretized resp hle hpos hresp hroom hfit
    exact ⟨_, _, hsend⟩
  · intro resp0 r w1 h
    obtain ⟨cmd, top1, hw1, hempty, -, -⟩ :=
      sendCommand_returned env resp0 offset ops rest top u m sent upd w1 r h
    subst hw1
    exact ⟨top1, rfl, by simp, rfl, hempty, hsecond top1 hempty⟩

/-- Witness of `C5_send_resets_batching`: one pending call return, one pending
symbolic pop, and a response carrying a symbolic return value and an empty
block of descriptors. -/
theorem C5_send_resets_batching_witness :
    (∃ r w1, sendCommand sampleEnv (some (encodeResponse abiX64 (some false) (some []))) 3
      [⟨OpI4, 0⟩] samplePendingWorld = .ok (r, w1)) ∧
    (∀ (resp0 : Option (List Nat)) (r : Bool) (w1 : World),
      sendCommand sampleEnv resp0 3 [⟨OpI4, 0⟩] samplePendingWorld = .ok (r, w1) →
      ∃ top1, w1.stack.unsentPops = 0 ∧
        w1.stack.minTopSinceLastSent = w1.stack.frames.length ∧
        w1.stack.frames = [] ++ [top1] ∧
        top1.poppedSymbolics = [] ∧
        (∀ offset2 isBranch2 ops2, ∃ cmd2 s2,
          initCommand sampleEnv offset2 isBranch2 ops2 w1.stack = .ok (cmd2, s2) ∧
          cmd2.newCallStackFramesCount = 0 ∧ cmd2.newCallStackFrames = [] ∧
          cmd2.callStackFramesPops = 0)) :=
  C5_send_resets_batching sampleEnv 3 [⟨OpI4, 0⟩] samplePendingWorld []
    ⟨1, 1, [], [], [true], [(1, 0)], 4, false, true⟩ (some false) (some []) _
    rfl (by decide) (by decide) (Or.inr rfl) (by decide) (by decide)

/-! ## Calls, prologues and epilogues (claims C6 to C9) -/

/-- Claim C6 fails on the code: `Track_Call` with `argsCount = 3` over the
operand stack `[true, false, true]` (no symbolic pop pending) pops the three
slots and pushes one not-yet-entered frame with three argument flags, one of
them symbolic, but the flags are `[false, true, true]`: the symbolic flag sits
at the index `symbolicsCount - pair.first` = 0, not at the pop position 1 of
the symbolic slot, so argument flag 0 is not the concreteness of the slot
popped first. -/
theorem C6_track_call_misaligned :
    Track_Call 9 9 false 3 0 sampleCallWorld =
      .ok ⟨⟨[⟨1, 1, [], [], [], [(1, 1)], 3, false, true⟩,
             ⟨9, 9, [false, true, true], [], [], [], 0, false, false⟩], 0, 1⟩, [], []⟩ ∧
    poppedFlags 3 [true, false, true] = [true, false, true] ∧
    [false, true, true] ≠ poppedFlags 3 [true, false, true] := by
  decide

/-- Claim C7 as stated fails for `Track_CallVirt`: it pushes a frame whose
resolved token is 0, and a `Track_Enter` reporting the different token 5 then
pushes no frame; it marks the frame of the call entered and not spontaneous. -/
theorem C7_counterexample :
    (Track_CallVirt 0 0 ⟨⟨[⟨1, 1, [], [], [], [], 4, false, true⟩], 0, 1⟩, [], []⟩ >>=
      Track_Enter 5 4 0 0) =
    .ok ⟨⟨[⟨1, 1, [], [], [], [], 4, false, true⟩,
           ⟨0, 0, [], [], [], [], 4, false, true⟩], 0, 1⟩, [], []⟩ := by
  decide

/-- Claim C7, amended: for every non-empty shadow stack whose top frame has a
non-zero resolved token t (a frame pushed by `Track_Call` with resolved token
t), a `Track_Enter` reporting a token different from t pushes exactly one new
frame, flagged spontaneous and entered, whose `argsCount` argument flags are
all concrete; the frame pushed by the call stays beneath it, unchanged, as do
all other frames.  After `Track_CallVirt`, which pushes a frame of resolved
token 0 on the frames there were, every `Track_Enter`, whatever token it
reports, is taken as matching and pushes no frame: it marks the pushed frame
entered and not spontaneous and sets its stack size and locals. -/
theorem C7_spontaneous_enter (w : World) (rest : List StackFrame) (top : StackFrame)
    (token maxStackSize argsCount localsCount : Nat)
    (hframes : w.stack.frames = rest ++ [top])
    (hnonzero : top.resolvedToken ≠ 0) (hdiff : token ≠ top.resolvedToken) :
    Track_Enter token maxStackSize argsCount localsCount w =
      .ok { w with stack := { w.stack with frames := rest ++ [top,
        { resolvedToken := token
          unresolvedToken := token
          args := List.replicate argsCount true
          locals := List.replicate localsCount true
          evalStack := []
          poppedSymbolics := []
          maxStackSize := maxStackSize
          spontaneous := true
          entered := true }] } } ∧
    (∀ (count offset token0 maxStackSize0 argsCount0 localsCount0 : Nat) (w0 w1 : World),
      Track_CallVirt count offset w0 = .ok w1 →
      ∃ below args, below.length = w0.stack.frames.length ∧
        w1.stack.frames = below ++ [StackFrame.fresh 0 0 args] ∧
        Track_Enter token0 maxStackSize0 argsCount0 localsCount0 w1 =
          .ok { w1 with stack := { w1.stack with frames := below ++
            [{ StackFrame.fresh 0 0 args with
              maxStackSize := maxStackSize0
              locals := List.replicate localsCount0 true
              spontaneous := false
              entered := true }] } }) := by
  refine ⟨?_, ?_⟩
  · obtain ⟨⟨frames, u, m⟩, sent, upd⟩ := w
    simp only at hframes
    subst hframes
    have hne : ¬ (top.resolvedToken = 0 ∨ top.resolvedToken = token) := by
      rintro (h | h)
      · exact hnonzero h
      · exact hdiff h.symm
    simp only [Track_Enter, Stack.isEmpty, Stack.topFrame_concat, Stack.pushFrame]
    simp [hne, bind, Except.bind, pure, Except.pure, StackFrame.fresh, StackFrame.configure,
      Stack.setTop, Stack.topFrame]
  · intro count offset token0 maxStackSize0 argsCount0 localsCount0 w0 w1 h
    obtain ⟨below, args, hw1, hlen⟩ := Track_Call_pushed 0 0 false count offset w0 w1 h
    subst hw1
    refine ⟨below, args, hlen, rfl, ?_⟩
    simp only [Track_Enter, Stack.isEmpty, Stack.topFrame_concat]
    simp [bind, Except.bind, pure, Except.pure, StackFrame.fresh, StackFrame.configure,
      Stack.setTop]

/-- Witness of `C7_spontaneous_enter`: the call frame has token 7, the
prologue reports token 5. -/
theorem C7_spontaneous_enter_witness :
    Track_Enter 5 4 2 1
      ⟨⟨[⟨1, 1, [], [], [], [], 4, false, true⟩, StackFrame.fresh 7 7 [true]], 0, 1⟩, [], []⟩ =
    .ok ⟨⟨[⟨1, 1, [], [], [], [], 4, false, true⟩, StackFrame.fresh 7 7 [true],
           ⟨5, 5, [true, true], [true], [], [], 4, true, true⟩], 0, 1⟩, [], []⟩ ∧
    (∀ (count offset token0 maxStackSize0 argsCount0 localsCount0 : Nat) (w0 w1 : World),
      Track_CallVirt count offset w0 = .ok w1 →
      ∃ below args, below.length = w0.stack.frames.length ∧
        w1.stack.frames = below ++ [StackFrame.fresh 0 0 args] ∧
        Track_Enter token0 maxStackSize0 argsCount0 localsCount0 w1 =
          .ok { w1 with stack := { w1.stack with frames := below ++
            [{ StackFrame.fresh 0 0 args with
              maxStackSize := maxStackSize0
              locals := List.replicate localsCount0 true
              spontaneous := false
              entered := true }] } }) :=
  C7_spontaneous_enter _ [⟨1, 1, [], [], [], [], 4, false, true⟩] (StackFrame.fresh 7 7 [true])
    5 4 2 1 rfl (by decide) (by decide)

/-- Claim C8: for every shadow stack with at least two frames whose top frame
holds one return-value flag r, `Track_Leave` with `returnValues = 1` removes
the top frame; if that frame was spontaneous the caller's `evalStack` (and the
whole caller frame) is exactly what it was before, and if it was not
spontaneous the caller's `evalStack` is what it was before with the one flag r
appended (the caller having room for one more slot). -/
theorem C8_leave_return_value (env : Env) (w : World) (rest : List StackFrame)
    (caller top : StackFrame) (r : Bool) (offset : Nat)
    (hframes : w.stack.frames = rest ++ [caller, top])
    (hret : top.evalStack = [r])
    (hroom : top.spontaneous = false → caller.evalStack.length < caller.maxStackSize) :
    ∃ w1, Track_Leave env 1 offset w = .ok w1 ∧
      w1.stack.frames = rest ++
        [if top.spontaneous then caller
         else { caller with evalStack := caller.evalStack ++ [r] }] ∧
      w1.sent = w.sent ∧ w1.updates = w.updates := by
  obtain ⟨⟨frames, u, m⟩, sent, upd⟩ := w
  simp only at hframes
  subst hframes
  have hsplit : rest ++ [caller, top] = (rest ++ [caller]) ++ [top] := by simp
  have hpop := StackFrame.popSlot_concat 0 top [] r (by simpa using hret)
  cases hs : top.spontaneous with
  | true =>
    refine ⟨⟨⟨rest ++ [caller], u + 1, min m (rest ++ [caller]).length⟩, sent, upd⟩, ?_, ?_, rfl, rfl⟩
    · simp only [Track_Leave, hsplit, Stack.topFrame_concat, Stack.setTop_concat,
        StackFrame.pop1, hpop, Stack.popFrame_concat]
      simp [bind, Except.bind, pure, Except.pure, StackFrame.count, hret, Stack.isEmpty, hs, hpop]
    · simp
  | false =>
    have hr := hroom hs
    refine ⟨⟨⟨rest ++ [{ caller with evalStack := caller.evalStack ++ [r] }], u + 1,
      min m (rest ++ [caller]).length⟩, sent, upd⟩, ?_, ?_, rfl, rfl⟩
    · simp only [Track_Leave, hsplit, Stack.topFrame_concat, Stack.setTop_concat,
        StackFrame.pop1, hpop, Stack.popFrame_concat]
      simp [bind, Except.bind, pure, Except.pure, StackFrame.count, hret, Stack.isEmpty, hs,
        Stack.topFrame_concat, Stack.setTop_concat, StackFrame.push1, hr, hpop]
    · simp

/-- Witness of `C8_leave_return_value`: a non-spontaneous callee returning a
symbolic value to a caller with room. -/
theorem C8_leave_return_value_witness :
    ∃ w1, Track_Leave ⟨abiX64, true, fun r _ => r, fun _ => 0⟩ 1 0
        ⟨⟨[⟨1, 1, [], [], [true], [], 4, false, true⟩,
           ⟨2, 2, [], [], [false], [], 4, false, true⟩], 0, 1⟩, [], []⟩ = .ok w1 ∧
      w1.stack.frames = [] ++
        [if (⟨2, 2, [], [], [false], [], 4, false, true⟩ : StackFrame).spontaneous then
          ⟨1, 1, [], [], [true], [], 4, false, true⟩
         else { (⟨1, 1, [], [], [true], [], 4, false, true⟩ : StackFrame) with
           evalStack := [true] ++ [false] }] ∧
      w1.sent = [] ∧ w1.updates = [] :=
  C8_leave_return_value ⟨abiX64, true, fun r _ => r, fun _ => 0⟩ _ []
    ⟨1, 1, [], [], [true], [], 4, false, true⟩ ⟨2, 2, [], [], [false], [], 4, false, true⟩
    false 0 rfl rfl (by decide)

/-- Claim C9: `Finalize_Call` on a top frame that has entered leaves the whole
shadow stack (and everything else) unchanged; on a top frame that has not
entered, above a caller frame, it removes exactly that frame and then pushes
nothing when `returnValues = 0`, and pushes exactly one concrete flag onto the
new top frame's `evalStack` when `returnValues = 1` (that frame having room
for one more slot). -/
theorem C9_finalize_call (env : Env) (w : World) (rest : List StackFrame) (top : StackFrame)
    (hframes : w.stack.frames = rest ++ [top]) :
    (top.entered = true → ∀ returnValues, Finalize_Call env returnValues w = .ok w) ∧
    (top.entered = false → ∀ below caller, rest = below ++ [caller] →
      (∃ w0, Finalize_Call env 0 w = .ok w0 ∧ w0.stack.frames = below ++ [caller] ∧
        w0.sent = w.sent ∧ w0.updates = w.updates) ∧
      (caller.evalStack.length < caller.maxStackSize →
        ∃ w1, Finalize_Call env 1 w = .ok w1 ∧
          w1.stack.frames = below ++ [{ caller with evalStack := caller.evalStack ++ [true] }] ∧
          w1.sent = w.sent ∧ w1.updates = w.updates)) := by
  obtain ⟨⟨frames, u, m⟩, sent, upd⟩ := w
  simp only at hframes
  subst hframes
  refine ⟨?_, ?_⟩
  · intro he returnValues
    simp only [Finalize_Call, Stack.topFrame_concat]
    simp [bind, Except.bind, pure, Except.pure, he]
  · intro he below caller hrest
    subst hrest
    refine ⟨⟨⟨⟨below ++ [caller], u + 1, min m (below ++ [caller]).length⟩, sent, upd⟩,
      ?_, rfl, rfl, rfl⟩, ?_⟩
    · simp only [Finalize_Call, Stack.topFrame_concat, Stack.popFrame_concat]
      simp [bind, Except.bind, pure, Except.pure, he, Stack.isEmpty]
    · intro hroom
      refine ⟨⟨⟨below ++ [{ caller with evalStack := caller.evalStack ++ [true] }], u + 1,
        min m (below ++ [caller]).length⟩, sent, upd⟩, ?_, rfl, rfl, rfl⟩
      simp only [Finalize_Call, Stack.topFrame_concat, Stack.popFrame_concat]
      simp [bind, Except.bind, pure, Except.pure, he, Stack.isEmpty, Stack.topFrame_concat,
        Stack.setTop_concat, StackFrame.push1Concrete, StackFrame.push1, hroom]

/-- Witness of `C9_finalize_call`: the frame of an extern callee (never
entered) above a caller with room. -/
theorem C9_finalize_call_witness :
    ∃ w1, Finalize_Call ⟨abiX64, true, fun r _ => r, fun _ => 0⟩ 1
        ⟨⟨[⟨1, 1, [], [], [false], [], 4, false, true⟩, StackFrame.fresh 7 7 []], 0, 1⟩,
          [], []⟩ = .ok w1 ∧
      w1.stack.frames = [] ++ [{ (⟨1, 1, [], [], [false], [], 4, false, true⟩ : StackFrame) with
        evalStack := [false] ++ [true] }] ∧
      w1.sent = [] ∧ w1.updates = [] :=
  ((C9_finalize_call ⟨abiX64, true, fun r _ => r, fun _ => 0⟩ _
    [⟨1, 1, [], [], [false], [], 4, false, true⟩] (StackFrame.fresh 7 7 []) rfl).2 rfl []
      ⟨1, 1, [], [], [false], [], 4, false, true⟩ rfl).2 (by decide)

/-! ## Arithmetic and conversion probes (claim C10) -/

/-- Claim C10: for `Track_UnOp`, `Track_Conv` and `Track_Conv_Ovf` on a top
frame whose top flag is concrete, the one flag is popped, one concrete flag is
pushed and no command is sent, so that the state is what it was; `Track_BinOp`
pops the two top flags, returns true exactly when both are concrete, pushes
one concrete flag in that case and nothing otherwise, and sends no command.
The top frame holds no more slots than its stack size. -/
theorem C10_arithmetic_probes (env : Env) (resp : Option (List Nat)) (junk : EvalStackOperand)
    (op offset : Nat) (w : World) (rest : List StackFrame) (top : StackFrame)
    (hframes : w.stack.frames = rest ++ [top])
    (hcap : top.evalStack.length ≤ top.maxStackSize) :
    (∀ es, top.evalStack = es ++ [true] →
      top.pop1 = .ok (true, { top with evalStack := es }) ∧
      StackFrame.push1Concrete { top with evalStack := es } = .ok top ∧
      Track_UnOp env resp junk op offset w = .ok w ∧
      Track_Conv env resp junk offset w = .ok w ∧
      Track_Conv_Ovf env resp junk offset w = .ok w) ∧
    (∀ es a b, top.evalStack = es ++ [a, b] →
      ∃ top1 w1, top.pop 2 = .ok (a && b, top1) ∧ top1.evalStack = es ∧
        Track_BinOp w = .ok (a && b, w1) ∧
        w1.stack.frames =
          rest ++ [{ top1 with evalStack := if a && b then es ++ [true] else es }] ∧
        w1.sent = w.sent ∧ w1.updates = w.updates) := by
  obtain ⟨⟨frames, u, m⟩, sent, upd⟩ := w
  simp only at hframes
  subst hframes
  refine ⟨?_, ?_⟩
  · intro es hes
    have hpop := StackFrame.popSlot_concat 0 top es true hes
    have hlen : es.length < top.maxStackSize := by
      rw [hes] at hcap
      simp at hcap
      omega
    have htop : ({ top with evalStack := es ++ [true] } : StackFrame) = top := by
      rw [← hes]
    have hpush : StackFrame.push1Concrete { top with evalStack := es } = .ok top := by
      simp [StackFrame.push1Concrete, StackFrame.push1, hlen, htop]
    have hpop1 : top.pop1 = .ok (true, { top with evalStack := es }) := by
      simpa [StackFrame.pop1] using hpop
    have hrun : popPushOrSend env resp junk offset ⟨⟨rest ++ [top], u, m⟩, sent, upd⟩ =
        .ok ⟨⟨rest ++ [top], u, m⟩, sent, upd⟩ := by
      simp only [popPushOrSend, Stack.topFrame_concat, hpop1]
      simp [bind, Except.bind, pure, Except.pure, hpush, hpop1, Stack.setTop_concat]
    exact ⟨hpop1, hpush, hrun, hrun, hrun⟩
  · intro es a b hes
    have hlen : es.length < top.maxStackSize := by
      rw [hes] at hcap
      simp at hcap
      omega
    have hes1 : top.evalStack = (es ++ [a]) ++ [b] := by simp [hes]
    have hpop0 := StackFrame.popSlot_concat 0 top (es ++ [a]) b hes1
    have hpopAll : ∃ top1, top.pop 2 = .ok (a && b, top1) ∧ top1.evalStack = es ∧
        top1.maxStackSize = top.maxStackSize := by
      simp only [StackFrame.pop, StackFrame.popFrom, hpop0]
      simp only [bind, Except.bind]
      rw [StackFrame.popSlot_concat 1 _ es a rfl]
      simp [pure, Except.pure, Bool.and_comm]
    obtain ⟨top1, hp, he, hm⟩ := hpopAll
    refine ⟨top1, ⟨⟨rest ++ [{ top1 with evalStack := if a && b then es ++ [true] else es }],
      u, m⟩, sent, upd⟩, hp, he, ?_, rfl, rfl, rfl⟩
    simp only [Track_BinOp, Stack.topFrame_concat, hp]
    cases hab : (a && b) with
    | true =>
      simp [bind, Except.bind, pure, Except.pure, StackFrame.push1Concrete, StackFrame.push1,
        he, hm, hlen, hp, hab, Stack.setTop_concat]
    | false =>
      have htop1 : ({ top1 with evalStack := es } : StackFrame) = top1 := by
        rw [← he]
      simp [bind, Except.bind, pure, Except.pure, Stack.setTop_concat, htop1, hp, hab]

/-- Witness of `C10_arithmetic_probes`: a frame holding a symbolic and a
concrete flag, within its stack size. -/
theorem C10_arithmetic_probes_witness :
    Track_UnOp ⟨abiX64, true, fun r _ => r, fun _ => 0⟩ none ⟨0, 0⟩ 0 0
      ⟨⟨[⟨1, 1, [], [], [false, true], [], 4, false, true⟩], 0, 1⟩, [], []⟩ =
    .ok ⟨⟨[⟨1, 1, [], [], [false, true], [], 4, false, true⟩], 0, 1⟩, [], []⟩ :=
  ((C10_arithmetic_probes ⟨abiX64, true, fun r _ => r, fun _ => 0⟩ none ⟨0, 0⟩ 0 0 _ []
    ⟨1, 1, [], [], [false, true], [], 4, false, true⟩ rfl (by decide)).1 [false] rfl).2.2.1

/-! ## Loads and stores of argument and local slots (claims C11 to C13) -/

/-- Claim C11 as stated fails: loading the symbolic argument 1 of the sample
frame leaves `evalStack` empty when the executor answers `[0]` (no return
value), and pushes a concrete flag when it answers `[1, 1]`; the probe itself
pushes nothing, the flag comes from the response. -/
theorem C11_counterexample :
    Track_Ldarg_1 sampleEnv (some [0]) 0 sampleArgsWorld =
      .ok ⟨⟨[⟨5, 5, [true, false], [true, false], [], [], 4, false, true⟩], 0, 1⟩,
        [⟨0, 0, 0, 0, 0, 0, [], []⟩], []⟩ ∧
    Track_Ldarg_1 sampleEnv (some [1, 1]) 0 sampleArgsWorld =
      .ok ⟨⟨[⟨5, 5, [true, false], [true, false], [true], [], 4, false, true⟩], 0, 1⟩,
        [⟨0, 0, 0, 0, 0, 0, [], []⟩], []⟩ := by
  decide

/-- Claim C11, amended: for every frame (no symbolic pop pending since the
last flush) and every in-range index i whose argument (resp. local) slot is
symbolic, the helper `ldarg` / `ldloc` returns false and changes nothing, and
the load probe `Track_Ldarg*` (resp. `Track_Ldloc*`) dispatches a command with
zero operand descriptors; the probe itself pushes no flag: the flag pushed
onto the top frame's `evalStack` is the one that the response announces, none
when the wait fails or the response has no return value, and one symbolic
flag (from `[]` to `[false]`) when the response returns a symbolic value. -/
theorem C11_load_symbolic (env : Env) (offset : Nat) (w : World) (rest : List StackFrame)
    (top : StackFrame) (i : Nat) (returned : Option Bool)
    (concretized : Option (List EvalStackOperand)) (resp : Option (List Nat))
    (hframes : w.stack.frames = rest ++ [top])
    (hmin : w.stack.minTopSinceLastSent ≤ w.stack.frames.length)
    (hfresh : top.poppedSymbolics = [])
    (hresp : resp = none ∨ resp = some (encodeResponse env.abi returned concretized))
    (hroom : returned.isSome → top.evalStack.length < top.maxStackSize)
    (hfit : ∀ ds ∈ concretized, ds = []) :
    ∃ cmd w1, cmd.evaluationStackPushesCount = 0 ∧ cmd.evaluationStackPushes = [] ∧
      w1.stack.frames = rest ++ [{ top with evalStack := top.evalStack ++
        (if resp.isSome then returned.toList else []) }] ∧
      w1.sent = w.sent ++ [cmd] ∧ w1.updates = w.updates ∧
      (resp.isSome → returned = some false → top.evalStack = [] →
        w1.stack.frames = rest ++ [{ top with evalStack := [false] }]) ∧
      (top.args[i]? = some false →
        ldarg i w = .ok (false, w) ∧
      (i = 0 → Track_Ldarg_0 env resp offset w = .ok w1) ∧
      (i = 1 → Track_Ldarg_1 env resp offset w = .ok w1) ∧
      (i = 2 → Track_Ldarg_2 env resp offset w = .ok w1) ∧
      (i = 3 → Track_Ldarg_3 env resp offset w = .ok w1) ∧
      (i < 2 ^ 8 → Track_Ldarg_S env resp i offset w = .ok w1) ∧
      (i < 2 ^ 15 → Track_Ldarg env resp i offset w = .ok w1)) ∧
      (top.locals[i]? = some false →
        ldloc i w = .ok (false, w) ∧
      (i = 0 → Track_Ldloc_0 env resp offset w = .ok w1) ∧
      (i = 1 → Track_Ldloc_1 env resp offset w = .ok w1) ∧
      (i = 2 → Track_Ldloc_2 env resp offset w = .ok w1) ∧
      (i = 3 → Track_Ldloc_3 env resp offset w = .ok w1) ∧
      (i < 2 ^ 8 → Track_Ldloc_S env resp i offset w = .ok w1) ∧
      (i < 2 ^ 15 → Track_Ldloc env resp i offset w = .ok w1)) := by
  obtain ⟨⟨frames, u, m⟩, sent, upd⟩ := w
  simp only at hframes hmin
  subst hframes
  have hle : m ≤ rest.length + 1 := by simpa using hmin
  obtain ⟨cmd, marked, hmark, -, hpushes, hcount, hsend⟩ :=
    sendCommand_answered env offset [] rest top u m sent upd returned concretized resp hle
      (by rw [hfresh]; intro p hp; cases hp) hresp hroom
      (by
        intro ds hds
        have h0 := hfit ds hds
        subst h0
        simp)
  have hmarked : marked = [] := by
    rw [hfresh] at hmark
    simpa [markSymbolics] using hmark.symm
  have hreset : top.resetPopsTracking = top := by
    unfold StackFrame.resetPopsTracking
    rw [← hfresh]
  have hT : top.resetPopsTracking.withReturned (if resp.isSome then returned else none) =
      { top with evalStack := top.evalStack ++
        (if resp.isSome then returned.toList else []) } := by
    rw [hreset]
    cases resp <;> cases returned <;> simp [StackFrame.withReturned]
  rw [hT] at hsend
  have hgen : unlessSend0 env resp offset
      (.ok (false, ⟨⟨rest ++ [top], u, m⟩, sent, upd⟩)) =
      .ok ⟨⟨rest ++ [{ top with evalStack := top.evalStack ++
        (if resp.isSome then returned.toList else []) }], 0, rest.length + 1⟩,
        sent ++ [cmd], upd⟩ := by
    simp only [unlessSend0, sendCommand0, bind, Except.bind, hsend]
    simp [pure, Except.pure]
  refine ⟨cmd, ⟨⟨rest ++ [{ top with evalStack := top.evalStack ++
      (if resp.isSome then returned.toList else []) }], 0, rest.length + 1⟩, sent ++ [cmd], upd⟩,
    by simpa using hcount, by rw [hpushes, hmarked], rfl, rfl, rfl, ?_, ?_, ?_⟩
  · intro hsome hret hempty
    subst hret
    simp [hsome, hempty]
  · intro hslot
    have hl := ldarg_flag rest top u m sent upd i false hslot (by simp)
    simp only [Bool.false_eq_true, if_false] at hl
    have keyLdarg : ∀ j : Int, j = (i : Int) →
        unlessSend0 env resp offset (ldarg j ⟨⟨rest ++ [top], u, m⟩, sent, upd⟩) =
          unlessSend0 env resp offset (.ok (false, ⟨⟨rest ++ [top], u, m⟩, sent, upd⟩)) := by
      intro j hj
      subst hj
      rw [hl]
    exact ⟨hl, fun hi => (keyLdarg 0 (by subst hi; rfl)).trans hgen,
        fun hi => (keyLdarg 1 (by subst hi; rfl)).trans hgen,
        fun hi => (keyLdarg 2 (by subst hi; rfl)).trans hgen,
        fun hi => (keyLdarg 3 (by subst hi; rfl)).trans hgen,
        fun hi => (keyLdarg _ (by rw [Nat.mod_eq_of_lt hi])).trans hgen,
        fun hi => (keyLdarg _ (signed_sixteen_small i hi)).trans hgen⟩
  · intro hslot
    have hl := ldloc_flag rest top u m sent upd i false hslot (by simp)
    simp only [Bool.false_eq_true, if_false] at hl
    have keyLdloc : ∀ j : Int, j = (i : Int) →
        unlessSend0 env resp offset (ldloc j ⟨⟨rest ++ [top], u, m⟩, sent, upd⟩) =
          unlessSend0 env resp offset (.ok (false, ⟨⟨rest ++ [top], u, m⟩, sent, upd⟩)) := by
      intro j hj
      subst hj
      rw [hl]
    exact ⟨hl, fun hi => (keyLdloc 0 (by subst hi; rfl)).trans hgen,
        fun hi => (keyLdloc 1 (by subst hi; rfl)).trans hgen,
        fun hi => (keyLdloc 2 (by subst hi; rfl)).trans hgen,
        fun hi => (keyLdloc 3 (by subst hi; rfl)).trans hgen,
        fun hi => (keyLdloc _ (by rw [Nat.mod_eq_of_lt hi])).trans hgen,
        fun hi => (keyLdloc _ (signed_sixteen_small i hi)).trans hgen⟩

/-- Witness of `C11_load_symbolic`: argument 1 of the sample frame, the
executor returning a symbolic value. -/
theorem C11_load_symbolic_witness :
    ∃ cmd w1, cmd.evaluationStackPushesCount = 0 ∧ cmd.evaluationStackPushes = [] ∧
      w1.stack.frames = ([] : List StackFrame) ++ [{ sampleArgsFrame
          with evalStack := sampleArgsFrame.evalStack ++
        (if (some (encodeResponse abiX64 (some false) none)).isSome then (some false).toList else
            []) }] ∧
      w1.sent = sampleArgsWorld.sent ++ [cmd] ∧ w1.updates = sampleArgsWorld.updates ∧
      ((some (encodeResponse abiX64 (some false) none)).isSome → (some false) = some false →
          sampleArgsFrame.evalStack = [] →
        w1.stack.frames = ([] : List StackFrame) ++ [{ sampleArgsFrame with evalStack := [false]
            }]) ∧
      (sampleArgsFrame.args[1]? = some false →
        ldarg 1 sampleArgsWorld = .ok (false, sampleArgsWorld) ∧
      (1 = 0 → Track_Ldarg_0 sampleEnv (some (encodeResponse abiX64 (some false) none)) 0
          sampleArgsWorld = .ok w1) ∧
      (1 = 1 → Track_Ldarg_1 sampleEnv (some (encodeResponse abiX64 (some false) none)) 0
          sampleArgsWorld = .ok w1) ∧
      (1 = 2 → Track_Ldarg_2 sampleEnv (some (encodeResponse abiX64 (some false) none)) 0
          sampleArgsWorld = .ok w1) ∧
      (1 = 3 → Track_Ldarg_3 sampleEnv (some (encodeResponse abiX64 (some false) none)) 0
          sampleArgsWorld = .ok w1) ∧
      (1 < 2 ^ 8 → Track_Ldarg_S sampleEnv (some (encodeResponse abiX64 (some false) none)) 1 0
          sampleArgsWorld = .ok w1) ∧
      (1 < 2 ^ 15 → Track_Ldarg sampleEnv (some (encodeResponse abiX64 (some false) none)) 1 0
          sampleArgsWorld = .ok w1)) ∧
      (sampleArgsFrame.locals[1]? = some false →
        ldloc 1 sampleArgsWorld = .ok (false, sampleArgsWorld) ∧
      (1 = 0 → Track_Ldloc_0 sampleEnv (some (encodeResponse abiX64 (some false) none)) 0
          sampleArgsWorld = .ok w1) ∧
      (1 = 1 → Track_Ldloc_1 sampleEnv (some (encodeResponse abiX64 (some false) none)) 0
          sampleArgsWorld = .ok w1) ∧
      (1 = 2 → Track_Ldloc_2 sampleEnv (some (encodeResponse abiX64 (some false) none)) 0
          sampleArgsWorld = .ok w1) ∧
      (1 = 3 → Track_Ldloc_3 sampleEnv (some (encodeResponse abiX64 (some false) none)) 0
          sampleArgsWorld = .ok w1) ∧
      (1 < 2 ^ 8 → Track_Ldloc_S sampleEnv (some (encodeResponse abiX64 (some false) none)) 1 0
          sampleArgsWorld = .ok w1) ∧
      (1 < 2 ^ 15 → Track_Ldloc sampleEnv (some (encodeResponse abiX64 (some false) none)) 1 0
          sampleArgsWorld = .ok w1)) :=
  C11_load_symbolic sampleEnv 0 sampleArgsWorld [] sampleArgsFrame 1 (some false) none
    (some (encodeResponse abiX64 (some false) none)) rfl (by decide) rfl (Or.inr rfl)
    (by decide) (by intro ds hds; cases hds)

/-- Claim C12: for every frame (with room for one more slot) and every
in-range index i whose argument (resp. local) slot is concrete, the helper
`ldarg` / `ldloc` returns true and the load probe `Track_Ldarg*` (resp.
`Track_Ldloc*`) pops nothing, pushes exactly one concrete flag onto the top
frame's `evalStack`, sends no command and leaves every argument and local
flag, and everything else, unchanged.  The index of `Track_Ldarg` /
`Track_Ldloc` is below 2^15, that of the `_S` probes below 2^8. -/
theorem C12_load_concrete (env : Env) (resp : Option (List Nat)) (offset : Nat) (w : World)
    (rest : List StackFrame) (top : StackFrame) (i : Nat)
    (hframes : w.stack.frames = rest ++ [top])
    (hroom : top.evalStack.length < top.maxStackSize) :
    (top.args[i]? = some true →
      ldarg i w = .ok (true, { w with stack := { w.stack with frames :=
        rest ++ [{ top with evalStack := top.evalStack ++ [true] }] } }) ∧
      (i = 0 → Track_Ldarg_0 env resp offset w = .ok { w with stack := { w.stack with frames :=
        rest ++ [{ top with evalStack := top.evalStack ++ [true] }] } }) ∧
      (i = 1 → Track_Ldarg_1 env resp offset w = .ok { w with stack := { w.stack with frames :=
        rest ++ [{ top with evalStack := top.evalStack ++ [true] }] } }) ∧
      (i = 2 → Track_Ldarg_2 env resp offset w = .ok { w with stack := { w.stack with frames :=
        rest ++ [{ top with evalStack := top.evalStack ++ [true] }] } }) ∧
      (i = 3 → Track_Ldarg_3 env resp offset w = .ok { w with stack := { w.stack with frames :=
        rest ++ [{ top with evalStack := top.evalStack ++ [true] }] } }) ∧
      (i < 2 ^ 8 → Track_Ldarg_S env resp i offset w = .ok { w with stack := { w.stack with frames :=
        rest ++ [{ top with evalStack := top.evalStack ++ [true] }] } }) ∧
      (i < 2 ^ 15 → Track_Ldarg env resp i offset w = .ok { w with stack := { w.stack with frames :=
        rest ++ [{ top with evalStack := top.evalStack ++ [true] }] } })) ∧
    (top.locals[i]? = some true →
      ldloc i w = .ok (true, { w with stack := { w.stack with frames :=
        rest ++ [{ top with evalStack := top.evalStack ++ [true] }] } }) ∧
      (i = 0 → Track_Ldloc_0 env resp offset w = .ok { w with stack := { w.stack with frames :=
        rest ++ [{ top with evalStack := top.evalStack ++ [true] }] } }) ∧
      (i = 1 → Track_Ldloc_1 env resp offset w = .ok { w with stack := { w.stack with frames :=
        rest ++ [{ top with evalStack := top.evalStack ++ [true] }] } }) ∧
      (i = 2 → Track_Ldloc_2 env resp offset w = .ok { w with stack := { w.stack with frames :=
        rest ++ [{ top with evalStack := top.evalStack ++ [true] }] } }) ∧
      (i = 3 → Track_Ldloc_3 env resp offset w = .ok { w with stack := { w.stack with frames :=
        rest ++ [{ top with evalStack := top.evalStack ++ [true] }] } }) ∧
      (i < 2 ^ 8 → Track_Ldloc_S env resp i offset w = .ok { w with stack := { w.stack with frames :=
        rest ++ [{ top with evalStack := top.evalStack ++ [true] }] } }) ∧
      (i < 2 ^ 15 → Track_Ldloc env resp i offset w = .ok { w with stack := { w.stack with frames :=
        rest ++ [{ top with evalStack := top.evalStack ++ [true] }] } })) := by
  obtain ⟨⟨frames, u, m⟩, sent, upd⟩ := w
  simp only at hframes
  subst hframes
  have hgen : unlessSend0 env resp offset (.ok (true, ⟨⟨rest ++
      [{ top with evalStack := top.evalStack ++ [true] }], u, m⟩, sent, upd⟩)) =
      .ok ⟨⟨rest ++ [{ top with evalStack := top.evalStack ++ [true] }], u, m⟩, sent, upd⟩ := by
    simp [unlessSend0, bind, Except.bind, pure, Except.pure]
  refine ⟨?_, ?_⟩
  · intro hslot
    have hl := ldarg_flag rest top u m sent upd i true hslot (fun _ => hroom)
    simp only [if_true] at hl
    have keyLdarg : ∀ j : Int, j = (i : Int) →
        unlessSend0 env resp offset (ldarg j ⟨⟨rest ++ [top], u, m⟩, sent, upd⟩) =
          unlessSend0 env resp offset (.ok (true, ⟨⟨rest ++
            [{ top with evalStack := top.evalStack ++ [true] }], u, m⟩, sent, upd⟩)) := by
      intro j hj
      subst hj
      rw [hl]
    exact ⟨hl, fun hi => (keyLdarg 0 (by subst hi; rfl)).trans hgen,
        fun hi => (keyLdarg 1 (by subst hi; rfl)).trans hgen,
        fun hi => (keyLdarg 2 (by subst hi; rfl)).trans hgen,
        fun hi => (keyLdarg 3 (by subst hi; rfl)).trans hgen,
        fun hi => (keyLdarg _ (by rw [Nat.mod_eq_of_lt hi])).trans hgen,
        fun hi => (keyLdarg _ (signed_sixteen_small i hi)).trans hgen⟩
  · intro hslot
    have hl := ldloc_flag rest top u m sent upd i true hslot (fun _ => hroom)
    simp only [if_true] at hl
    have keyLdloc : ∀ j : Int, j = (i : Int) →
        unlessSend0 env resp offset (ldloc j ⟨⟨rest ++ [top], u, m⟩, sent, upd⟩) =
          unlessSend0 env resp offset (.ok (true, ⟨⟨rest ++
            [{ top with evalStack := top.evalStack ++ [true] }], u, m⟩, sent, upd⟩)) := by
      intro j hj
      subst hj
      rw [hl]
    exact ⟨hl, fun hi => (keyLdloc 0 (by subst hi; rfl)).trans hgen,
        fun hi => (keyLdloc 1 (by subst hi; rfl)).trans hgen,
        fun hi => (keyLdloc 2 (by subst hi; rfl)).trans hgen,
        fun hi => (keyLdloc 3 (by subst hi; rfl)).trans hgen,
        fun hi => (keyLdloc _ (by rw [Nat.mod_eq_of_lt hi])).trans hgen,
        fun hi => (keyLdloc _ (signed_sixteen_small i hi)).trans hgen⟩

/-- Witness of `C12_load_concrete`: argument 0 of the sample frame. -/
theorem C12_load_concrete_witness :
    (sampleArgsFrame.args[0]? = some true →
      ldarg 0 sampleArgsWorld = .ok (true, { sampleArgsWorld with stack := { sampleArgsWorld.stack
          with frames :=
        ([] : List StackFrame) ++ [{ sampleArgsFrame with evalStack := sampleArgsFrame.evalStack ++
            [true] }] } }) ∧
      (0 = 0 → Track_Ldarg_0 sampleEnv none 0 sampleArgsWorld = .ok { sampleArgsWorld
          with stack := { sampleArgsWorld.stack with frames :=
        ([] : List StackFrame) ++ [{ sampleArgsFrame with evalStack := sampleArgsFrame.evalStack ++
            [true] }] } }) ∧
      (0 = 1 → Track_Ldarg_1 sampleEnv none 0 sampleArgsWorld = .ok { sampleArgsWorld
          with stack := { sampleArgsWorld.stack with frames :=
        ([] : List StackFrame) ++ [{ sampleArgsFrame with evalStack := sampleArgsFrame.evalStack ++
            [true] }] } }) ∧
      (0 = 2 → Track_Ldarg_2 sampleEnv none 0 sampleArgsWorld = .ok { sampleArgsWorld
          with stack := { sampleArgsWorld.stack with frames :=
        ([] : List StackFrame) ++ [{ sampleArgsFrame with evalStack := sampleArgsFrame.evalStack ++
            [true] }] } }) ∧
      (0 = 3 → Track_Ldarg_3 sampleEnv none 0 sampleArgsWorld = .ok { sampleArgsWorld
          with stack := { sampleArgsWorld.stack with frames :=
        ([] : List StackFrame) ++ [{ sampleArgsFrame with evalStack := sampleArgsFrame.evalStack ++
            [true] }] } }) ∧
      (0 < 2 ^ 8 → Track_Ldarg_S sampleEnv none 0 0 sampleArgsWorld = .ok { sampleArgsWorld
          with stack := { sampleArgsWorld.stack with frames :=
        ([] : List StackFrame) ++ [{ sampleArgsFrame with evalStack := sampleArgsFrame.evalStack ++
            [true] }] } }) ∧
      (0 < 2 ^ 15 → Track_Ldarg sampleEnv none 0 0 sampleArgsWorld = .ok { sampleArgsWorld
          with stack := { sampleArgsWorld.stack with frames :=
        ([] : List StackFrame) ++ [{ sampleArgsFrame with evalStack := sampleArgsFrame.evalStack ++
            [true] }] } })) ∧
    (sampleArgsFrame.locals[0]? = some true →
      ldloc 0 sampleArgsWorld = .ok (true, { sampleArgsWorld with stack := { sampleArgsWorld.stack
          with frames :=
        ([] : List StackFrame) ++ [{ sampleArgsFrame with evalStack := sampleArgsFrame.evalStack ++
            [true] }] } }) ∧
      (0 = 0 → Track_Ldloc_0 sampleEnv none 0 sampleArgsWorld = .ok { sampleArgsWorld
          with stack := { sampleArgsWorld.stack with frames :=
        ([] : List StackFrame) ++ [{ sampleArgsFrame with evalStack := sampleArgsFrame.evalStack ++
            [true] }] } }) ∧
      (0 = 1 → Track_Ldloc_1 sampleEnv none 0 sampleArgsWorld = .ok { sampleArgsWorld
          with stack := { sampleArgsWorld.stack with frames :=
        ([] : List StackFrame) ++ [{ sampleArgsFrame with evalStack := sampleArgsFrame.evalStack ++
            [true] }] } }) ∧
      (0 = 2 → Track_Ldloc_2 sampleEnv none 0 sampleArgsWorld = .ok { sampleArgsWorld
          with stack := { sampleArgsWorld.stack with frames :=
        ([] : List StackFrame) ++ [{ sampleArgsFrame with evalStack := sampleArgsFrame.evalStack ++
            [true] }] } }) ∧
      (0 = 3 → Track_Ldloc_3 sampleEnv none 0 sampleArgsWorld = .ok { sampleArgsWorld
          with stack := { sampleArgsWorld.stack with frames :=
        ([] : List StackFrame) ++ [{ sampleArgsFrame with evalStack := sampleArgsFrame.evalStack ++
            [true] }] } }) ∧
      (0 < 2 ^ 8 → Track_Ldloc_S sampleEnv none 0 0 sampleArgsWorld = .ok { sampleArgsWorld
          with stack := { sampleArgsWorld.stack with frames :=
        ([] : List StackFrame) ++ [{ sampleArgsFrame with evalStack := sampleArgsFrame.evalStack ++
            [true] }] } }) ∧
      (0 < 2 ^ 15 → Track_Ldloc sampleEnv none 0 0 sampleArgsWorld = .ok { sampleArgsWorld
          with stack := { sampleArgsWorld.stack with frames :=
        ([] : List StackFrame) ++ [{ sampleArgsFrame with evalStack := sampleArgsFrame.evalStack ++
            [true] }] } })) :=
  C12_load_concrete sampleEnv none 0 sampleArgsWorld [] sampleArgsFrame 0 rfl (by decide)

/-- Claim C13: for every frame with a non-empty `evalStack` and every in-range
index i, `starg(i)` (resp. `stloc(i)`) removes exactly the top flag c from
`evalStack`, sets argument (resp. local) slot i to c, returns c, and leaves
every other argument slot, every local (resp. argument) slot and the rest of
`evalStack` unchanged; a symbolic c is recorded among the popped symbolic
slots. -/
theorem C13_store_slot (w : World) (rest : List StackFrame) (top : StackFrame)
    (es : List Bool) (c : Bool) (i : Nat)
    (hframes : w.stack.frames = rest ++ [top])
    (hes : top.evalStack = es ++ [c]) :
    (i < top.args.length →
      starg i w = .ok (c, { w with stack := { w.stack with frames := rest ++ [{ top with
        evalStack := es
        args := top.args.set i c
        poppedSymbolics := if c then top.poppedSymbolics
          else top.poppedSymbolics ++ [(top.symbolicsCount, 0)] }] } }) ∧
      (top.args.set i c)[i]? = some c ∧
      ∀ j, j ≠ i → (top.args.set i c)[j]? = top.args[j]?) ∧
    (i < top.locals.length →
      stloc i w = .ok (c, { w with stack := { w.stack with frames := rest ++ [{ top with
        evalStack := es
        locals := top.locals.set i c
        poppedSymbolics := if c then top.poppedSymbolics
          else top.poppedSymbolics ++ [(top.symbolicsCount, 0)] }] } }) ∧
      (top.locals.set i c)[i]? = some c ∧
      ∀ j, j ≠ i → (top.locals.set i c)[j]? = top.locals[j]?) := by
  obtain ⟨⟨frames, u, m⟩, sent, upd⟩ := w
  simp only at hframes
  subst hframes
  have hpop := StackFrame.popSlot_concat 0 top es c hes
  refine ⟨?_, ?_⟩
  · intro hi
    refine ⟨?_, by simp [hi], fun j hj => by simp [List.getElem?_set, Ne.symm hj]⟩
    simp only [starg, Stack.topFrame_concat, StackFrame.pop1, hpop, bind, Except.bind,
      slotIndex_natCast, StackFrame.setArg, hi, if_true, pure, Except.pure,
      Stack.setTop_concat]
  · intro hi
    refine ⟨?_, by simp [hi], fun j hj => by simp [List.getElem?_set, Ne.symm hj]⟩
    simp only [stloc, Stack.topFrame_concat, StackFrame.pop1, hpop, bind, Except.bind,
      slotIndex_natCast, StackFrame.setLoc, hi, if_true, pure, Except.pure,
      Stack.setTop_concat]

/-- Witness of `C13_store_slot`: a symbolic flag stored into slot 1. -/
theorem C13_store_slot_witness :
    (1 < sampleStoreFrame.args.length →
      starg 1 sampleStoreWorld = .ok (false, { sampleStoreWorld with stack := {
          sampleStoreWorld.stack with frames := ([] : List StackFrame) ++ [{ sampleStoreFrame with
        evalStack := [true]
        args := sampleStoreFrame.args.set 1 false
        poppedSymbolics := if false then sampleStoreFrame.poppedSymbolics
          else sampleStoreFrame.poppedSymbolics ++ [(sampleStoreFrame.symbolicsCount, 0)] }] } }) ∧
      (sampleStoreFrame.args.set 1 false)[1]? = some false ∧
      ∀ j, j ≠ 1 → (sampleStoreFrame.args.set 1 false)[j]? = sampleStoreFrame.args[j]?) ∧
    (1 < sampleStoreFrame.locals.length →
      stloc 1 sampleStoreWorld = .ok (false, { sampleStoreWorld with stack := {
          sampleStoreWorld.stack with frames := ([] : List StackFrame) ++ [{ sampleStoreFrame with
        evalStack := [true]
        locals := sampleStoreFrame.locals.set 1 false
        poppedSymbolics := if false then sampleStoreFrame.poppedSymbolics
          else sampleStoreFrame.poppedSymbolics ++ [(sampleStoreFrame.symbolicsCount, 0)] }] } }) ∧
      (sampleStoreFrame.locals.set 1 false)[1]? = some false ∧
      ∀ j, j ≠ 1 → (sampleStoreFrame.locals.set 1 false)[j]? = sampleStoreFrame.locals[j]?) :=
  C13_store_slot sampleStoreWorld [] sampleStoreFrame [true] false 1 rfl rfl

/-! ## The response reconciler (claims C14 to C17) -/

/-- Claim C14 as stated fails where `char` is signed: a response whose first
byte is the non-zero byte 200 pushes no flag, and a response `[1, 200]`, whose
second byte is non-zero, pushes a symbolic flag; the decoder tests
`bytes[i] > 0` on a `char`. -/
theorem C14_counterexample :
    readConcretizedSymbolics sampleEnv (some [200, 1]) sampleArgsFrame [] =
      .ok (true, sampleArgsFrame, []) ∧
    readConcretizedSymbolics sampleEnv (some [1, 200]) sampleArgsFrame [] =
      .ok (true, { sampleArgsFrame with evalStack := [false] }, []) := by
  decide

/-- Claim C14, amended: `readConcretizedSymbolics` takes the first byte as
"has return value" when it is positive as a `char` (1 to 127 where `char` is
signed, non-zero where it is unsigned), and the same for the concreteness
byte.  For every response whose first byte is positive, exactly one flag is
pushed onto the top frame's `evalStack` (the frame having room) and it is
concrete iff the second byte is positive; for every response whose first byte
is not positive the frame is left unchanged; and when a trailing block is
present (its descriptors fitting the operand array), its 4-byte count N is
read right after those bytes and exactly N operand descriptors are decoded, in
order, into `ops[0..N-1]`, each with the tag and the payload that were
encoded, the other operands being left as they were. -/
theorem C14_response_decoding (env : Env) (top : StackFrame) (ops : List EvalStackOperand)
    (b0 b1 : Nat) (concretized : Option (List EvalStackOperand))
    (hfit : ∀ ds ∈ concretized, ds.length ≤ ops.length ∧ ds.length < 2 ^ 32 ∧
      ∀ d ∈ ds, d.typ < 256 ^ env.abi.enumSize) :
    (charPositive env.abi b0 = true → top.evalStack.length < top.maxStackSize →
      readConcretizedSymbolics env (some ([b0, b1] ++ encodeBlock env.abi concretized)) top ops =
        .ok (true, { top with evalStack := top.evalStack ++ [charPositive env.abi b1] },
          receivedBlock env.abi ops concretized)) ∧
    (charPositive env.abi b0 = false →
      readConcretizedSymbolics env (some ([b0] ++ encodeBlock env.abi concretized)) top ops =
        .ok (true, top, receivedBlock env.abi ops concretized)) ∧
    (∀ b, charPositive env.abi b = true ↔ (0 < b ∧ (env.abi.charSigned = true → b < 128))) ∧
    receivedBlock env.abi ops none = ops ∧
    (∀ ds, receivedBlock env.abi ops (some ds) =
      List.zipWith (EvalStackOperand.received env.abi) ops ds ++ ops.drop ds.length) ∧
    (∀ old d, (EvalStackOperand.received env.abi old d).typ = d.typ ∧
      (d.typ ≠ OpRef → (EvalStackOperand.received env.abi old d).content = d.content % 2 ^ 64)) := by
  refine ⟨fun hflag hroom => readConcretizedSymbolics_flagged env top ops b0 b1 concretized
      hflag hroom hfit,
    fun hflag => readConcretizedSymbolics_unflagged env top ops b0 concretized hflag hfit,
    ?_, rfl, fun _ => rfl, ?_⟩
  · intro b
    cases hs : env.abi.charSigned <;> simp [charPositive, hs]
  · intro old d
    by_cases href : d.typ = OpRef
    · simp [EvalStackOperand.received, href]
    · simp [EvalStackOperand.received, href]

/-- Witness of `C14_response_decoding`: two operands, a response that returns
a symbolic value and concretizes the first operand. -/
theorem C14_response_decoding_witness :
    (charPositive sampleEnv.abi 1 = true → sampleArgsFrame.evalStack.length <
        sampleArgsFrame.maxStackSize →
      readConcretizedSymbolics sampleEnv (some ([1, 0] ++ encodeBlock sampleEnv.abi (some [⟨OpI4,
          7⟩]))) sampleArgsFrame [mkop_4 3, mkop_4 4] =
        .ok (true, { sampleArgsFrame with evalStack := sampleArgsFrame.evalStack ++ [charPositive
            sampleEnv.abi 0] },
          receivedBlock sampleEnv.abi [mkop_4 3, mkop_4 4] (some [⟨OpI4, 7⟩]))) ∧
    (charPositive sampleEnv.abi 1 = false →
      readConcretizedSymbolics sampleEnv (some ([1] ++ encodeBlock sampleEnv.abi (some [⟨OpI4,
          7⟩]))) sampleArgsFrame [mkop_4 3, mkop_4 4] =
        .ok (true, sampleArgsFrame, receivedBlock sampleEnv.abi [mkop_4 3, mkop_4 4] (some [⟨OpI4,
            7⟩]))) ∧
    (∀ b, charPositive sampleEnv.abi b = true ↔ (0 < b ∧ (sampleEnv.abi.charSigned = true → b <
        128))) ∧
    receivedBlock sampleEnv.abi [mkop_4 3, mkop_4 4] none = [mkop_4 3, mkop_4 4] ∧
    (∀ ds, receivedBlock sampleEnv.abi [mkop_4 3, mkop_4 4] (some ds) =
      List.zipWith (EvalStackOperand.received sampleEnv.abi) [mkop_4 3, mkop_4 4] ds ++ [mkop_4 3,
          mkop_4 4].drop ds.length) ∧
    (∀ old d, (EvalStackOperand.received sampleEnv.abi old d).typ = d.typ ∧
      (d.typ ≠ OpRef → (EvalStackOperand.received sampleEnv.abi old d).content = d.content % 2 ^
          64)) :=
  C14_response_decoding sampleEnv sampleArgsFrame [mkop_4 3, mkop_4 4] 1 0 (some [⟨OpI4, 7⟩])
    (by decide)

/-- Claim C15 fails on the code: `sendCommand` never makes a materialization
call, whatever the command and the response: its loop runs over the popped
symbolic slots of the top frame after `initCommand` has cleared them with
`resetPopsTracking`.  After `Track_BinOp` over `[true, false]` the command
marks operand 0 as symbolic; a response that concretizes it (an `int32` with
value 7 as its first descriptor) is decoded into the operand array that
`freeCommand` has already deleted, and a response with an empty block returns
without any call.  On the pair (1, 0) that made `initCommand` mark operand 0,
the loop would moreover address operand `opsCount - 0 - 1` = 1. -/
theorem C15_no_materialization :
    (∀ (env : Env) (resp : Option (List Nat)) (offset : Nat) (ops : List EvalStackOperand)
      (w w1 : World) (r : Bool),
      sendCommand env resp offset ops w = .ok (r, w1) → w1.updates = w.updates) ∧
    (Track_BinOp sampleBinOpWorld >>= fun r =>
      sendCommand sampleEnv (some (encodeResponse abiX64 (some true) (some [⟨OpI4, 7⟩]))) 16
        [mkop_4 3, mkop_4 4] r.2) = .error .outOfBounds ∧
    (Track_BinOp sampleBinOpWorld >>= fun r =>
      sendCommand sampleEnv (some (encodeResponse abiX64 (some true) (some []))) 16
        [mkop_4 3, mkop_4 4] r.2) =
      .ok (true, ⟨⟨[{ sampleBinOpFrame with evalStack := [true] }], 0, 1⟩,
        [⟨16, 0, 0, 0, 2, 0, [], [⟨OpSymbolic, 0⟩, mkop_4 4]⟩], []⟩) ∧
    markSymbolics 1 [(1, 0)] [mkop_4 3, mkop_4 4] = .ok [⟨OpSymbolic, 0⟩, mkop_4 4] ∧
    reconcile [⟨OpI4, 7⟩, mkop_4 4] [(1, 0)] = .ok (updateCalls (mkop_4 4) 1) := by
  refine ⟨?_, by decide, by decide, by decide, by decide⟩
  intro env resp offset ops w w1 r h
  exact sendCommand_updates env resp offset ops w w1 r h

/-- Claim C16 as stated fails: after `Track_BinOp` over `[true, false]`, a
response `[0]`, which concretizes nothing, makes `sendCommand` return true. -/
theorem C16_counterexample :
    (Track_BinOp sampleBinOpWorld >>= fun r =>
      sendCommand sampleEnv (some [0]) 16 [mkop_4 3, mkop_4 4] r.2) =
      .ok (true, ⟨⟨[{ sampleBinOpFrame with evalStack := [] }], 0, 1⟩,
        [⟨16, 0, 0, 0, 2, 0, [], [⟨OpSymbolic, 0⟩, mkop_4 4]⟩], []⟩) := by
  decide

/-- Claim C16, amended: `sendCommand` returns false when the wait for the
response fails and true when a response arrives and is decoded, whichever
operands were symbolic; no check that every symbolic operand was concretized
is made.  It returns true for every well-formed response that carries no
operand descriptor (the operands covering the pending pop positions, the
frame having room for the returned flag); whenever it returns, its result
tells whether a response was received; and a response that carries one or
more descriptors is decoded into the operand array that `freeCommand` has
already deleted, so that there is no normal return. -/
theorem C16_send_result (env : Env) (offset : Nat) (ops : List EvalStackOperand) (w : World)
    (rest : List StackFrame) (top : StackFrame) (returned : Option Bool)
    (concretized : Option (List EvalStackOperand))
    (hframes : w.stack.frames = rest ++ [top])
    (hmin : w.stack.minTopSinceLastSent ≤ w.stack.frames.length)
    (hpos : ∀ p ∈ top.poppedSymbolics, p.2 < ops.length)
    (hroom : returned.isSome → top.evalStack.length < top.maxStackSize)
    (hfit : ∀ ds ∈ concretized, ds = []) :
    (∃ w1, sendCommand env none offset ops w = .ok (false, w1)) ∧
    (∃ w1, sendCommand env (some (encodeResponse env.abi returned concretized)) offset ops w =
      .ok (true, w1)) ∧
    (∀ resp r w1, sendCommand env resp offset ops w = .ok (r, w1) → r = resp.isSome) ∧
    (∀ (d : EvalStackOperand) (ds : List EvalStackOperand), (d :: ds).length < 2 ^ 32 →
      sendCommand env (some (encodeResponse env.abi returned (some (d :: ds)))) offset ops w =
        .error .outOfBounds) := by
  obtain ⟨⟨frames, u, m⟩, sent, upd⟩ := w
  simp only at hframes hmin
  subst hframes
  have hle : m ≤ rest.length + 1 := by simpa using hmin
  refine ⟨?_, ?_, fun resp r w1 h => sendCommand_flag env resp offset ops _ w1 r h, ?_⟩
  · obtain ⟨cmd, marked, -, -, -, -, hsend⟩ := sendCommand_answered env offset ops rest top u m
      sent upd returned concretized none hle hpos (Or.inl rfl) hroom hfit
    exact ⟨_, hsend⟩
  · obtain ⟨cmd, marked, -, -, -, -, hsend⟩ := sendCommand_answered env offset ops rest top u m
      sent upd returned concretized _ hle hpos (Or.inr rfl) hroom hfit
    exact ⟨_, hsend⟩
  · intro d ds hlt
    exact sendCommand_freed env offset ops rest top u m sent upd returned d ds hle hpos hroom hlt

/-- Witness of `C16_send_result`: the state left by `Track_BinOp` over
`[true, false]`, and a response that concretizes nothing. -/
theorem C16_send_result_witness :
    (∃ w1, sendCommand sampleEnv none 16 [mkop_4 3, mkop_4 4] samplePoppedWorld = .ok (false, w1)) ∧
    (∃ w1, sendCommand sampleEnv (some (encodeResponse sampleEnv.abi none none)) 16 [mkop_4 3,
        mkop_4 4] samplePoppedWorld =
      .ok (true, w1)) ∧
    (∀ resp r w1, sendCommand sampleEnv resp 16 [mkop_4 3, mkop_4 4] samplePoppedWorld = .ok (r,
        w1) → r = resp.isSome) ∧
    (∀ (d : EvalStackOperand) (ds : List EvalStackOperand), (d :: ds).length < 2 ^ 32 →
      sendCommand sampleEnv (some (encodeResponse sampleEnv.abi none (some (d :: ds)))) 16
        [mkop_4 3, mkop_4 4] samplePoppedWorld = .error .outOfBounds) :=
  C16_send_result sampleEnv 16 [mkop_4 3, mkop_4 4] samplePoppedWorld [] samplePoppedFrame
    none none rfl (by decide) (by decide) (by decide) (by decide)

/-- Claim C17 fails on the code: `readConcretizedSymbolics` checks the message
length three times only.  A 5-byte response with the return-value flag set
passes `assert(messageLength >= 5)` and its count is then read from the bytes
2 to 5, the last one past the end; a block announcing two descriptors and
holding one is read past its end; a block announcing one descriptor is decoded
into an operand array of capacity 0.  None of the three is rejected as
fatal. -/
theorem C17_decoder_reads_past_end :
    readConcretizedSymbolics sampleEnv (some [1, 1, 0, 0, 0]) sampleArgsFrame [] =
      .error .outOfBounds ∧
    readConcretizedSymbolics sampleEnv
      (some ([0] ++ leBytes 4 2 ++ EvalStackOperand.serialize abiX64 ⟨OpI4, 7⟩)) sampleArgsFrame
      [mkop_4 3, mkop_4 4] = .error .outOfBounds ∧
    readConcretizedSymbolics sampleEnv
      (some ([0] ++ leBytes 4 1 ++ EvalStackOperand.serialize abiX64 ⟨OpI4, 7⟩)) sampleArgsFrame
      [] = .error .outOfBounds ∧
    readConcretizedSymbolics sampleEnv (some [1]) sampleArgsFrame [] = .error .fatal ∧
    readConcretizedSymbolics sampleEnv (some [0, 1, 0]) sampleArgsFrame [] = .error .fatal := by
  decide

/-! ## Unimplemented and always-concrete instruction classes (claims C18 and C19) -/

/-- Claim C18 as stated fails: `Track_Stfld_struct` over two concrete slots
pops them and returns; `mkop_struct` is reached only when `stfld` reports a
symbolic slot. -/
theorem C18_counterexample :
    Track_Stfld_struct sampleEnv none 7 0 0 0
      ⟨⟨[⟨1, 1, [], [], [true, true], [], 4, false, true⟩], 0, 1⟩, [], []⟩ =
    .ok ⟨⟨[⟨1, 1, [], [], [], [], 4, false, true⟩], 0, 1⟩, [], []⟩ := by
  decide

/-- Claim C18, amended: `Track_Calli` aborts with a fatal error on every
invocation, whatever the signature, the offset and the shadow-stack state;
`Track_Stfld_struct` aborts with a fatal error, for every field, pointer and
value, whenever at least one of the two popped slots is symbolic (and when
fewer than two slots can be popped); when both popped slots are concrete it
pops them, sends nothing and returns. -/
theorem C18_unimplemented_probes (env : Env) (resp : Option (List Nat)) (fieldToken : Nat)
    (ptr value : Int) (offset : Nat) (w : World) (rest : List StackFrame) (top : StackFrame)
    (hframes : w.stack.frames = rest ++ [top]) :
    (∀ signature w0, Track_Calli signature offset w0 = .error .fatal) ∧
    (∀ es a b, top.evalStack = es ++ [a, b] → (a && b) = false →
      Track_Stfld_struct env resp fieldToken ptr value offset w = .error .fatal) ∧
    (top.evalStack.length < 2 →
      Track_Stfld_struct env resp fieldToken ptr value offset w = .error .fatal) ∧
    (∀ es, top.evalStack = es ++ [true, true] →
      Track_Stfld_struct env resp fieldToken ptr value offset w =
        .ok { w with stack := { w.stack with frames := rest ++ [{ top with evalStack := es }] } }) := by
  obtain ⟨⟨frames, u, m⟩, sent, upd⟩ := w
  simp only at hframes
  subst hframes
  refine ⟨fun _ _ => rfl, ?_, ?_, ?_⟩
  · intro es a b hes hsym
    have hpop := StackFrame.pop_two top es a b hes
    rw [hsym] at hpop
    simp only [Track_Stfld_struct, stfld, Stack.topFrame_concat, hpop, bind, Except.bind,
      pure, Except.pure, mkop_struct]
    simp
  · intro hshort
    have hfail : top.pop 2 = .error .fatal := by
      rcases hstack : top.evalStack with _ | ⟨x, _ | ⟨y, t⟩⟩
      · simp [StackFrame.pop, StackFrame.popFrom, StackFrame.popSlot, hstack, bind, Except.bind]
      · simp [StackFrame.pop, StackFrame.popFrom, StackFrame.popSlot, hstack, bind, Except.bind]
      · rw [hstack] at hshort
        simp at hshort
        omega
    simp only [Track_Stfld_struct, stfld, Stack.topFrame_concat, hfail, bind, Except.bind]
  · intro es hes
    have hpop := StackFrame.pop_two top es true true hes
    simp only [Track_Stfld_struct, stfld, Stack.topFrame_concat, hpop, bind, Except.bind,
      pure, Except.pure, Stack.setTop_concat]
    simp

/-- Witness of `C18_unimplemented_probes`: a frame holding a concrete slot
below a symbolic one. -/
theorem C18_unimplemented_probes_witness :
    (∀ signature w0, Track_Calli signature 0 w0 = .error .fatal) ∧
    (∀ es a b, sampleBinOpFrame.evalStack = es ++ [a, b] → (a && b) = false →
      Track_Stfld_struct sampleEnv none 7 0 0 0 sampleBinOpWorld = .error .fatal) ∧
    (sampleBinOpFrame.evalStack.length < 2 →
      Track_Stfld_struct sampleEnv none 7 0 0 0 sampleBinOpWorld = .error .fatal) ∧
    (∀ es, sampleBinOpFrame.evalStack = es ++ [true, true] →
      Track_Stfld_struct sampleEnv none 7 0 0 0 sampleBinOpWorld =
        .ok { sampleBinOpWorld with stack := { sampleBinOpWorld.stack with frames := ([] : List
            StackFrame) ++ [{ sampleBinOpFrame with evalStack := es }] } }) :=
  C18_unimplemented_probes sampleEnv none 7 0 0 0 sampleBinOpWorld [] sampleBinOpFrame rfl

/-- Claim C19 as stated fails: `Track_Ldlen` over a symbolic array reference
dispatches a command with one symbolic operand, and the flag left in the
result slot is the one the response announces, here a symbolic one. -/
theorem C19_counterexample :
    Track_Ldlen sampleEnv (some [1, 0]) ⟨0, 0⟩ 0 0 sampleBinOpWorld =
      .ok ⟨⟨[{ sampleBinOpFrame with evalStack := [true, false] }], 0, 1⟩,
        [⟨0, 0, 0, 0, 1, 0, [], [⟨OpSymbolic, 0⟩]⟩], []⟩ := by
  decide

/-- Claim C19, amended: for every top frame with a non-empty `evalStack`
(holding no more slots than its stack size), `Track_Ldlen` over a concrete
array reference leaves a concrete flag in the result slot and dispatches no
command, the state being what it was; over a symbolic array reference, when
no symbolic pop is pending since the last flush and the wait fails or the
response is well formed and carries no operand descriptor, it pops the flag,
dispatches one command whose single operand is marked symbolic, and the flag
left in the result slot is the one the response announces, if any. -/
theorem C19_ldlen (env : Env) (resp : Option (List Nat)) (junk : EvalStackOperand)
    (ptr : Int) (offset : Nat) (w : World) (rest : List StackFrame) (top : StackFrame)
    (returned : Option Bool) (concretized : Option (List EvalStackOperand))
    (hframes : w.stack.frames = rest ++ [top])
    (hcap : top.evalStack.length ≤ top.maxStackSize)
    (hmin : w.stack.minTopSinceLastSent ≤ w.stack.frames.length)
    (hresp : resp = none ∨ resp = some (encodeResponse env.abi returned concretized))
    (hfit : ∀ ds ∈ concretized, ds = []) :
    (∀ es, top.evalStack = es ++ [true] →
      Track_Ldlen env resp junk ptr offset w = .ok w) ∧
    (∀ es, top.evalStack = es ++ [false] → top.poppedSymbolics = [] →
      ∃ cmd w1, Track_Ldlen env resp junk ptr offset w = .ok w1 ∧
        cmd.evaluationStackPushes = [⟨OpSymbolic, 0⟩] ∧
        w1.sent = w.sent ++ [cmd] ∧ w1.updates = w.updates ∧
        w1.stack.frames = rest ++ [{ top with evalStack := es ++
          (if resp.isSome then returned.toList else []) }]) := by
  obtain ⟨⟨frames, u, m⟩, sent, upd⟩ := w
  simp only at hframes hmin
  subst hframes
  have hle : m ≤ rest.length + 1 := by simpa using hmin
  refine ⟨?_, ?_⟩
  · intro es hes
    have hpop := StackFrame.popSlot_concat 0 top es true hes
    have hlen : es.length < top.maxStackSize := by
      rw [hes] at hcap
      simp at hcap
      omega
    have htop : ({ top with evalStack := es ++ [true] } : StackFrame) = top := by
      rw [← hes]
    simp only [Track_Ldlen, popPushOrSend, Stack.topFrame_concat, StackFrame.pop1, hpop,
      bind, Except.bind]
    simp [StackFrame.push1Concrete, StackFrame.push1, hlen, htop, pure, Except.pure,
      Stack.setTop_concat]
  · intro es hes hfresh
    have hpop := StackFrame.popSlot_concat 0 top es false hes
    have hlen : es.length < top.maxStackSize := by
      rw [hes] at hcap
      simp at hcap
      omega
    have hcount : top.symbolicsCount = es.count false + 1 := by
      simp [StackFrame.symbolicsCount, hes, List.count_append]
    obtain ⟨cmd, marked, hmark, -, hpushes, -, hsend⟩ := sendCommand_answered env offset [junk]
      rest { top with evalStack := es, poppedSymbolics := [(es.count false + 1, 0)] } u m
      sent upd returned concretized resp hle (by simp) hresp (fun _ => hlen) hfit
    have hmarked : marked = [⟨OpSymbolic, 0⟩] := by
      have h0 := sub32_u32_add (es.count false + 1) 0 (by decide)
      simp only [Nat.add_zero] at h0
      simp [markSymbolics, StackFrame.symbolicsCount, h0] at hmark
      exact hmark.symm
    refine ⟨cmd, ⟨⟨rest ++ [{ top with evalStack := es ++
        (if resp.isSome then returned.toList else []) }], 0, rest.length + 1⟩,
      sent ++ [cmd], upd⟩, ?_, by rw [hpushes, hmarked], rfl, rfl, rfl⟩
    simp only [Track_Ldlen, popPushOrSend, Stack.topFrame_concat, StackFrame.pop1, hpop,
      bind, Except.bind, hfresh, hcount, sendCommand1, Stack.setTop_concat]
    simp only [Bool.false_eq_true, if_false, List.nil_append, hsend, pure, Except.pure]
    cases resp <;> cases returned <;>
      simp [StackFrame.withReturned, StackFrame.resetPopsTracking, hfresh]

/-- Witness of `C19_ldlen`: a symbolic array reference on top, the executor
returning a symbolic length. -/
theorem C19_ldlen_witness :
    (∀ es, sampleBinOpFrame.evalStack = es ++ [true] →
      Track_Ldlen sampleEnv (some (encodeResponse abiX64 (some false) none)) (⟨0, 0⟩ :
          EvalStackOperand) 0 0 sampleBinOpWorld = .ok sampleBinOpWorld) ∧
    (∀ es, sampleBinOpFrame.evalStack = es ++ [false] → sampleBinOpFrame.poppedSymbolics = [] →
      ∃ cmd w1, Track_Ldlen sampleEnv (some (encodeResponse abiX64 (some false) none)) (⟨0, 0⟩ :
          EvalStackOperand) 0 0 sampleBinOpWorld = .ok w1 ∧
        cmd.evaluationStackPushes = [⟨OpSymbolic, 0⟩] ∧
        w1.sent = sampleBinOpWorld.sent ++ [cmd] ∧ w1.updates = sampleBinOpWorld.updates ∧
        w1.stack.frames = ([] : List StackFrame) ++ [{ sampleBinOpFrame with evalStack := es ++
          (if (some (encodeResponse abiX64 (some false) none)).isSome then (some false).toList else
              []) }]) :=
  C19_ldlen sampleEnv (some (encodeResponse abiX64 (some false) none)) ⟨0, 0⟩ 0 0
    sampleBinOpWorld [] sampleBinOpFrame (some false) none rfl (by decide) (by decide)
    (Or.inr rfl) (by decide)

/-! ## The dispatch of the reconciliation loop (claim C20) -/

/-- Claim C20: in the reconciliation loop of `sendCommand` the dispatch on the
operand's type tag falls through across arms: for an operand tagged `OpI4` it
invokes `update_i4`, `update_i8`, `update_f4`, `update_f8` and `update_p`, in
that order and all with the same index; for `OpI8` the last four; for `OpR4`
the last three; for `OpR8` the last two; for `OpRef` only `update_p` (with
address 0, as in every arm); and for `OpSymbolic` none.  One turn of the loop
makes exactly these calls for the operand it addresses. -/
theorem C20_switch_falls_through (content idx : Nat) :
    updateCalls ⟨OpI4, content⟩ idx =
      [.i4 (signed 32 content) (signed 8 idx), .i8 (signed 64 content) (signed 8 idx),
       .f4 (signed 32 content) (signed 8 idx), .f8 (signed 64 content) (signed 8 idx),
       .p 0 (signed 8 idx)] ∧
    updateCalls ⟨OpI8, content⟩ idx =
      [.i8 (signed 64 content) (signed 8 idx), .f4 (signed 32 content) (signed 8 idx),
       .f8 (signed 64 content) (signed 8 idx), .p 0 (signed 8 idx)] ∧
    updateCalls ⟨OpR4, content⟩ idx =
      [.f4 (signed 32 content) (signed 8 idx), .f8 (signed 64 content) (signed 8 idx),
       .p 0 (signed 8 idx)] ∧
    updateCalls ⟨OpR8, content⟩ idx =
      [.f8 (signed 64 content) (signed 8 idx), .p 0 (signed 8 idx)] ∧
    updateCalls ⟨OpRef, content⟩ idx = [.p 0 (signed 8 idx)] ∧
    updateCalls ⟨OpSymbolic, content⟩ idx = [] ∧
    (∀ (ops : List EvalStackOperand) (pair : Nat × Nat) (op : EvalStackOperand),
      ops[sub32 (sub32 ops.length pair.2) 1]? = some op →
      reconcile ops [pair] = .ok (updateCalls op (sub32 (sub32 ops.length pair.2) 1))) := by
  refine ⟨?_, ?_, ?_, ?_, ?_, ?_, ?_⟩
  · simp [updateCalls, OpI4]
  · simp [updateCalls, OpI4, OpI8]
  · simp [updateCalls, OpI4, OpI8, OpR4]
  · simp [updateCalls, OpI4, OpI8, OpR4, OpR8]
  · simp [updateCalls, OpI4, OpI8, OpR4, OpR8, OpRef]
  · simp [updateCalls, OpI4, OpI8, OpR4, OpR8, OpRef, OpSymbolic]
  · intro ops pair op hop
    have hlt : sub32 (sub32 ops.length pair.2) 1 < ops.length := by
      obtain ⟨h, -⟩ := List.getElem?_eq_some_iff.mp hop
      exact h
    simp [reconcile, reconcileAt, hop, hlt, bind, Except.bind, pure, Except.pure]

/-! ## Operand descriptors and the size of a record (claims C21 to C23) -/

/-- Claim C21, refuted by the code: `mkop_f4` and `mkop_f8` convert their
operand with `(long long)op`, which discards the fractional part, so the
payload does not determine the value.  The values 1.5 and 1.0 differ and give
the same descriptor, of payload 1, for `FLOAT` and for `DOUBLE` alike. -/
theorem C21_float_payload_truncated :
    sampleOneAndHalf.value = 3 / 2 ∧ sampleOne.value = 1 ∧
    sampleOneAndHalf.value ≠ sampleOne.value ∧
    mkop_f4 sampleOneAndHalf = mkop_f4 sampleOne ∧
    mkop_f8 sampleOneAndHalf = mkop_f8 sampleOne ∧
    (mkop_f4 sampleOneAndHalf).content = 1 ∧ (mkop_f8 sampleOneAndHalf).content = 1 := by
  refine ⟨?_, ?_, ?_, ?_, ?_, ?_, ?_⟩
  · norm_num [FloatValue.value, sampleOneAndHalf]
  · norm_num [FloatValue.value, sampleOne]
  · norm_num [FloatValue.value, sampleOneAndHalf, sampleOne]
  · decide
  · decide
  · decide
  · decide

/-- Claim C22: for every operand `op` whose tag is one of `OpSymbolic`, `OpI4`,
`OpI8`, `OpR4`, `OpR8`, `OpRef` (the tag being at least one byte wide and an
address at most eight), `serialize` writes exactly `op.size()` bytes, and
`deserialize`, run on these bytes followed by anything, consumes exactly them
and yields an operand with the same tag and the same payload: the same
`content.number` for a tag other than `OpRef`, the same `content.address` for
`OpRef`. -/
theorem C22_operand_round_trip (abi : Abi) (op old : EvalStackOperand) (rest : List Nat)
    (henum : 1 ≤ abi.enumSize) (hptr : abi.ptrSize ≤ 8)
    (htag : op.typ = OpSymbolic ∨ op.typ = OpI4 ∨ op.typ = OpI8 ∨ op.typ = OpR4 ∨
      op.typ = OpR8 ∨ op.typ = OpRef) :
    (op.serialize abi).length = op.size abi ∧
    (op.serialize abi ++ rest).drop (op.size abi) = rest ∧
    ∃ op1, EvalStackOperand.deserialize abi old (op.serialize abi ++ rest) = .ok (op1, rest) ∧
      op1.typ = op.typ ∧
      (op.typ ≠ OpRef → op1.number = op.number) ∧
      (op.typ = OpRef → op1.address abi = op.address abi) := by
  have hlen := length_serialize abi op
  have hsmall : op.typ < 256 ^ abi.enumSize := by
    have h256 : 256 ^ 1 ≤ 256 ^ abi.enumSize := Nat.pow_le_pow_right (by norm_num) henum
    simp only [OpSymbolic, OpI4, OpI8, OpR4, OpR8, OpRef] at htag
    omega
  refine ⟨hlen, ?_, EvalStackOperand.received abi old op,
    deserialize_serialize_received abi old op rest hsmall, ?_, ?_, ?_⟩
  · rw [← hlen, List.drop_left]
  · unfold EvalStackOperand.received
    split <;> rfl
  · intro hne
    simp [EvalStackOperand.received, hne, EvalStackOperand.number]
  · intro href
    exact address_received abi old op hptr href

/-- Witness of `C22_operand_round_trip`: a reference read over an operand that
held an `OpI4`, on the 64-bit targets. -/
theorem C22_operand_round_trip_witness :
    (EvalStackOperand.serialize abiX64 ⟨OpRef, 4096⟩).length =
      EvalStackOperand.size abiX64 ⟨OpRef, 4096⟩ ∧
    (EvalStackOperand.serialize abiX64 ⟨OpRef, 4096⟩ ++ [7]).drop
      (EvalStackOperand.size abiX64 ⟨OpRef, 4096⟩) = [7] ∧
    ∃ op1, EvalStackOperand.deserialize abiX64 ⟨OpI4, 5⟩
        (EvalStackOperand.serialize abiX64 ⟨OpRef, 4096⟩ ++ [7]) = .ok (op1, [7]) ∧
      op1.typ = (⟨OpRef, 4096⟩ : EvalStackOperand).typ ∧
      ((⟨OpRef, 4096⟩ : EvalStackOperand).typ ≠ OpRef →
        op1.number = (⟨OpRef, 4096⟩ : EvalStackOperand).number) ∧
      ((⟨OpRef, 4096⟩ : EvalStackOperand).typ = OpRef →
        op1.address abiX64 = (⟨OpRef, 4096⟩ : EvalStackOperand).address abiX64) :=
  C22_operand_round_trip abiX64 ⟨OpRef, 4096⟩ ⟨OpI4, 5⟩ [7] (by decide) (by decide)
    (by decide)

/-- Claim C23: for every command whose two count fields are the lengths of
its lists (k new frame tokens, operand list ops) and whose size fits the
`unsigned` counter, the byte count reported by `ExecCommand::serialize` is
`6*4 + 4*k` plus the sum of the `size()` of the operands, and it is exactly the
number of bytes the function writes from the start of the buffer it allocated
with that count. -/
theorem C23_serialize_count (abi : Abi) (c : ExecCommand)
    (hframes : c.newCallStackFrames.length = c.newCallStackFramesCount)
    (hops : c.evaluationStackPushes.length = c.evaluationStackPushesCount)
    (hfit : 6 * 4 + 4 * c.newCallStackFrames.length +
      (c.evaluationStackPushes.map (EvalStackOperand.size abi)).sum < 2 ^ 32) :
    (c.serialize abi).2 = 6 * 4 + 4 * c.newCallStackFrames.length +
      (c.evaluationStackPushes.map (EvalStackOperand.size abi)).sum ∧
    (c.serialize abi).1.length = (c.serialize abi).2 := by
  have htake : c.evaluationStackPushes.take c.evaluationStackPushesCount =
      c.evaluationStackPushes := by
    rw [← hops, List.take_length]
  have hcount : (c.serialize abi).2 = 6 * 4 + 4 * c.newCallStackFrames.length +
      (c.evaluationStackPushes.map (EvalStackOperand.size abi)).sum := by
    simp only [ExecCommand.serialize, ExecCommand.serializedCount, htake, ← hframes]
    unfold u32
    exact Nat.mod_eq_of_lt hfit
  refine ⟨hcount, ?_⟩
  rw [hcount]
  have hk : u32 (c.newCallStackFramesCount * 4) = 4 * c.newCallStackFrames.length := by
    unfold u32
    rw [← hframes]
    omega
  simp only [ExecCommand.serialize, ExecCommand.serializedBytes, htake, List.length_append,
    length_leBytes, List.length_take, length_flatMap_leBytes, length_flatMap_serialize, hk]
  omega

/-- Witness of `C23_serialize_count`: the command `sampleCommand`, of 40 bytes. -/
theorem C23_serialize_count_witness :
    (sampleCommand.serialize abiX64).2 = 6 * 4 + 4 * sampleCommand.newCallStackFrames.length +
      (sampleCommand.evaluationStackPushes.map (EvalStackOperand.size abiX64)).sum ∧
    (sampleCommand.serialize abiX64).1.length = (sampleCommand.serialize abiX64).2 :=
  C23_serialize_count abiX64 sampleCommand (by decide) (by decide) (by decide)

/-! ## The argument array of a call site (claim C24) -/

/-- Claim C24, refuted by the code: for `newobj` the probe `Track_Call`
allocates `argsCount + 1` flags, stores element 0 and then runs `memset` from
element 1 over the incremented count, so that it writes the element whose
index is the allocated length, whatever `argsCount` and the caller frame are;
the call with `newobj` and two arguments on a frame of three operand slots
writes the elements 0 to 3 of an array of 3. -/
theorem C24_newobj_write_past_end :
    (∀ (u r n offset : Nat) (rest : List StackFrame) (top : StackFrame) (um m : Nat)
      (sent : List ExecCommand) (upd : List Update),
      Track_Call u r true n offset ⟨⟨rest ++ [top], um, m⟩, sent, upd⟩ =
        .error .outOfBounds) ∧
    (∀ n, (n + 1, true) ∈ Track_Call_initWrites true (n + 1)) ∧
    Track_Call_initWrites true 3 = [(0, true), (1, true), (2, true), (3, true)] ∧
    writeAll (Track_Call_initWrites true 3) (List.replicate 3 false) = .error .outOfBounds ∧
    Track_Call 9 9 true 2 0 sampleCallWorld = .error .outOfBounds := by
  refine ⟨?_, ?_, by decide, by decide, by decide⟩
  · intro u r n offset rest top um m sent upd
    have hw := writeAll_outOfBounds _ _ (Track_Call_initWrites_newobj ((n + 1) % 2 ^ 16))
    simp only [Track_Call, Stack.topFrame_concat, if_true, bind, Except.bind]
    rw [hw]
  · intro n
    simp only [Track_Call_initWrites, if_true, List.mem_append, List.mem_map, List.mem_range]
    exact Or.inr ⟨n, by omega, by rw [Nat.add_comm]⟩

/-! ## The net effect of a managed call (claim C25) -/

/-- Claim C25: for every n, every token t and every entered caller frame
whose operand stack is `base` followed by n slots (with no symbolic pop
pending, room for one slot above `base`, and a callee of stack size at least
1), the sequence `Track_Call(t, t, newobj = false, n)`, `Track_Enter(t, ...)`,
one push of a flag r in the callee, `Track_Leave(1)`, `Finalize_Call(1)`
returns, leaves the frame count unchanged and leaves the caller with the
operand stack `base` followed by the one flag r, its argument and local flags
unchanged; the frames below the caller are untouched and nothing is sent. -/
theorem C25_managed_call (env : Env) (t n maxStackSize argsCount localsCount offset : Nat)
    (r : Bool) (rest : List StackFrame) (caller : StackFrame) (um m : Nat)
    (sent : List ExecCommand) (upd : List Update) (base popped : List Bool)
    (hes : caller.evalStack = base ++ popped) (hn : popped.length = n)
    (hentered : caller.entered = true) (hfresh : caller.poppedSymbolics = [])
    (hcallee : 1 ≤ maxStackSize) (hroom : base.length < caller.maxStackSize) :
    ∃ w1 caller1,
      managedCall env t n maxStackSize argsCount localsCount r offset
        ⟨⟨rest ++ [caller], um, m⟩, sent, upd⟩ = .ok w1 ∧
      w1.stack.framesCount = (rest ++ [caller]).length ∧
      w1.stack.frames = rest ++ [caller1] ∧
      caller1.evalStack = base ++ [r] ∧
      caller1.args = caller.args ∧ caller1.locals = caller.locals ∧
      w1.sent = sent ∧ w1.updates = upd := by
  obtain ⟨args, entries, hcall, -⟩ :=
    Track_Call_plain t t n offset rest caller um m sent upd base popped hes hn hfresh
  refine ⟨⟨⟨rest ++ [{ caller with evalStack := base ++ [r], poppedSymbolics := entries }],
    um + 1, min m (rest.length + 1)⟩, sent, upd⟩,
    { caller with evalStack := base ++ [r], poppedSymbolics := entries }, ?_, ?_, rfl, rfl,
    rfl, rfl, rfl, rfl⟩
  · simp only [managedCall, hcall, bind, Except.bind]
    simp [Track_Enter, Stack.isEmpty, Stack.topFrame, Stack.setTop, StackFrame.fresh,
      StackFrame.configure, pushFlag, StackFrame.push1, Track_Leave, StackFrame.count,
      StackFrame.pop1, StackFrame.popSlot, Stack.popFrame, Finalize_Call, hentered, hroom,
      bind, Except.bind, pure, Except.pure, Nat.lt_of_lt_of_le Nat.zero_lt_one hcallee]
  · simp [Stack.framesCount]

/-- Witness of `C25_managed_call`: a call of two arguments, one of them
symbolic, that returns a symbolic value. -/
theorem C25_managed_call_witness :
    ∃ w1 caller1,
      managedCall sampleEnv 9 2 2 2 1 false 0 sampleCallerWorld = .ok w1 ∧
      w1.stack.framesCount = ([sampleArgsFrame] ++ [sampleCallerFrame]).length ∧
      w1.stack.frames = [sampleArgsFrame] ++ [caller1] ∧
      caller1.evalStack = [true] ++ [false] ∧
      caller1.args = sampleCallerFrame.args ∧ caller1.locals = sampleCallerFrame.locals ∧
      w1.sent = [] ∧ w1.updates = [] :=
  C25_managed_call sampleEnv 9 2 2 2 1 0 false [sampleArgsFrame] sampleCallerFrame 0 2 [] []
    [true] [false, true] rfl rfl rfl rfl (by decide) (by decide)

/-! ## The branch flag (claim C26) -/

/-- Claim C26: every command sent by `sendCommand`, and so by `sendCommand0`
and `sendCommand1`, which only call it, has its branch flag equal to 0, and
bytes 4..7 of its encoded record are zero; whatever `BrTrue` or `BrFalse`
sends has the branch flag 0; and on a symbolic condition (no symbolic pop
pending, a failed wait or a well-formed response without operand descriptors)
both probes return and send exactly one command, whose branch flag is 0. -/
theorem C26_branch_flag_zero (env : Env) (resp : Option (List Nat)) (junk : EvalStackOperand)
    (offset : Nat) (w : World) (rest : List StackFrame) (top : StackFrame) (es : List Bool)
    (returned : Option Bool) (concretized : Option (List EvalStackOperand))
    (hframes : w.stack.frames = rest ++ [top])
    (hes : top.evalStack = es ++ [false]) (hfresh : top.poppedSymbolics = [])
    (hcap : top.evalStack.length ≤ top.maxStackSize)
    (hmin : w.stack.minTopSinceLastSent ≤ w.stack.frames.length)
    (hresp : resp = none ∨ resp = some (encodeResponse env.abi returned concretized))
    (hfit : ∀ ds ∈ concretized, ds = []) :
    (∀ (resp0 : Option (List Nat)) (offset0 : Nat) (ops : List EvalStackOperand)
      (w0 w1 : World) (r : Bool), sendCommand env resp0 offset0 ops w0 = .ok (r, w1) →
      ∃ cmd, w1.sent = w0.sent ++ [cmd] ∧ cmd.isBranch = 0 ∧
        ((cmd.serialize env.abi).1.drop 4).take 4 = [0, 0, 0, 0]) ∧
    (∀ (resp0 : Option (List Nat)) (offset0 : Nat) (w0 : World),
      sendCommand0 env resp0 offset0 w0 = sendCommand env resp0 offset0 [] w0 ∧
      sendCommand1 env resp0 junk offset0 w0 = sendCommand env resp0 offset0 [junk] w0) ∧
    (∀ (resp0 : Option (List Nat)) (offset0 : Nat) (w0 w1 : World),
      (BrTrue env resp0 junk offset0 w0 = .ok w1 ∨ BrFalse env resp0 junk offset0 w0 = .ok w1) →
      w1.sent = w0.sent ∨ ∃ cmd, w1.sent = w0.sent ++ [cmd] ∧ cmd.isBranch = 0) ∧
    (∃ cmd w1, BrTrue env resp junk offset w = .ok w1 ∧
      BrFalse env resp junk offset w = .ok w1 ∧
      w1.sent = w.sent ++ [cmd] ∧ cmd.isBranch = 0 ∧
      ((cmd.serialize env.abi).1.drop 4).take 4 = [0, 0, 0, 0]) := by
  have hbytes : ∀ cmd : ExecCommand, cmd.isBranch = 0 →
      ((cmd.serialize env.abi).1.drop 4).take 4 = [0, 0, 0, 0] := by
    intro cmd h0
    rw [serializedBytes_branch, h0]
    rfl
  refine ⟨?_, fun _ _ _ => ⟨rfl, rfl⟩, ?_, ?_⟩
  · intro resp0 offset0 ops w0 w1 r h
    obtain ⟨cmd, hsent, h0⟩ := sendCommand_branch_flag env resp0 offset0 ops w0 w1 r h
    exact ⟨cmd, hsent, h0, hbytes cmd h0⟩
  · intro resp0 offset0 w0 w1 h
    have hb : ∃ r, branch env resp0 junk offset0 w0 = .ok (r, w1) := by
      rcases h with h | h
      · simp only [BrTrue, bind, Except.bind] at h
        split at h
        · cases h
        · rename_i v hv
          simp only [pure, Except.pure, Except.ok.injEq] at h
          exact ⟨v.1, by rw [hv, ← h]⟩
      · simp only [BrFalse, bind, Except.bind] at h
        split at h
        · cases h
        · rename_i v hv
          simp only [pure, Except.pure, Except.ok.injEq] at h
          exact ⟨v.1, by rw [hv, ← h]⟩
    obtain ⟨r, hr⟩ := hb
    exact branch_sent env resp0 junk offset0 w0 w1 r hr
  · obtain ⟨⟨frames, u, m⟩, sent, upd⟩ := w
    simp only at hframes hmin
    subst hframes
    have hle : m ≤ rest.length + 1 := by simpa using hmin
    have hpop := StackFrame.popSlot_concat 0 top es false hes
    have hlen : es.length < top.maxStackSize := by
      rw [hes] at hcap
      simp at hcap
      omega
    obtain ⟨cmd, marked, -, hinit, -, -, hsend⟩ := sendCommand_answered env offset [junk]
      rest { top with evalStack := es, poppedSymbolics := [(top.symbolicsCount, 0)] } u m
      sent upd returned concretized resp hle (by simp) hresp (fun _ => hlen) hfit
    have h0 := initCommand_isBranch env offset [junk] _ _ cmd hinit
    refine ⟨cmd, ⟨⟨rest ++ [StackFrame.withReturned (if resp.isSome then returned else none)
      (StackFrame.resetPopsTracking { top with
        evalStack := es, poppedSymbolics := [(top.symbolicsCount, 0)] })], 0, rest.length + 1⟩,
      sent ++ [cmd], upd⟩, ?_, ?_, ?_, h0, hbytes cmd h0⟩
    · simp only [BrTrue, branch, Stack.topFrame_concat, StackFrame.pop1, hpop, bind,
        Except.bind, hfresh, sendCommand1, Stack.setTop_concat]
      simp only [Bool.false_eq_true, if_false, List.nil_append, not_false_eq_true, if_true,
        hsend, pure, Except.pure]
    · simp only [BrFalse, branch, Stack.topFrame_concat, StackFrame.pop1, hpop, bind,
        Except.bind, hfresh, sendCommand1, Stack.setTop_concat]
      simp only [Bool.false_eq_true, if_false, List.nil_append, not_false_eq_true, if_true,
        hsend, pure, Except.pure]
    · rfl

/-- Witness of `C26_branch_flag_zero`: a symbolic condition on top, the
executor answering with a symbolic flag. -/
theorem C26_branch_flag_zero_witness :
    (∀ (resp0 : Option (List Nat)) (offset0 : Nat) (ops : List EvalStackOperand)
      (w0 w1 : World) (r : Bool), sendCommand sampleEnv resp0 offset0 ops w0 = .ok (r, w1) →
      ∃ cmd, w1.sent = w0.sent ++ [cmd] ∧ cmd.isBranch = 0 ∧
        ((cmd.serialize sampleEnv.abi).1.drop 4).take 4 = [0, 0, 0, 0]) ∧
    (∀ (resp0 : Option (List Nat)) (offset0 : Nat) (w0 : World),
      sendCommand0 sampleEnv resp0 offset0 w0 = sendCommand sampleEnv resp0 offset0 [] w0 ∧
      sendCommand1 sampleEnv resp0 (⟨0, 0⟩ : EvalStackOperand) offset0 w0 =
        sendCommand sampleEnv resp0 offset0 [(⟨0, 0⟩ : EvalStackOperand)] w0) ∧
    (∀ (resp0 : Option (List Nat)) (offset0 : Nat) (w0 w1 : World),
      (BrTrue sampleEnv resp0 (⟨0, 0⟩ : EvalStackOperand) offset0 w0 = .ok w1 ∨
        BrFalse sampleEnv resp0 (⟨0, 0⟩ : EvalStackOperand) offset0 w0 = .ok w1) →
      w1.sent = w0.sent ∨ ∃ cmd, w1.sent = w0.sent ++ [cmd] ∧ cmd.isBranch = 0) ∧
    (∃ cmd w1, BrTrue sampleEnv (some (encodeResponse abiX64 (some false) none))
        (⟨0, 0⟩ : EvalStackOperand) 0 sampleBinOpWorld = .ok w1 ∧
      BrFalse sampleEnv (some (encodeResponse abiX64 (some false) none))
        (⟨0, 0⟩ : EvalStackOperand) 0 sampleBinOpWorld = .ok w1 ∧
      w1.sent = sampleBinOpWorld.sent ++ [cmd] ∧ cmd.isBranch = 0 ∧
      ((cmd.serialize sampleEnv.abi).1.drop 4).take 4 = [0, 0, 0, 0]) :=
  C26_branch_flag_zero sampleEnv (some (encodeResponse abiX64 (some false) none)) ⟨0, 0⟩ 0
    sampleBinOpWorld [] sampleBinOpFrame [true] (some false) none rfl rfl rfl (by decide)
    (by decide) (Or.inr rfl) (by decide)

end icsharp
